import Mathlib

/-!
# Breakroom: the dashboard packer and the backend routers

A shallow embedding of `src/frontend/src/stores/breakroom.js`
(`getLayoutForColCount`, `buildResponsiveLayouts`, `saveLayoutForColCount`)
and the properties of the packer stated in the specification, followed by an
embedding of the backend (`src/backend/index.js`, the middleware `refreshSession`,
and the shortcuts, test-results, lyrics and gallery routers) with the properties of
its handlers.

Modelling conventions.
* Grid coordinates (`x`, `w`, `h`, the column count, a block's default `y`) are
  natural numbers.  A `y` coordinate of a layout entry or of a saved position is a
  `JSNum`: an integer or one of the two infinities, because the packer itself starts
  from `Infinity` and `Math.max()` of an empty slice is `-Infinity`.
* The sums `item.y + item.h` and `bestY + block.h` are sums of doubles: `JSNum.addNat`
  rounds the sum of the integers to the nearest double (`2^53 + 1` is `2^53`) and gives
  `Infinity` from `2^1024` on.  The rectangles of the specification are measured with
  the sum that is not rounded, `JSNum.addExact`.
* An object used as a map is a function from keys to optional values; the key made
  from a number is that number (`String` of a number is injective), the key made
  from `NaN` is `none`.
* `colHeights` is the list of the first `colCount` cells of the JavaScript array.  A
  write at an index `>= colCount` only creates cells that no later read reaches
  (every slice ends at or before `colCount`), so the model drops such writes.
* `Array.prototype.sort` is stable; it is modelled by a stable insertion sort.
-/

namespace Breakroom

/-- JavaScript numbers as the packer meets them: the integers and the two infinities. -/
inductive JSNum where
  | negInf : JSNum
  | fin (n : Int) : JSNum
  | posInf : JSNum
  deriving DecidableEq, Repr

namespace JSNum

/-- The comparison `a <= b`. -/
protected def le : JSNum → JSNum → Prop
  | negInf, _ => True
  | fin _, negInf => False
  | fin a, fin b => a ≤ b
  | fin _, posInf => True
  | posInf, negInf => False
  | posInf, fin _ => False
  | posInf, posInf => True

/-- The comparison `a < b`. -/
protected def lt : JSNum → JSNum → Prop
  | negInf, negInf => False
  | negInf, fin _ => True
  | negInf, posInf => True
  | fin _, negInf => False
  | fin a, fin b => a < b
  | fin _, posInf => True
  | posInf, _ => False

/-- Deciding `a <= b`. -/
def decLe : (a b : JSNum) → Decidable (JSNum.le a b)
  | negInf, _ => isTrue trivial
  | fin _, negInf => isFalse not_false
  | fin a, fin b => inferInstanceAs (Decidable (a ≤ b))
  | fin _, posInf => isTrue trivial
  | posInf, negInf => isFalse not_false
  | posInf, fin _ => isFalse not_false
  | posInf, posInf => isTrue trivial

/-- Deciding `a < b`. -/
def decLt : (a b : JSNum) → Decidable (JSNum.lt a b)
  | negInf, negInf => isFalse not_false
  | negInf, fin _ => isTrue trivial
  | negInf, posInf => isTrue trivial
  | fin _, negInf => isFalse not_false
  | fin a, fin b => inferInstanceAs (Decidable (a < b))
  | fin _, posInf => isTrue trivial
  | posInf, _ => isFalse not_false

instance instLinearOrder : LinearOrder JSNum where
  le := JSNum.le
  lt := JSNum.lt
  le_refl a := by cases a <;> simp [JSNum.le]
  le_trans a b c := by
    cases a <;> cases b <;> cases c <;> simp [JSNum.le] <;> omega
  lt_iff_le_not_le a b := by
    cases a <;> cases b <;> simp [JSNum.le, JSNum.lt] <;> omega
  le_antisymm a b := by
    cases a <;> cases b <;> simp [JSNum.le] <;> omega
  le_total a b := by
    cases a <;> cases b <;> simp [JSNum.le] <;> omega
  decidableLE := decLe
  decidableLT := decLt

/-- The number of binary digits of `n`; `fuel` bounds the number of halvings. -/
def bitsOf : Nat → Nat → Nat
  | 0, _ => 0
  | fuel + 1, n => if n = 0 then 0 else bitsOf fuel (n / 2) + 1

/-- The natural number rounded to a double: the 53 leading bits are kept and the rest
is rounded to the nearest, a tie to the even one (up to `2^53` nothing is cut off). -/
def roundNat (n : Nat) : Nat :=
  let shift := bitsOf n n - 53
  let q := n / 2 ^ shift
  let r := n % 2 ^ shift
  if 2 * r < 2 ^ shift ∨ (2 * r = 2 ^ shift ∧ q % 2 = 0) then q * 2 ^ shift
  else (q + 1) * 2 ^ shift

/-- The integer as a JavaScript number.  Up to `2^53` in magnitude every integer is a
double; beyond, the magnitude is rounded, and the result is an infinity when the rounded
magnitude reaches `2^1024` (it has 1025 binary digits). -/
def toDouble (n : Int) : JSNum :=
  if n.natAbs ≤ 2 ^ 53 then fin n
  else if 1025 ≤ bitsOf (roundNat n.natAbs) (roundNat n.natAbs) then
    (if 0 ≤ n then posInf else negInf)
  else if 0 ≤ n then fin (roundNat n.natAbs) else fin (-(roundNat n.natAbs : Int))

/-- JavaScript `a + h` for a number `a` and a finite non-negative `h`: the sum of the two
doubles, rounded to a double. -/
def addNat : JSNum → Nat → JSNum
  | negInf, _ => negInf
  | fin a, h => toDouble (a + (h : Int))
  | posInf, _ => posInf

/-- The sum `a + h` of the integers themselves, without rounding. -/
def addExact : JSNum → Nat → JSNum
  | negInf, _ => negInf
  | fin a, h => fin (a + (h : Int))
  | posInf, _ => posInf

/-- A finite number lies between `lo` and `hi`; the infinities pass. -/
def Within (lo hi : Int) : JSNum → Prop
  | fin n => lo ≤ n ∧ n ≤ hi
  | _ => True

instance decWithin (lo hi : Int) (v : JSNum) : Decidable (Within lo hi v) :=
  match v with
  | negInf => isTrue trivial
  | fin n => inferInstanceAs (Decidable (lo ≤ n ∧ n ≤ hi))
  | posInf => isTrue trivial

end JSNum

/-- A dashboard block as held in `state.blocks`: `i` is the grid identifier. -/
structure Block where
  id : Int
  i : String
  x : Nat
  y : Nat
  w : Nat
  h : Nat
  deriving DecidableEq, Repr

/-- A saved position `{ x, y, w, h }`. -/
structure Pos where
  x : Nat
  y : JSNum
  w : Nat
  h : Nat
  deriving DecidableEq, Repr

/-- A layout entry `{ i, x, y, w, h }`. -/
structure Item where
  i : String
  x : Nat
  y : JSNum
  w : Nat
  h : Nat
  deriving DecidableEq, Repr

/-- Property key of `state.positions`: the number used as key, `none` for `NaN`. -/
abbrev Key := Option Int

/-- The reactive store `state`. -/
structure State where
  blocks : List Block
  positions : Key → Option (Nat → Option Pos)
  loading : Bool
  error : Option String

/-- The lookup `state.positions[block.id]?.[colCount]`. -/
def savedAt (st : State) (block : Block) (colCount : Nat) : Option Pos :=
  (st.positions (some block.id)).bind (fun byCol => byCol colCount)

/-- The entry `{ i: block.i, x: saved.x, y: saved.y, w: saved.w, h: saved.h }`. -/
def savedItem (block : Block) (saved : Pos) : Item :=
  { i := block.i, x := saved.x, y := saved.y, w := saved.w, h := saved.h }

/-- The list `savedItems` after the partition loop. -/
def savedItems (st : State) (colCount : Nat) : List Item :=
  st.blocks.filterMap (fun block => (savedAt st block colCount).map (savedItem block))

/-- The list `unsavedBlocks` after the partition loop (before sorting). -/
def unsavedBlocks (st : State) (colCount : Nat) : List Block :=
  st.blocks.filter (fun block => (savedAt st block colCount).isNone)

/-- One seeding write `colHeights[col] = Math.max(colHeights[col], v)`. -/
def raiseCol (colHeights : List JSNum) (col : Nat) (v : JSNum) : List JSNum :=
  if h : col < colHeights.length then colHeights.set col (max (colHeights.get ⟨col, h⟩) v)
  else colHeights

/-- The inner seeding loop for one saved item. -/
def seedItem (colHeights : List JSNum) (item : Item) : List JSNum :=
  (List.range' item.x item.w).foldl
    (fun acc col => raiseCol acc col (JSNum.addNat item.y item.h)) colHeights

/-- The array `colHeights` after seeding: `new Array(colCount).fill(0)` raised by
every saved item. -/
def seedHeights (colCount : Nat) (saved : List Item) : List JSNum :=
  saved.foldl seedItem (List.replicate colCount (JSNum.fin 0))

/-- The comparator `(a, b) => a.y - b.y || a.x - b.x`. -/
def compareBlocks (a b : Block) : Int :=
  if (a.y : Int) - (b.y : Int) ≠ 0 then (a.y : Int) - (b.y : Int) else (a.x : Int) - (b.x : Int)

/-- The order the comparator induces: `a` may stand before `b`. -/
def blockLE (a b : Block) : Prop := compareBlocks a b ≤ 0

instance blockLE_decidable : DecidableRel blockLE := fun a b =>
  inferInstanceAs (Decidable (compareBlocks a b ≤ 0))

/-- The stable sort `unsavedBlocks.sort(...)`. -/
def sortBlocks (bs : List Block) : List Block := List.insertionSort blockLE bs

/-- The expression `Math.max(...colHeights.slice(x, x + w))`. -/
def windowMax (colHeights : List JSNum) (x w : Nat) : JSNum :=
  ((colHeights.drop x).take w).foldl max JSNum.negInf

/-- One iteration of the search loop on `(bestX, bestY)`. -/
def searchStep (colHeights : List JSNum) (w : Nat) (best : Nat × JSNum) (x : Nat) : Nat × JSNum :=
  if windowMax colHeights x w < best.2 then (x, windowMax colHeights x w) else best

/-- The search loop `for (let x = 0; x <= colCount - w; x++)`, returning
`(bestX, bestY)`. -/
def findBest (colCount : Nat) (colHeights : List JSNum) (w : Nat) : Nat × JSNum :=
  (List.range (colCount - w + 1)).foldl (searchStep colHeights w) (0, JSNum.posInf)

/-- The loop `for (col = bestX; col < bestX + w; col++) colHeights[col] = v`. -/
def setRange (colHeights : List JSNum) (x w : Nat) (v : JSNum) : List JSNum :=
  (List.range' x w).foldl (fun acc col => acc.set col v) colHeights

/-- The body of the `map` callback: the entry of one unsaved block together with the
column heights it leaves. -/
def placeBlock (colCount : Nat) (colHeights : List JSNum) (block : Block) : Item × List JSNum :=
  let w := min block.w colCount
  let best := findBest colCount colHeights w
  ({ i := block.i, x := best.1, y := best.2, w := w, h := block.h },
    setRange colHeights best.1 w (JSNum.addNat best.2 block.h))

/-- The call `unsavedBlocks.map(...)` with its running `colHeights`. -/
def packAll (colCount : Nat) : List JSNum → List Block → List Item × List JSNum
  | colHeights, [] => ([], colHeights)
  | colHeights, block :: rest =>
    let placed := placeBlock colCount colHeights block
    let packed := packAll colCount placed.2 rest
    (placed.1 :: packed.1, packed.2)

/-- The array `colHeights` at the moment the blocks `pre`, the first of the sorted
unsaved blocks, have been placed. -/
def heightsAfter (st : State) (colCount : Nat) (pre : List Block) : List JSNum :=
  (packAll colCount (seedHeights colCount (savedItems st colCount)) pre).2

/-- The list `unsavedItems`. -/
def unsavedItems (st : State) (colCount : Nat) : List Item :=
  (packAll colCount (seedHeights colCount (savedItems st colCount))
    (sortBlocks (unsavedBlocks st colCount))).1

/-- The method `getLayoutForColCount(colCount)`: the layout array it returns. -/
def getLayoutForColCount (st : State) (colCount : Nat) : List Item :=
  if (unsavedBlocks st colCount).length = 0 then savedItems st colCount
  else savedItems st colCount ++ unsavedItems st colCount

/-- The call `getLayoutForColCount(colCount)` as a step on the store: the layout it
returns and the store it leaves.  The method only reads `state.blocks` and
`state.positions`; its arrays (`savedItems`, `unsavedBlocks`, `colHeights`) are local,
and `sort` works on the local `unsavedBlocks`. -/
def runGetLayoutForColCount (st : State) (colCount : Nat) : List Item × State :=
  (getLayoutForColCount st colCount, st)

/-- The table `BREAKPOINT_COLS`, in insertion order. -/
def BREAKPOINT_COLS : List (String × Nat) :=
  [("lg", 5), ("md", 4), ("sm", 3), ("xs", 2), ("xxs", 1)]

/-- The method `buildResponsiveLayouts()`: the `layouts` object (in insertion order)
and the store it leaves. -/
def buildResponsiveLayouts (st : State) : List (String × List Item) × State :=
  BREAKPOINT_COLS.foldl
    (fun (acc : List (String × List Item) × State) (entry : String × Nat) =>
      let called := runGetLayoutForColCount acc.2 entry.2
      (acc.1 ++ [(entry.1, called.1)], called.2))
    ([], st)

/-- How the request `authFetch(...)` of a save ends: the promise is rejected with an
error message, or resolves to a response with the flag `res.ok`. -/
inductive FetchOutcome where
  | rejected (message : String) : FetchOutcome
  | resolved (ok : Bool) : FetchOutcome
  deriving DecidableEq, Repr

/-- The two writes `if (!state.positions[id]) state.positions[id] = {}` and
`state.positions[id][colCount] = pos`. -/
def setPosition (positions : Key → Option (Nat → Option Pos)) (id : Key) (colCount : Nat)
    (pos : Pos) : Key → Option (Nat → Option Pos) :=
  fun k =>
    if k = id then
      some (fun c => if c = colCount then some pos else ((positions id).getD (fun _ => none)) c)
    else positions k

/-- The array `items` of `saveLayoutForColCount`: `id` is `parseInt(item.i)`. -/
def saveItems (parseInt : String → Key) (layoutItems : List Item) : List (Key × Pos) :=
  layoutItems.map (fun item =>
    (parseInt item.i, { x := item.x, y := item.y, w := item.w, h := item.h }))

/-- The loop `for (const item of items)` that updates the local cache. -/
def updateCache (positions : Key → Option (Nat → Option Pos)) (colCount : Nat)
    (items : List (Key × Pos)) : Key → Option (Nat → Option Pos) :=
  items.foldl (fun acc item => setPosition acc item.1 colCount item.2) positions

/-- The method `saveLayoutForColCount(colCount, layoutItems)`.  The built-in
`parseInt` (its result used as a property key) and the outcome of the request are
parameters.  The result is `Except.ok ()` when the promise resolves and
`Except.error message` when it rejects with `message`, together with the store left. -/
def saveLayoutForColCount (parseInt : String → Key) (outcome : FetchOutcome)
    (colCount : Nat) (layoutItems : List Item) (st : State) : Except String Unit × State :=
  let items := saveItems parseInt layoutItems
  match outcome with
  | FetchOutcome.rejected message => (Except.error message, { st with error := some message })
  | FetchOutcome.resolved false =>
    (Except.error ("Failed to save layout"), { st with error := some ("Failed to save layout") })
  | FetchOutcome.resolved true =>
    (Except.ok (), { st with positions := updateCache st.positions colCount items })

/-- The lookup `state.positions[id]?.[colCount]` at an arbitrary key. -/
def lookupPosition (st : State) (id : Key) (colCount : Nat) : Option Pos :=
  (st.positions id).bind (fun byCol => byCol colCount)

/-! ## Notions of the specification -/

/-- The entry occupies the grid cell `(col, row)`: the cell lies in the rectangle
`[x, x + w) x [y, y + h)`, with `y + h` the sum of the integers. -/
def Item.covers (it : Item) (col : Nat) (row : Int) : Prop :=
  it.x ≤ col ∧ col < it.x + it.w ∧ it.y ≤ JSNum.fin row ∧
    JSNum.fin row < JSNum.addExact it.y it.h

instance Item.covers_decidable (it : Item) (col : Nat) (row : Int) :
    Decidable (it.covers col row) :=
  by unfold Item.covers; infer_instance

/-- Two entries occupy no common grid cell. -/
def NoOverlap (a b : Item) : Prop :=
  ∀ (col : Nat) (row : Int), ¬ (a.covers col row ∧ b.covers col row)

/-- The entry spans the grid column `col`. -/
def Item.spans (it : Item) (col : Nat) : Prop := it.x ≤ col ∧ col < it.x + it.w

/-- On every grid column both entries span, `b` starts at or after the bottom edge
`y + h` of `a`. -/
def Stacked (a b : Item) : Prop :=
  ∀ col, a.spans col → b.spans col → JSNum.addExact a.y a.h ≤ b.y

/-- The column heights have reached the bottom edge of every listed entry on every
column of the array that the entry spans. -/
def Covered (placed : List Item) (colHeights : List JSNum) : Prop :=
  ∀ it ∈ placed, ∀ (col : Nat) (v : JSNum), it.spans col → colHeights[col]? = some v →
    JSNum.addExact it.y it.h ≤ v

/-- Every column height is at least 0 and, when finite, at most `top`. -/
def HeightsUpTo (top : Int) (colHeights : List JSNum) : Prop :=
  ∀ (j : Nat) (v : JSNum), colHeights[j]? = some v → JSNum.fin 0 ≤ v ∧ v.Within 0 top

/-- The rows of the layout stay among the integers that a double holds exactly: the
bottom edge `y + h` of every saved entry with a finite `y` lies between `-2^53` and
`top`, and `top` plus the heights of all the blocks without a saved position is at most
`2^53`. -/
def ExactRows (st : State) (colCount : Nat) (top : Nat) : Prop :=
  (∀ it ∈ savedItems st colCount, (JSNum.addExact it.y it.h).Within (-(2 ^ 53)) top) ∧
    (top : Int) + (((unsavedBlocks st colCount).map Block.h).sum : Nat) ≤ 2 ^ 53

instance ExactRows.decidable (st : State) (colCount : Nat) (top : Nat) :
    Decidable (ExactRows st colCount top) := by
  unfold ExactRows
  infer_instance

/-- The number `m` is the maximum current height among the columns `[x, x + w)` of
`colHeights`: an upper bound of those heights below every other upper bound (for an
empty span this is `-Infinity`). -/
def IsWindowMax (colHeights : List JSNum) (x w : Nat) (m : JSNum) : Prop :=
  (∀ col v, x ≤ col → col < x + w → colHeights[col]? = some v → v ≤ m) ∧
    ∀ m', (∀ col v, x ≤ col → col < x + w → colHeights[col]? = some v → v ≤ m') → m ≤ m'

/-- Ascending original `y` and, for equal `y`, ascending original `x`. -/
def keyLE (a b : Block) : Prop := a.y < b.y ∨ (a.y = b.y ∧ a.x ≤ b.x)

/-! ## Sample stores -/

/-- A cache with the given saved positions `(block id, column count, position)`. -/
def cacheOf (entries : List (Int × Nat × Pos)) : Key → Option (Nat → Option Pos) :=
  entries.foldl (fun acc e => setPosition acc (some e.1) e.2.1 e.2.2) (fun _ => none)

/-- Four blocks, the first saved at three columns. -/
def sampleStore : State :=
  { blocks := [⟨1, "1", 0, 0, 2, 2⟩, ⟨2, "2", 2, 0, 2, 1⟩, ⟨3, "3", 0, 2, 3, 1⟩,
      ⟨4, "4", 0, 2, 1, 1⟩],
    positions := cacheOf [(1, 3, ⟨1, JSNum.fin 0, 2, 2⟩)],
    loading := false,
    error := none }

/-- The sample store while a request is pending and an earlier error is shown. -/
def sampleStoreBusy : State :=
  { sampleStore with loading := true, error := some ("Failed to save layout") }

/-- Two blocks saved on the same cell at two columns. -/
def overlapStore : State :=
  { blocks := [⟨1, "1", 0, 0, 1, 1⟩, ⟨2, "2", 0, 0, 1, 1⟩],
    positions := cacheOf [(1, 2, ⟨0, JSNum.fin 0, 1, 1⟩), (2, 2, ⟨0, JSNum.fin 0, 1, 1⟩)],
    loading := false,
    error := none }

/-- Two blocks at one column, the first saved at row `2^53` with height 1. -/
def edgeStore : State :=
  { blocks := [⟨1, "1", 0, 0, 1, 1⟩, ⟨2, "2", 0, 0, 1, 1⟩],
    positions := cacheOf [(1, 1, ⟨0, JSNum.fin 9007199254740992, 1, 1⟩)],
    loading := false,
    error := none }

/-- Two blocks at two columns, the first saved two columns wide at row `2^53 + 4` with
height 1 (`2^53 + 5` is no double: the doubles next to it are `2^53 + 4` and
`2^53 + 6`). -/
def edgeStoreWide : State :=
  { blocks := [⟨1, "1", 0, 0, 2, 1⟩, ⟨2, "2", 1, 0, 1, 1⟩],
    positions := cacheOf [(1, 2, ⟨0, JSNum.fin 9007199254740996, 2, 1⟩)],
    loading := false,
    error := none }

/-- The largest double, `2^1024 - 2^971` (about `1.7976931348623157e308`), which is an
integer. -/
def maxDouble : Nat := 2 ^ 1024 - 2 ^ 971

/-- Two blocks at one column, the first saved at row `maxDouble` with height
`maxDouble`. -/
def overflowStore : State :=
  { blocks := [⟨1, "1", 0, 0, 1, maxDouble⟩, ⟨2, "2", 0, 0, 1, 1⟩],
    positions := cacheOf [(1, 1, ⟨0, JSNum.fin maxDouble, 1, maxDouble⟩)],
    loading := false,
    error := none }

/-- One block whose saved position at two columns is three cells wide. -/
def wideStore : State :=
  { blocks := [⟨1, "1", 0, 0, 3, 1⟩],
    positions := cacheOf [(1, 2, ⟨0, JSNum.fin 0, 3, 1⟩)],
    loading := false,
    error := none }



/-! # Backend: `src/backend/index.js` and `src/backend/middleware/refreshSession.js`

Strings are lists of characters under `String.data`; a response is its status together
with the part of the body a claim can observe. -/

/-- The body of a response, as far as the claims look at it: a JSON object with a
`message` field, any other JSON object, the target of a redirect, or a page. -/
inductive Body where
  | message (text : String) : Body
  | payload : Body
  | location (url : String) : Body
  | page (html : String) : Body
  deriving DecidableEq, Repr

/-- A response that has been sent: `res.status(status)` followed by `json`, `redirect`
or `send`. -/
structure Response where
  status : Nat
  body : Body
  deriving DecidableEq, Repr

/-- The call `s.startsWith(start)`. -/
def startsWith (s start : String) : Bool := start.data.isPrefixOf s.data

/-- The call `path.replace(/^\//, '')`: one leading slash is removed. -/
def stripLeadingSlash (path : String) : String :=
  match path.data with
  | '/' :: rest => String.mk rest
  | _ => path

/-- The test on line 117: the key already carries one of the new S3 folders. -/
def hasS3Folder (key : String) : Bool :=
  startsWith key "profiles/" || startsWith key "chat/" || startsWith key "blog/" ||
    startsWith key "gallery/"

/-- The variable `s3Key` of `handleS3Redirect` once the `if` on line 117 is done. -/
def s3KeyOf (key : String) : String :=
  if !hasS3Folder key then
    if startsWith key "profile_" then "profiles/" ++ key
    else if startsWith key "chat_" then "chat/" ++ key
    else key
  else key

/-- The handler `handleS3Redirect`.  The helper `getS3Url` of `utilities/aws-s3` is a
parameter; `path` is `req.path`. -/
def handleS3Redirect (getS3Url : String → String) (path : String) : Response :=
  let key := stripLeadingSlash path
  if key = "" then { status := 404, body := Body.message "File not found" }
  else { status := 301, body := Body.location (getS3Url (s3KeyOf key)) }

/-! ## The sliding session middleware -/

/-- The options object passed to `res.cookie`. -/
structure CookieOptions where
  maxAge : Nat
  domain : Option String
  path : String
  httpOnly : Bool
  secure : Bool
  sameSite : String
  deriving DecidableEq, Repr

/-- A call `res.cookie(name, value, options)`. -/
structure CookieCall where
  name : String
  value : String
  options : CookieOptions
  deriving DecidableEq, Repr

/-- What a middleware did to the response and to the chain: the cookies and headers
it set, in order, how often it called `next()`, and whether it ended the response. -/
structure MiddlewareEffect where
  cookies : List CookieCall
  headers : List (String × String)
  nextCalls : Nat
  ended : Bool
  deriving DecidableEq, Repr

/-- The part of `process.env` the middleware reads. -/
structure ProcessEnv where
  NODE_ENV : Option String
  CORS_ORIGIN : Option String
  deriving DecidableEq, Repr

/-- The constant `COOKIE_MAX_AGE`. -/
def COOKIE_MAX_AGE : Nat := 48 * 60 * 60 * 1000

/-- The expression `process.env.CORS_ORIGIN?.startsWith('https') ||
process.env.NODE_ENV === 'production'`. -/
def cookieSecure (env : ProcessEnv) : Bool :=
  (match env.CORS_ORIGIN with
    | some origin => startsWith origin "https"
    | none => false) || env.NODE_ENV == some "production"

/-- The middleware `refreshSession`.  Parameters: `token` is what `extractToken(req)`
returned (`none` for `undefined` or `null`); `verify token` is the `username` of the
payload when `jwt.verify(token, SECRET_KEY)` returns (`none` when it throws; the inner
option is `none` when the payload has no `username`); `sign username expiresIn` is
`jwt.sign({ username }, SECRET_KEY, { expiresIn })`. -/
def refreshSession (env : ProcessEnv) (verify : String → Option (Option String))
    (sign : Option String → String → String) (token : Option String) : MiddlewareEffect :=
  match token with
  | none => { cookies := [], headers := [], nextCalls := 1, ended := false }
  | some t =>
    if t = "" then { cookies := [], headers := [], nextCalls := 1, ended := false }
    else
      match verify t with
      | some username =>
        let newToken := sign username "48h"
        { cookies := [{ name := "jwtToken", value := newToken,
                        options := { maxAge := COOKIE_MAX_AGE,
                                     domain := if env.NODE_ENV = some "production"
                                       then some ".prosaurus.com" else none,
                                     path := "/", httpOnly := false,
                                     secure := cookieSecure env, sameSite := "lax" } }],
          headers := [("X-New-Token", newToken)],
          nextCalls := 1,
          ended := false }
      | none => { cookies := [], headers := [], nextCalls := 1, ended := false }

/-! ## Open Graph injection -/

/-- The first occurrence of `pat` in `s`: the text before it and the text after it. -/
def splitAtFirst (pat : List Char) : List Char → Option (List Char × List Char)
  | [] => if pat.isPrefixOf [] then some ([], []) else none
  | c :: rest =>
    if pat.isPrefixOf (c :: rest) then some ([], (c :: rest).drop pat.length)
    else (splitAtFirst pat rest).map (fun found => (c :: found.1, found.2))

/-- The replacement text of `String.prototype.replace` with a replacement string and
no capture groups (`GetSubstitution`), read one character at a time; `pending` says
that the character before was a dollar still waiting for its second character.  `$$`
is `$`, `$&` is the matched text, a dollar followed by a backtick is the text before
the match, a dollar followed by an apostrophe is the text after it; every other
character stands for itself. -/
def substituteFrom (matched before after : List Char) : Bool → List Char → List Char
  | pending, [] => if pending then ['$'] else []
  | pending, c :: rest =>
    if pending then
      if c = '$' then '$' :: substituteFrom matched before after false rest
      else if c = '&' then matched ++ substituteFrom matched before after false rest
      else if c = Char.ofNat 96 then before ++ substituteFrom matched before after false rest
      else if c = Char.ofNat 39 then after ++ substituteFrom matched before after false rest
      else '$' :: c :: substituteFrom matched before after false rest
    else if c = '$' then substituteFrom matched before after true rest
    else c :: substituteFrom matched before after false rest

/-- The replacement text for a replacement string `repl`. -/
def getSubstitution (matched before after repl : List Char) : List Char :=
  substituteFrom matched before after false repl

/-- The call `s.replace(pat, repl)` with a string pattern: the first occurrence only. -/
def replaceFirst (s pat repl : List Char) : List Char :=
  match splitAtFirst pat s with
  | none => s
  | some (before, after) => before ++ getSubstitution pat before after repl ++ after

/-- The first match of the regular expression `<title>[^<]*<\/title>` in `s`: the text
before the match, the matched text and the text after it. -/
def matchTitle : List Char → Option (List Char × List Char × List Char)
  | [] => none
  | c :: rest =>
    let s := c :: rest
    let inner := (s.drop 7).takeWhile (fun ch => ch != '<')
    let tail := (s.drop 7).dropWhile (fun ch => ch != '<')
    if "<title>".data.isPrefixOf s && "</title>".data.isPrefixOf tail then
      some ([], "<title>".data ++ inner ++ "</title>".data, tail.drop 8)
    else (matchTitle rest).map (fun found => (c :: found.1, found.2.1, found.2.2))

/-- The call `s.replace(/<title>[^<]*<\/title>/, repl)`. -/
def replaceTitle (s repl : List Char) : List Char :=
  match matchTitle s with
  | none => s
  | some (before, matched, after) =>
    before ++ getSubstitution matched before after repl ++ after

/-- A global replace `s.replace(/c/g, repl)` of one character by a text without `$`. -/
def replaceAllChar (c : Char) (repl : List Char) (s : List Char) : List Char :=
  s.flatMap (fun ch => if ch = c then repl else [ch])

/-- The function `escapeHtml`. -/
def escapeHtml (str : String) : String :=
  String.mk
    (replaceAllChar '>' "&gt;".data
      (replaceAllChar '<' "&lt;".data
        (replaceAllChar '"' "&quot;".data
          (replaceAllChar '&' "&amp;".data str.data))))

/-- The function `injectOgIntoHtml`; an absent or empty `title` is the empty string. -/
def injectOgIntoHtml (html ogTags title : String) : String :=
  let result := replaceFirst html.data "</head>".data (ogTags.data ++ "\n  </head>".data)
  if title ≠ "" then
    String.mk (replaceTitle result
      ("<title>".data ++ (escapeHtml title).data ++ "</title>".data))
  else String.mk result

/-- What the claim asks of `injectOgIntoHtml` when `title` is empty: the first
`</head>` replaced by the text of `ogTags`, verbatim, followed by a line break, two
blanks and `</head>`. -/
def injectVerbatim (html ogTags : String) : String :=
  match splitAtFirst "</head>".data html.data with
  | none => html
  | some (before, after) =>
    String.mk (before ++ ogTags.data ++ "\n  </head>".data ++ after)

/-- JavaScript truthiness of an optional string: present and not empty. -/
def truthy (s : Option String) : Bool :=
  match s with
  | some t => t != ""
  | none => false

/-- The argument object of `buildOgTags`. -/
structure OgInput where
  title : String
  description : String
  url : String
  image : Option String
  siteName : String
  authorName : Option String
  deriving DecidableEq, Repr

/-- The function `buildOgTags`. -/
def buildOgTags (og : OgInput) : String :=
  let tags :=
    "\n    <meta property=\"og:title\" content=\"" ++ escapeHtml og.title ++ "\" />" ++
    "\n    <meta property=\"og:description\" content=\"" ++ escapeHtml og.description ++
      "\" />" ++
    "\n    <meta property=\"og:url\" content=\"" ++ escapeHtml og.url ++ "\" />" ++
    "\n    <meta property=\"og:type\" content=\"article\" />" ++
    "\n    <meta property=\"og:site_name\" content=\"" ++ escapeHtml og.siteName ++ "\" />" ++
    "\n    <meta name=\"twitter:card\" content=\"" ++
      (if truthy og.image then "summary_large_image" else "summary") ++ "\" />" ++
    "\n    <meta name=\"twitter:title\" content=\"" ++ escapeHtml og.title ++ "\" />" ++
    "\n    <meta name=\"twitter:description\" content=\"" ++ escapeHtml og.description ++
      "\" />" ++
    "\n    <meta name=\"description\" content=\"" ++ escapeHtml og.description ++ "\" />"
  let withAuthor :=
    if truthy og.authorName then
      tags ++ "\n    <meta name=\"author\" content=\"" ++
        escapeHtml (og.authorName.getD "") ++ "\" />"
    else tags
  if truthy og.image then
    withAuthor ++ "\n    <meta property=\"og:image\" content=\"" ++
      escapeHtml (og.image.getD "") ++ "\" />" ++
      "\n    <meta name=\"twitter:image\" content=\"" ++
      escapeHtml (og.image.getD "") ++ "\" />"
  else withAuthor

/-- A post whose title holds dollar signs. -/
def dollarPost : OgInput :=
  { title := "Save $$$ now", description := "A post", url := "https://www.prosaurus.com/b/x/1",
    image := none, siteName := "Prosaurus Breakroom", authorName := none }


/-! # Backend routers: the database client and the handler monad

The routers talk to the database through the client of `utilities/db`, which is not
part of the sources at hand; its operations are modelled below.  A handler is a
function of an oracle and a world: the oracle says which awaited calls reject and
what the statements that are not interpreted return, the world holds the tables, the
open transaction and the counts of acquired and released clients. -/

/-- A thrown JavaScript error: its `code` and its `message`. -/
structure JsError where
  code : String
  message : String
  deriving DecidableEq, Repr

/-- A row of `users`. -/
structure UserRow where
  id : Int
  handle : String
  deriving DecidableEq, Repr

/-- A row of `songs`. -/
structure SongRow where
  id : Int
  user_id : Int
  title : String
  description : Option String
  genre : Option String
  status : String
  visibility : String
  deriving DecidableEq, Repr

/-- A row of `song_collaborators`. -/
structure CollaboratorRow where
  song_id : Int
  user_id : Int
  role : String
  invited_by : Int
  deriving DecidableEq, Repr

/-- A row of `lyrics`. -/
structure LyricRow where
  id : Int
  user_id : Int
  song_id : Option Int
  title : Option String
  content : String
  section_type : String
  section_order : Option Int
  mood : Option String
  notes : Option String
  status : String
  deriving DecidableEq, Repr

/-- A row of `user_shortcuts`. -/
structure ShortcutRow where
  id : Int
  user_id : Int
  name : String
  url : String
  icon : Option String
  sort_order : Int
  deriving DecidableEq, Repr

/-- A row of `test_runs`. -/
structure TestRunRow where
  id : Int
  platform : String
  environment : String
  branch : Option String
  commit_hash : Option String
  total_tests : Nat
  passed_tests : Nat
  failed_tests : Nat
  skipped_tests : Nat
  status : String
  deriving DecidableEq, Repr

/-- A row of `test_suites`. -/
structure TestSuiteRow where
  id : Int
  test_run_id : Int
  name : Option String
  file_path : Option String
  category : Option String
  duration_ms : Option Nat
  total_tests : Nat
  passed_tests : Nat
  failed_tests : Nat
  skipped_tests : Nat
  status : String
  deriving DecidableEq, Repr

/-- A row of `test_cases`. -/
structure TestCaseRow where
  id : Int
  test_suite_id : Int
  name : Option String
  status : String
  duration_ms : Option Nat
  error_message : Option String
  error_stack : Option String
  deriving DecidableEq, Repr

/-- The tables whose statements are interpreted. -/
structure Tables where
  users : List UserRow
  songs : List SongRow
  collaborators : List CollaboratorRow
  lyrics : List LyricRow
  shortcuts : List ShortcutRow
  runs : List TestRunRow
  suites : List TestSuiteRow
  cases : List TestCaseRow
  deriving DecidableEq, Repr

/-- The database as one connection sees it: the tables it works on and, while a
transaction is open, the tables as they were when it began. -/
structure Db where
  tables : Tables
  snapshot : Option Tables
  deriving DecidableEq, Repr

/-- The tables that are durable: those at the start of the open transaction, or the
current ones when no transaction is open. -/
def Db.committed (db : Db) : Tables := db.snapshot.getD db.tables

/-- What a statement that is not interpreted returned, as far as a handler looks at
it: `rowCount`, `affectedRows`, the `user_id` and the `image_path` of the first row. -/
structure Answer where
  rowCount : Nat
  affectedRows : Option Nat
  firstUserId : Option Int
  firstImagePath : Option String
  deriving DecidableEq, Repr

/-- The object returned by `uploadToS3` and `deleteFromS3`. -/
structure S3Result where
  success : Bool
  error : String
  deriving DecidableEq, Repr

/-- The environment of one request: `fault n` is the error with which the awaited call
number `n` rejects, if it does; `answer n` is what it returns when it is a statement
that is not interpreted; `stored n` what it returns when it is a call to S3. -/
structure Oracle where
  fault : Nat → Option JsError
  answer : Nat → Answer
  stored : Nat → S3Result

/-- The state a handler runs in. -/
structure World where
  db : Db
  calls : Nat
  acquired : Nat
  released : Nat
  deriving DecidableEq, Repr

/-- An `async` function: given the oracle and the world it either returns a value or
rejects with an error, and leaves a world. -/
def Run (α : Type) : Type := Oracle → World → Except JsError α × World

namespace Run

/-- Returning a value. -/
protected def pure {α : Type} (a : α) : Run α := fun _ w => (Except.ok a, w)

/-- Sequencing; a rejection skips what follows. -/
protected def bind {α β : Type} (m : Run α) (f : α → Run β) : Run β := fun o w =>
  match m o w with
  | (Except.ok a, w') => f a o w'
  | (Except.error e, w') => (Except.error e, w')

instance instMonad : Monad Run where
  pure := Run.pure
  bind := Run.bind

/-- The statement `throw e`. -/
protected def throw {α : Type} (e : JsError) : Run α := fun _ w => (Except.error e, w)

/-- The statement `try { m } catch (err) { handler(err) }`. -/
protected def tryCatch {α : Type} (m : Run α) (handler : JsError → Run α) : Run α := fun o w =>
  match m o w with
  | (Except.ok a, w') => (Except.ok a, w')
  | (Except.error e, w') => handler e o w'

/-- The statement `try { m } finally { cleanup }`. -/
protected def tryFinally {α : Type} (m : Run α) (cleanup : Run Unit) : Run α := fun o w =>
  match m o w with
  | (result, w') =>
    match cleanup o w' with
    | (Except.ok _, w'') => (result, w'')
    | (Except.error e, w'') => (Except.error e, w'')

/-- An awaited call to the outside: it rejects when the oracle says so, otherwise it
acts on the world; either way it counts as one call. -/
def call {α : Type} (act : Oracle → World → α × World) : Run α := fun o w =>
  match o.fault w.calls with
  | some e => (Except.error e, { w with calls := w.calls + 1 })
  | none =>
    match act o w with
    | (a, w') => (Except.ok a, { w' with calls := w.calls + 1 })

end Run

/-- Modelled from the spec: `getClient()` of `utilities/db`, which acquires a
connection from the pool. -/
def getClient : Run Unit :=
  Run.call (fun _ w => ((), { w with acquired := w.acquired + 1 }))

/-- Modelled from the spec: `client.release()` of `utilities/db`, which hands the
connection back; it is not awaited and does not reject. -/
def release : Run Unit := fun _ w => (Except.ok (), { w with released := w.released + 1 })

/-- Modelled from the spec: `client.query(sql, params)` of `utilities/db` for a
statement that is interpreted: `statement` gives its result and the tables it leaves. -/
def query {α : Type} (statement : Tables → α × Tables) : Run α :=
  Run.call (fun _ w =>
    match statement w.db.tables with
    | (a, tables) => (a, { w with db := { w.db with tables := tables } }))

/-- A `SELECT` whose rows only go into the body of the response. -/
def queryRows : Run Unit := query (fun tables => ((), tables))

/-- Modelled from the spec: `client.query(sql, params)` for a statement that is not
interpreted: its result comes from the oracle, the interpreted tables stay. -/
def queryAny : Run Answer := Run.call (fun o w => (o.answer w.calls, w))

/-- Modelled from the spec: `client.beginTransaction()` of `utilities/db`. -/
def beginTransaction : Run Unit :=
  Run.call (fun _ w => ((), { w with db := { w.db with snapshot := some w.db.tables } }))

/-- Modelled from the spec: `client.commit()` of `utilities/db`. -/
def commit : Run Unit :=
  Run.call (fun _ w => ((), { w with db := { w.db with snapshot := none } }))

/-- Modelled from the spec: `client.rollback()` of `utilities/db`. -/
def rollback : Run Unit :=
  Run.call (fun _ w =>
    ((), { w with db := { tables := w.db.snapshot.getD w.db.tables, snapshot := none } }))

/-- A call to `uploadToS3` or `deleteFromS3` of `utilities/aws-s3`. -/
def callS3 : Run S3Result := Run.call (fun o w => (o.stored w.calls, w))

/-- The error thrown by the runtime itself (`TypeError`). -/
def typeError : JsError := { code := "TypeError", message := "TypeError" }

/-- The response `res.status(status).json({ message })`. -/
def sendMessage (status : Nat) (text : String) : Response :=
  { status := status, body := Body.message text }

/-- The response `res.status(status).json(object)` for an object without `message`. -/
def sendJson (status : Nat) : Response := { status := status, body := Body.payload }

/-- The shape shared by the route handlers:
`const client = await getClient(); try { body } catch (err) { onError(err) } finally
{ client.release() }`. -/
def withClient (body : Run Response) (onError : JsError → Run Response) : Run Response := do
  getClient
  Run.tryFinally (Run.tryCatch body onError) release

/-- The usual `catch` block: log and answer 500 with a fixed message. -/
def failWith (text : String) : JsError → Run Response :=
  fun _ => pure (sendMessage 500 text)

/-! ## Requests -/

/-- A field of a JSON body that the code tells apart from `undefined`. -/
inductive Field (α : Type) where
  | undefined : Field α
  | null : Field α
  | value (a : α) : Field α
  deriving DecidableEq, Repr

/-- Truthiness of a numeric field: present and not zero. -/
def Field.truthyInt : Field Int → Bool
  | Field.value n => n != 0
  | _ => false

/-- The value sent to the database for a numeric field. -/
def Field.toOption {α : Type} : Field α → Option α
  | Field.value a => some a
  | _ => none

/-- White space as `String.prototype.trim` sees it. -/
def isJsSpace (c : Char) : Bool :=
  c.toNat = 9 || c.toNat = 10 || c.toNat = 11 || c.toNat = 12 || c.toNat = 13 ||
  c.toNat = 32 || c.toNat = 160 || c.toNat = 5760 || (8192 ≤ c.toNat && c.toNat ≤ 8202) ||
  c.toNat = 8232 || c.toNat = 8233 || c.toNat = 8239 || c.toNat = 8287 ||
  c.toNat = 12288 || c.toNat = 65279

/-- The call `s.trim()`. -/
def jsTrim (s : String) : String :=
  String.mk ((s.data.dropWhile isJsSpace).reverse.dropWhile isJsSpace).reverse

/-- The test `!s || s.trim().length === 0` on an optional string. -/
def blank (s : Option String) : Bool :=
  match s with
  | some t => jsTrim t == ""
  | none => true

/-- The expression `s || fallback` on an optional string. -/
def orElse (s : Option String) (fallback : String) : String :=
  match s with
  | some t => if t = "" then fallback else t
  | none => fallback

/-- The expression `s || null` on an optional string. -/
def orNull (s : Option String) : Option String :=
  match s with
  | some t => if t = "" then none else some t
  | none => none

/-- One entry of `lyricOrder`. -/
structure ReorderItem where
  id : Int
  section_order : Option Int
  deriving DecidableEq, Repr

/-- One entry of `suite.tests`. -/
structure TestInput where
  name : Option String
  status : Option String
  duration_ms : Option Nat
  error_message : Option String
  error_stack : Option String
  deriving DecidableEq, Repr

/-- One entry of `suites`. -/
structure SuiteInput where
  name : Option String
  file_path : Option String
  category : Option String
  duration_ms : Option Nat
  tests : Option (List TestInput)
  deriving DecidableEq, Repr

/-- A request as the routers read it.  `token` is what `extractToken(req)` returns,
`apiKey` the header `x-api-key`; `id`, `userId` are the numeric route parameters;
the other fields are those of `req.body` and `req.query`. -/
structure Request where
  token : Option String
  apiKey : Option String
  id : Int
  userId : Int
  title : Option String
  description : Option String
  genre : Option String
  status : Option String
  visibility : Option String
  handle : Option String
  role : Option String
  content : Option String
  song_id : Field Int
  section_type : Option String
  section_order : Field Int
  mood : Option String
  notes : Option String
  lyricOrder : Option (List ReorderItem)
  name : Option String
  url : Option String
  icon : Option String
  platform : Option String
  environment : Option String
  branch : Option String
  commit_hash : Option String
  suites : Option (List SuiteInput)
  hasFile : Bool
  gallery_url : Option String
  gallery_name : Option String
  deriving DecidableEq, Repr

/-- What the routers take from outside: `verify token` is the `username` of the
payload when `jwt.verify(token, SECRET_KEY)` returns and `none` when it throws;
`TEST_API_KEY` is the variable of that name in `process.env`. -/
structure Config where
  verify : String → Option String
  TEST_API_KEY : Option String

/-- The next value of an `AUTO_INCREMENT` column: above every id in the table. -/
def nextId (ids : List Int) : Int := ids.foldl max 0 + 1

/-- The statement `SELECT id, handle, ... FROM users WHERE handle = $1`. -/
def selectUserByHandle (handle : String) (t : Tables) : List UserRow × Tables :=
  (t.users.filter (fun u => u.handle = handle), t)

/-- The middleware `authenticate` of the four routers (they differ in the columns
they select).  The result is the response it sent, or the row it stored in
`req.user` before calling `next()`. -/
def authenticate (cfg : Config) (req : Request) : Run (Except Response UserRow) :=
  Run.tryCatch
    (if !truthy req.token then pure (Except.error (sendMessage 401 "Not authenticated"))
     else
      match cfg.verify (req.token.getD "") with
      | none => Run.throw { code := "JsonWebTokenError", message := "invalid token" }
      | some username => do
        getClient
        let result ← query (selectUserByHandle username)
        release
        match result with
        | [] => pure (Except.error (sendMessage 401 "User not found"))
        | user :: _ => pure (Except.ok user))
    (fun _ => pure (Except.error (sendMessage 401 "Invalid token")))

/-- A route guarded by `authenticate`: the handler runs when `next()` was called. -/
def authenticated (cfg : Config) (req : Request) (handler : UserRow → Run Response) :
    Run Response := do
  match (← authenticate cfg req) with
  | Except.error response => pure response
  | Except.ok user => handler user

/-- The middleware `apiKeyAuth` followed by the handler. -/
def apiKeyAuth (cfg : Config) (req : Request) (handler : Run Response) : Run Response :=
  if truthy cfg.TEST_API_KEY && req.apiKey != cfg.TEST_API_KEY then
    pure (sendMessage 401 "Invalid API key")
  else handler


/-! ## The lyrics router: `src/backend/routes/lyrics.js` -/

/-- A row of the statement of `canAccessSong`: `id`, `user_id`, `visibility` and the
sub-select `collab_role` (`none` for `NULL`). -/
structure SongAccessRow where
  id : Int
  user_id : Int
  visibility : String
  collab_role : Option String
  deriving DecidableEq, Repr

/-- The object returned by `canAccessSong`. -/
structure SongAccess where
  access : Bool
  song : Option SongAccessRow
  role : Option String
  deriving DecidableEq, Repr

/-- The sub-select `(SELECT role FROM song_collaborators WHERE song_id = s.id AND
user_id = $2)`. -/
def collabRole (t : Tables) (songId userId : Int) : Option String :=
  (t.collaborators.find? (fun c => c.song_id = songId ∧ c.user_id = userId)).map
    (fun c => c.role)

/-- The statement of `canAccessSong`. -/
def selectSongAccess (songId userId : Int) (t : Tables) : List SongAccessRow × Tables :=
  ((t.songs.filter (fun s => s.id = songId)).map
    (fun s => { id := s.id, user_id := s.user_id, visibility := s.visibility,
                collab_role := collabRole t s.id userId }), t)

/-- The part of `canAccessSong` after the statement. -/
def resolveAccess (rows : List SongAccessRow) (userId : Int) : SongAccess :=
  match rows with
  | [] => { access := false, song := none, role := none }
  | song :: _ =>
    if song.user_id = userId then { access := true, song := some song, role := some "owner" }
    else if truthy song.collab_role then
      { access := true, song := some song, role := song.collab_role }
    else if song.visibility = "public" then
      { access := true, song := some song, role := some "viewer" }
    else { access := false, song := none, role := none }

/-- The helper `canAccessSong(client, songId, userId)`. -/
def canAccessSong (songId userId : Int) : Run SongAccess := do
  let rows ← query (selectSongAccess songId userId)
  pure (resolveAccess rows userId)

/-- The helper `canEditSong(client, songId, userId)`. -/
def canEditSong (songId userId : Int) : Run Bool := do
  let result ← canAccessSong songId userId
  if !result.access then pure false
  else pure (result.role == some "owner" || result.role == some "editor")

/-- The statement `INSERT INTO songs (...) VALUES (...)` of `POST /songs`. -/
def insertSong (user : UserRow) (req : Request) (t : Tables) : Unit × Tables :=
  ((), { t with songs := t.songs ++
    [{ id := nextId (t.songs.map (fun s => s.id)), user_id := user.id,
       title := jsTrim (req.title.getD ""), description := orNull req.description,
       genre := orNull req.genre, status := orElse req.status "idea",
       visibility := orElse req.visibility "private" }] })

/-- The statement `UPDATE songs SET ... WHERE id = $6` of `PUT /songs/:id`. -/
def updateSong (req : Request) (t : Tables) : Unit × Tables :=
  ((), { t with songs := t.songs.map (fun s =>
    if s.id = req.id then
      { s with title := jsTrim (req.title.getD ""), description := orNull req.description,
               genre := orNull req.genre, status := orElse req.status "idea",
               visibility := orElse req.visibility "private" }
    else s) })

/-- The statement `DELETE FROM songs WHERE id = $1 AND user_id = $2`; the result is
`rowCount`. -/
def deleteOwnSong (songId userId : Int) (t : Tables) : Nat × Tables :=
  ((t.songs.filter (fun s => s.id = songId ∧ s.user_id = userId)).length,
    { t with songs := t.songs.filter (fun s => ¬ (s.id = songId ∧ s.user_id = userId)) })

/-- The statement `SELECT id FROM songs WHERE id = $1 AND user_id = $2`; the result
is `rowCount`. -/
def selectOwnSong (songId userId : Int) (t : Tables) : Nat × Tables :=
  ((t.songs.filter (fun s => s.id = songId ∧ s.user_id = userId)).length, t)

/-- The statement `SELECT ... FROM users WHERE handle = $1` with the `handle` of the
body, which may be missing. -/
def selectUserByBodyHandle (handle : Option String) (t : Tables) : List UserRow × Tables :=
  match handle with
  | some h => selectUserByHandle h t
  | none => ([], t)

/-- The statement `INSERT INTO song_collaborators ... ON DUPLICATE KEY UPDATE role =
$3`, the key being `(song_id, user_id)`. -/
def upsertCollaborator (songId userId : Int) (role : String) (invitedBy : Int) (t : Tables) :
    Unit × Tables :=
  if t.collaborators.any (fun c => c.song_id = songId ∧ c.user_id = userId) then
    ((), { t with collaborators := t.collaborators.map (fun c =>
      if c.song_id = songId ∧ c.user_id = userId then { c with role := role } else c) })
  else
    ((), { t with collaborators := t.collaborators ++
      [{ song_id := songId, user_id := userId, role := role, invited_by := invitedBy }] })

/-- The statement `DELETE FROM song_collaborators WHERE song_id = $1 AND user_id = $2`. -/
def deleteCollaborator (songId userId : Int) (t : Tables) : Unit × Tables :=
  ((), { t with collaborators :=
    t.collaborators.filter (fun c => ¬ (c.song_id = songId ∧ c.user_id = userId)) })

/-- The statement `SELECT l.*, ... FROM lyrics l JOIN users u ON l.user_id = u.id
WHERE l.id = $1`. -/
def selectLyricWithAuthor (lyricId : Int) (t : Tables) : List LyricRow × Tables :=
  (t.lyrics.filter (fun l => l.id = lyricId ∧ t.users.any (fun u => u.id = l.user_id)), t)

/-- The statement `SELECT * FROM lyrics WHERE id = $1`. -/
def selectLyric (lyricId : Int) (t : Tables) : List LyricRow × Tables :=
  (t.lyrics.filter (fun l => l.id = lyricId), t)

/-- The statement `INSERT INTO lyrics (...) VALUES (...)` of `POST /`. -/
def insertLyric (user : UserRow) (req : Request) (t : Tables) : Unit × Tables :=
  ((), { t with lyrics := t.lyrics ++
    [{ id := nextId (t.lyrics.map (fun l => l.id)), user_id := user.id,
       song_id := if req.song_id.truthyInt then req.song_id.toOption else none,
       title := orNull req.title, content := jsTrim (req.content.getD ""),
       section_type := orElse req.section_type "idea",
       section_order := if req.section_order.truthyInt then req.section_order.toOption
                        else none,
       mood := orNull req.mood, notes := orNull req.notes,
       status := orElse req.status "draft" }] })

/-- The value `field !== undefined ? field : current` sent for a numeric column. -/
def keepIfUndefined (field : Field Int) (current : Option Int) : Option Int :=
  match field with
  | Field.undefined => current
  | Field.null => none
  | Field.value n => some n

/-- The statement `UPDATE lyrics SET ... WHERE id = $9` of `PUT /:id`; `lyric` is the
row read before. -/
def updateLyric (req : Request) (lyric : LyricRow) (t : Tables) : Unit × Tables :=
  ((), { t with lyrics := t.lyrics.map (fun l =>
    if l.id = req.id then
      { l with song_id := keepIfUndefined req.song_id lyric.song_id,
               title := orNull req.title, content := jsTrim (req.content.getD ""),
               section_type := orElse req.section_type "idea",
               section_order := keepIfUndefined req.section_order lyric.section_order,
               mood := orNull req.mood, notes := orNull req.notes,
               status := orElse req.status "draft" }
    else l) })

/-- The statement `DELETE FROM lyrics WHERE id = $1`. -/
def deleteLyric (lyricId : Int) (t : Tables) : Unit × Tables :=
  ((), { t with lyrics := t.lyrics.filter (fun l => ¬ (l.id = lyricId)) })

/-- The statement `UPDATE lyrics SET section_order = $1 WHERE id = $2 AND song_id = $3`. -/
def updateSectionOrder (item : ReorderItem) (songId : Int) (t : Tables) : Unit × Tables :=
  ((), { t with lyrics := t.lyrics.map (fun l =>
    if l.id = item.id ∧ l.song_id = some songId then
      { l with section_order := item.section_order }
    else l) })

/-- Truthiness of `lyric.song_id`: not `NULL` and not zero. -/
def truthyId (id : Option Int) : Bool :=
  match id with
  | some n => n != 0
  | none => false

/-- The test `song_id && song_id !== lyric.song_id` of `PUT /:id`. -/
def movesToOtherSong (field : Field Int) (current : Option Int) : Bool :=
  field.truthyInt && field.toOption != current

/-- The loop `for (const item of lyricOrder)` of the reorder route. -/
def reorderAll (songId : Int) : List ReorderItem → Run Unit
  | [] => pure ()
  | item :: rest => do
    query (updateSectionOrder item songId)
    reorderAll songId rest

/-- The handler of `GET /songs`. -/
def listSongs (_user : UserRow) (_req : Request) : Run Response :=
  withClient (do
    queryRows
    pure (sendJson 200))
    (failWith "Failed to fetch songs")

/-- The handler of `GET /songs/:id`. -/
def getSong (user : UserRow) (req : Request) : Run Response :=
  withClient (do
    let result ← canAccessSong req.id user.id
    if !result.access then pure (sendMessage 404 "Song not found")
    else do
      queryRows
      queryRows
      queryRows
      pure (sendJson 200))
    (failWith "Failed to fetch song")

/-- The handler of `POST /songs`. -/
def createSong (user : UserRow) (req : Request) : Run Response :=
  withClient
    (if blank req.title then pure (sendMessage 400 "Title is required")
     else do
      query (insertSong user req)
      queryRows
      pure (sendJson 201))
    (failWith "Failed to create song")

/-- The handler of `PUT /songs/:id`. -/
def putSong (user : UserRow) (req : Request) : Run Response :=
  withClient (do
    let canEdit ← canEditSong req.id user.id
    if !canEdit then pure (sendMessage 403 "Not authorized to edit this song")
    else if blank req.title then pure (sendMessage 400 "Title is required")
    else do
      query (updateSong req)
      queryRows
      pure (sendJson 200))
    (failWith "Failed to update song")

/-- The handler of `DELETE /songs/:id`. -/
def deleteSong (user : UserRow) (req : Request) : Run Response :=
  withClient (do
    let rowCount ← query (deleteOwnSong req.id user.id)
    if rowCount = 0 then pure (sendMessage 404 "Song not found or not authorized")
    else pure (sendMessage 200 "Song deleted successfully"))
    (failWith "Failed to delete song")

/-- The handler of `POST /songs/:id/collaborators`. -/
def addCollaborator (user : UserRow) (req : Request) : Run Response :=
  withClient (do
    let songCheck ← query (selectOwnSong req.id user.id)
    if songCheck = 0 then
      pure (sendMessage 403 "Only the song owner can add collaborators")
    else do
      let userResult ← query (selectUserByBodyHandle req.handle)
      match userResult with
      | [] => pure (sendMessage 404 "User not found")
      | collaborator :: _ =>
        if collaborator.id = user.id then
          pure (sendMessage 400 "Cannot add yourself as a collaborator")
        else do
          query (upsertCollaborator req.id collaborator.id (orElse req.role "editor") user.id)
          pure (sendJson 201))
    (failWith "Failed to add collaborator")

/-- The handler of `DELETE /songs/:id/collaborators/:userId`. -/
def removeCollaborator (user : UserRow) (req : Request) : Run Response :=
  withClient (do
    let songCheck ← query (selectOwnSong req.id user.id)
    if songCheck = 0 then
      pure (sendMessage 403 "Only the song owner can remove collaborators")
    else do
      query (deleteCollaborator req.id req.userId)
      pure (sendMessage 200 "Collaborator removed"))
    (failWith "Failed to remove collaborator")

/-- The handler of `GET /standalone`. -/
def listStandalone (_user : UserRow) (_req : Request) : Run Response :=
  withClient (do
    queryRows
    pure (sendJson 200))
    (failWith "Failed to fetch lyrics")

/-- The handler of `GET /:id`. -/
def getLyric (user : UserRow) (req : Request) : Run Response :=
  withClient (do
    let result ← query (selectLyricWithAuthor req.id)
    match result with
    | [] => pure (sendMessage 404 "Lyric not found")
    | lyric :: _ =>
      if lyric.user_id ≠ user.id then
        if truthyId lyric.song_id then do
          let result ← canAccessSong (lyric.song_id.getD 0) user.id
          if !result.access then pure (sendMessage 403 "Not authorized to view this lyric")
          else pure (sendJson 200)
        else pure (sendMessage 403 "Not authorized to view this lyric")
      else pure (sendJson 200))
    (failWith "Failed to fetch lyric")

/-- The handler of `POST /`. -/
def createLyric (user : UserRow) (req : Request) : Run Response :=
  withClient
    (if blank req.content then pure (sendMessage 400 "Content is required")
     else do
      let allowed ←
        if req.song_id.truthyInt then canEditSong (req.song_id.toOption.getD 0) user.id
        else pure true
      if !allowed then pure (sendMessage 403 "Not authorized to add lyrics to this song")
      else do
        query (insertLyric user req)
        queryRows
        pure (sendJson 201))
    (failWith "Failed to create lyric")

/-- The handler of `PUT /:id`. -/
def putLyric (user : UserRow) (req : Request) : Run Response :=
  withClient (do
    let existing ← query (selectLyric req.id)
    match existing with
    | [] => pure (sendMessage 404 "Lyric not found")
    | lyric :: _ => do
      let canEdit ←
        if lyric.user_id = user.id then pure true
        else if truthyId lyric.song_id then canEditSong (lyric.song_id.getD 0) user.id
        else pure false
      if !canEdit then pure (sendMessage 403 "Not authorized to edit this lyric")
      else do
        let canEditNewSong ←
          if movesToOtherSong req.song_id lyric.song_id then
            canEditSong (req.song_id.toOption.getD 0) user.id
          else pure true
        if !canEditNewSong then
          pure (sendMessage 403 "Not authorized to add lyrics to that song")
        else if blank req.content then pure (sendMessage 400 "Content is required")
        else do
          query (updateLyric req lyric)
          queryRows
          pure (sendJson 200))
    (failWith "Failed to update lyric")

/-- The handler of `DELETE /:id`. -/
def removeLyric (user : UserRow) (req : Request) : Run Response :=
  withClient (do
    let existing ← query (selectLyric req.id)
    match existing with
    | [] => pure (sendMessage 404 "Lyric not found")
    | lyric :: _ => do
      let canDelete ←
        if lyric.user_id = user.id then pure true
        else if truthyId lyric.song_id then canEditSong (lyric.song_id.getD 0) user.id
        else pure false
      if !canDelete then pure (sendMessage 403 "Not authorized to delete this lyric")
      else do
        query (deleteLyric req.id)
        pure (sendMessage 200 "Lyric deleted successfully"))
    (failWith "Failed to delete lyric")

/-- The handler of `PUT /songs/:songId/reorder`. -/
def reorderLyrics (user : UserRow) (req : Request) : Run Response :=
  withClient (do
    let canEdit ← canEditSong req.id user.id
    if !canEdit then pure (sendMessage 403 "Not authorized to edit this song")
    else
      match req.lyricOrder with
      | none => Run.throw typeError
      | some items => do
        reorderAll req.id items
        pure (sendMessage 200 "Lyrics reordered successfully"))
    (failWith "Failed to reorder lyrics")


/-! ## The shortcuts router: `src/backend/routes/shortcuts.js` -/

/-- The statement `SELECT id FROM user_shortcuts WHERE user_id = $1 AND url = $2`; the
result is `rowCount`. -/
def selectShortcutByUrl (userId : Int) (url : String) (t : Tables) : Nat × Tables :=
  ((t.shortcuts.filter (fun s => s.user_id = userId ∧ s.url = url)).length, t)

/-- The statement `SELECT COALESCE(MAX(sort_order), 0) + 1 as next_order FROM
user_shortcuts WHERE user_id = $1`. -/
def selectNextOrder (userId : Int) (t : Tables) : Int × Tables :=
  (match ((t.shortcuts.filter (fun s => s.user_id = userId)).map (fun s => s.sort_order)) with
    | [] => 1
    | first :: rest => rest.foldl max first + 1, t)

/-- The statement `INSERT INTO user_shortcuts (...) VALUES (...)`. -/
def insertShortcut (user : UserRow) (req : Request) (nextOrder : Int) (t : Tables) :
    Unit × Tables :=
  ((), { t with shortcuts := t.shortcuts ++
    [{ id := nextId (t.shortcuts.map (fun s => s.id)), user_id := user.id,
       name := jsTrim (req.name.getD ""), url := jsTrim (req.url.getD ""),
       icon := orNull req.icon, sort_order := nextOrder }] })

/-- The statement `SELECT id FROM user_shortcuts WHERE id = $1 AND user_id = $2`; the
result is `rowCount`. -/
def selectOwnShortcut (shortcutId userId : Int) (t : Tables) : Nat × Tables :=
  ((t.shortcuts.filter (fun s => s.id = shortcutId ∧ s.user_id = userId)).length, t)

/-- The statement `DELETE FROM user_shortcuts WHERE id = $1`. -/
def deleteShortcutById (shortcutId : Int) (t : Tables) : Unit × Tables :=
  ((), { t with shortcuts := t.shortcuts.filter (fun s => ¬ (s.id = shortcutId)) })

/-- The statement `DELETE FROM user_shortcuts WHERE user_id = $1 AND url = $2`; the
result is `rowCount`. -/
def deleteShortcutsByUrl (userId : Int) (url : String) (t : Tables) : Nat × Tables :=
  ((t.shortcuts.filter (fun s => s.user_id = userId ∧ s.url = url)).length,
    { t with shortcuts := t.shortcuts.filter (fun s => ¬ (s.user_id = userId ∧ s.url = url)) })

/-- The handler of `GET /`. -/
def listShortcuts (_user : UserRow) (_req : Request) : Run Response :=
  withClient (do
    queryRows
    pure (sendJson 200))
    (failWith "Failed to fetch shortcuts")

/-- The handler of `GET /check`; `req.url` is `req.query.url`. -/
def checkShortcut (_user : UserRow) (req : Request) : Run Response :=
  withClient
    (if !truthy req.url then pure (sendMessage 400 "URL parameter is required")
     else do
      queryRows
      pure (sendJson 200))
    (failWith "Failed to check shortcut")

/-- The handler of `POST /`. -/
def createShortcut (user : UserRow) (req : Request) : Run Response :=
  withClient
    (if blank req.name then pure (sendMessage 400 "Name is required")
     else if blank req.url then pure (sendMessage 400 "URL is required")
     else do
      let existing ← query (selectShortcutByUrl user.id (jsTrim (req.url.getD "")))
      if existing > 0 then pure (sendMessage 400 "A shortcut for this URL already exists")
      else do
        let nextOrder ← query (selectNextOrder user.id)
        query (insertShortcut user req nextOrder)
        queryRows
        pure (sendJson 201))
    (failWith "Failed to create shortcut")

/-- The handler of `DELETE /:id`. -/
def deleteShortcut (user : UserRow) (req : Request) : Run Response :=
  withClient (do
    let existing ← query (selectOwnShortcut req.id user.id)
    if existing = 0 then pure (sendMessage 404 "Shortcut not found")
    else do
      query (deleteShortcutById req.id)
      pure (sendMessage 200 "Shortcut deleted successfully"))
    (failWith "Failed to delete shortcut")

/-- The handler of `DELETE /by-url`. -/
def deleteShortcutByUrl (user : UserRow) (req : Request) : Run Response :=
  withClient
    (if !truthy req.url then pure (sendMessage 400 "URL is required")
     else do
      let rowCount ← query (deleteShortcutsByUrl user.id (req.url.getD ""))
      if rowCount = 0 then pure (sendMessage 404 "Shortcut not found")
      else pure (sendMessage 200 "Shortcut deleted successfully"))
    (failWith "Failed to delete shortcut")

/-! ## The test-results router: `src/backend/routes/test-results.js`

Only the statements of the bulk route are interpreted. -/

/-- The test `!platform || !['web', 'android'].includes(platform)`. -/
def badPlatform (platform : Option String) : Bool :=
  !(platform == some "web" || platform == some "android")

/-- The first row of a result that is not interpreted: reading a field of
`rows[0]` throws when there is no row. -/
def firstRow (answer : Answer) : Run Unit :=
  if answer.rowCount = 0 then Run.throw typeError else pure ()

/-- The handler of `POST /runs`. -/
def createRun (req : Request) : Run Response :=
  withClient
    (if badPlatform req.platform then
      pure (sendMessage 400 "Platform must be \"web\" or \"android\"")
     else do
      let _ ← queryAny
      let _ ← queryAny
      pure (sendJson 201))
    (failWith "Failed to create test run")

/-- The handler of `POST /runs/:runId/suites`. -/
def createSuite (req : Request) : Run Response :=
  withClient
    (if !truthy req.name then pure (sendMessage 400 "Suite name is required")
     else do
      let _ ← queryAny
      let _ ← queryAny
      pure (sendJson 201))
    (failWith "Failed to create test suite")

/-- The handler of `POST /suites/:suiteId/cases`. -/
def createCase (req : Request) : Run Response :=
  withClient
    (if !truthy req.name then pure (sendMessage 400 "Test case name is required")
     else do
      let _ ← queryAny
      let _ ← queryAny
      pure (sendJson 201))
    (failWith "Failed to create test case")

/-- The handler of `PUT /suites/:suiteId/complete`. -/
def completeSuite (_req : Request) : Run Response :=
  withClient (do
    let counts ← queryAny
    firstRow counts
    let _ ← queryAny
    let _ ← queryAny
    pure (sendJson 200))
    (failWith "Failed to complete test suite")

/-- The handler of `PUT /runs/:runId/complete`. -/
def completeRun (_req : Request) : Run Response :=
  withClient (do
    let counts ← queryAny
    firstRow counts
    let _ ← queryAny
    let _ ← queryAny
    pure (sendJson 200))
    (failWith "Failed to complete test run")

/-- The number of entries of `tests` with the given `status`, as the chains
`if (test.status === 'passed') ... else if ...` count them. -/
def countStatus (status : String) (tests : List TestInput) : Nat :=
  (tests.filter (fun test => test.status == some status)).length

/-- The expression `n || null` on an optional number. -/
def orNullNat (n : Option Nat) : Option Nat :=
  match n with
  | some k => if k = 0 then none else some k
  | none => none

/-- The statement `INSERT INTO test_runs (...) VALUES (...)` of the bulk route. -/
def insertBulkRun (req : Request) (suites : List SuiteInput) (t : Tables) : Unit × Tables :=
  let tests := suites.flatMap (fun suite => suite.tests.getD [])
  ((), { t with runs := t.runs ++
    [{ id := nextId (t.runs.map (fun r => r.id)), platform := req.platform.getD "",
       environment := orElse req.environment "local", branch := orNull req.branch,
       commit_hash := orNull req.commit_hash, total_tests := tests.length,
       passed_tests := countStatus "passed" tests, failed_tests := countStatus "failed" tests,
       skipped_tests := countStatus "skipped" tests,
       status := if countStatus "failed" tests > 0 then "failed" else "completed" }] })

/-- The largest element of a list of ids that is not empty. -/
def maxId : List Int → Option Int
  | [] => none
  | first :: rest => some (rest.foldl max first)

/-- The statement `SELECT id FROM test_runs ORDER BY id DESC LIMIT 1`: the `id` of
`rows[0]`, if there is a row. -/
def selectLastRunId (t : Tables) : Option Int × Tables :=
  (maxId (t.runs.map (fun r => r.id)), t)

/-- The statement `INSERT INTO test_suites (...) VALUES (...)` of the bulk route. -/
def insertBulkSuite (runId : Int) (suite : SuiteInput) (t : Tables) : Unit × Tables :=
  let tests := suite.tests.getD []
  ((), { t with suites := t.suites ++
    [{ id := nextId (t.suites.map (fun s => s.id)), test_run_id := runId, name := suite.name,
       file_path := orNull suite.file_path, category := orNull suite.category,
       duration_ms := orNullNat suite.duration_ms, total_tests := tests.length,
       passed_tests := countStatus "passed" tests, failed_tests := countStatus "failed" tests,
       skipped_tests := countStatus "skipped" tests,
       status := if countStatus "failed" tests > 0 then "failed" else "passed" }] })

/-- The statement `SELECT id FROM test_suites WHERE test_run_id = $1 ORDER BY id DESC
LIMIT 1`. -/
def selectLastSuiteId (runId : Int) (t : Tables) : Option Int × Tables :=
  (maxId ((t.suites.filter (fun s => s.test_run_id = runId)).map (fun s => s.id)), t)

/-- The statement `INSERT INTO test_cases (...) VALUES (...)` of the bulk route. -/
def insertBulkCase (suiteId : Int) (test : TestInput) (t : Tables) : Unit × Tables :=
  ((), { t with cases := t.cases ++
    [{ id := nextId (t.cases.map (fun c => c.id)), test_suite_id := suiteId, name := test.name,
       status := orElse test.status "pending", duration_ms := orNullNat test.duration_ms,
       error_message := orNull test.error_message,
       error_stack := orNull test.error_stack }] })

/-- Reading `rows[0].id` of a result: a `TypeError` when there is no row. -/
def firstId (id : Option Int) : Run Int :=
  match id with
  | some n => pure n
  | none => Run.throw typeError

/-- The loop `for (const test of (suite.tests || []))` that inserts the cases. -/
def insertCases (suiteId : Int) : List TestInput → Run Unit
  | [] => pure ()
  | test :: rest => do
    query (insertBulkCase suiteId test)
    insertCases suiteId rest

/-- The loop `for (const suite of suites)` that inserts the suites and their cases. -/
def insertSuites (runId : Int) : List SuiteInput → Run Unit
  | [] => pure ()
  | suite :: rest => do
    query (insertBulkSuite runId suite)
    let suiteId ← firstId (← query (selectLastSuiteId runId))
    insertCases suiteId (suite.tests.getD [])
    insertSuites runId rest

/-- The `try` block of `POST /runs/bulk` from `beginTransaction` to `commit`; the
result is `runId`. -/
def bulkTransaction (req : Request) (suites : List SuiteInput) : Run Int := do
  beginTransaction
  query (insertBulkRun req suites)
  let runId ← firstId (← query selectLastRunId)
  insertSuites runId suites
  commit
  pure runId

/-- The handler of `POST /runs/bulk`. -/
def bulkRun (req : Request) : Run Response :=
  withClient
    (if badPlatform req.platform then
      pure (sendMessage 400 "Platform must be \"web\" or \"android\"")
     else
      match req.suites with
      | none => pure (sendMessage 400 "Suites array is required")
      | some suites => do
        let _ ← bulkTransaction req suites
        queryRows
        pure (sendJson 201))
    (fun _ => do
      rollback
      pure (sendMessage 500 "Failed to create test run"))

/-- The handler of `GET /runs`. -/
def listRuns (_user : UserRow) (_req : Request) : Run Response :=
  withClient (do
    let countResult ← queryAny
    let _ ← queryAny
    firstRow countResult
    pure (sendJson 200))
    (failWith "Failed to fetch test runs")

/-- The handler of `GET /runs/:runId`. -/
def getRun (_user : UserRow) (_req : Request) : Run Response :=
  withClient (do
    let runResult ← queryAny
    if runResult.rowCount = 0 then pure (sendMessage 404 "Test run not found")
    else do
      let suitesResult ← queryAny
      if suitesResult.rowCount > 0 then do
        let _ ← queryAny
        pure (sendJson 200)
      else pure (sendJson 200))
    (failWith "Failed to fetch test run")

/-- The handler of `DELETE /runs/:runId`. -/
def deleteRun (_user : UserRow) (_req : Request) : Run Response :=
  withClient (do
    let result ← queryAny
    if result.rowCount = 0 then pure (sendMessage 404 "Test run not found")
    else pure (sendMessage 200 "Test run deleted successfully"))
    (failWith "Failed to delete test run")

/-! ## The gallery router: `src/backend/routes/gallery.js`

None of its statements is interpreted. -/

/-- The `catch` block of the two settings routes: a duplicate key is answered with
400, everything else with 500 and a fixed message. -/
def failUnlessDuplicate (text : String) : JsError → Run Response :=
  fun err =>
    if err.code = "ER_DUP_ENTRY" then pure (sendMessage 400 "This gallery URL is already taken")
    else pure (sendMessage 500 text)

/-- The handler of `GET /public/:galleryUrl`. -/
def publicGallery (_req : Request) : Run Response :=
  withClient (do
    let galleryResult ← queryAny
    if galleryResult.rowCount = 0 then pure (sendMessage 404 "Gallery not found")
    else do
      let _ ← queryAny
      pure (sendJson 200))
    (failWith "Failed to fetch gallery")

/-- The handler of `GET /public/:galleryUrl/:artworkId`. -/
def publicArtwork (_req : Request) : Run Response :=
  withClient (do
    let result ← queryAny
    if result.rowCount = 0 then pure (sendMessage 404 "Artwork not found")
    else pure (sendJson 200))
    (failWith "Failed to fetch artwork")

/-- The handler of `GET /settings`. -/
def getSettings (_user : UserRow) (_req : Request) : Run Response :=
  withClient (do
    let _ ← queryAny
    pure (sendJson 200))
    (failWith "Failed to fetch settings")

/-- The handler of `POST /settings`. -/
def createSettings (_user : UserRow) (_req : Request) : Run Response :=
  withClient (do
    let existing ← queryAny
    if existing.rowCount > 0 then
      pure (sendMessage 400 "Gallery settings already exist. Use PUT to update.")
    else do
      let urlCheck ← queryAny
      if urlCheck.rowCount > 0 then pure (sendMessage 400 "This gallery URL is already taken")
      else do
        let _ ← queryAny
        let _ ← queryAny
        pure (sendJson 201))
    (failUnlessDuplicate "Failed to create settings")

/-- The handler of `PUT /settings`. -/
def updateSettings (user : UserRow) (req : Request) : Run Response :=
  withClient
    (if blank req.gallery_url then pure (sendMessage 400 "Gallery URL is required")
     else do
      let urlCheck ← queryAny
      if urlCheck.rowCount > 0 && urlCheck.firstUserId != some user.id then
        pure (sendMessage 400 "This gallery URL is already taken")
      else do
        let result ← queryAny
        if result.affectedRows = some 0 then pure (sendMessage 404 "Gallery settings not found")
        else do
          let _ ← queryAny
          pure (sendJson 200))
    (failUnlessDuplicate "Failed to update settings")

/-- The handler of `GET /check-url/:galleryUrl`. -/
def checkGalleryUrl (_user : UserRow) (_req : Request) : Run Response :=
  withClient (do
    let _ ← queryAny
    pure (sendJson 200))
    (failWith "Failed to check URL")

/-- The handler of `GET /artworks`. -/
def listArtworks (_user : UserRow) (_req : Request) : Run Response :=
  withClient (do
    let _ ← queryAny
    pure (sendJson 200))
    (failWith "Failed to fetch artworks")

/-- The handler of `GET /artworks/:id`. -/
def getArtwork (_user : UserRow) (_req : Request) : Run Response :=
  withClient (do
    let result ← queryAny
    if result.rowCount = 0 then pure (sendMessage 404 "Artwork not found")
    else pure (sendJson 200))
    (failWith "Failed to fetch artwork")

/-- The block that creates the default gallery settings in `POST /artworks`: a
duplicate key on the first `INSERT` leads to a second one, any other error is thrown
again. -/
def ensureGallery : Run Unit := do
  let existingGallery ← queryAny
  if existingGallery.rowCount = 0 then
    Run.tryCatch (do
      let _ ← queryAny
      pure ())
      (fun galleryErr =>
        if galleryErr.code = "ER_DUP_ENTRY" then do
          let _ ← queryAny
          pure ()
        else Run.throw galleryErr)
  else pure ()

/-- The handler of `POST /artworks`, after `authenticate` and `upload.single`. -/
def createArtwork (_user : UserRow) (req : Request) : Run Response :=
  if !req.hasFile then pure (sendMessage 400 "Image file is required")
  else
    withClient
      (if blank req.title then pure (sendMessage 400 "Title is required")
       else do
        ensureGallery
        let uploadResult ← callS3
        if !uploadResult.success then
          pure (sendMessage 500 ("Failed to upload image: " ++ uploadResult.error))
        else do
          let _ ← queryAny
          let _ ← queryAny
          pure (sendJson 201))
      (failWith "Failed to create artwork")

/-- The handler of `PUT /artworks/:id`. -/
def updateArtwork (_user : UserRow) (req : Request) : Run Response :=
  withClient (do
    let check ← queryAny
    if check.rowCount = 0 then pure (sendMessage 404 "Artwork not found")
    else if blank req.title then pure (sendMessage 400 "Title is required")
    else do
      let _ ← queryAny
      let _ ← queryAny
      pure (sendJson 200))
    (failWith "Failed to update artwork")

/-- The handler of `DELETE /artworks/:id`. -/
def deleteArtwork (_user : UserRow) (_req : Request) : Run Response :=
  withClient (do
    let artwork ← queryAny
    if artwork.rowCount = 0 then pure (sendMessage 404 "Artwork not found")
    else do
      let _ ← queryAny
      if truthy artwork.firstImagePath then do
        let _ ← callS3
        pure (sendMessage 200 "Artwork deleted successfully")
      else pure (sendMessage 200 "Artwork deleted successfully"))
    (failWith "Failed to delete artwork")

/-! ## The routes of the four routers -/

/-- The routes of the shortcuts router. -/
inductive ShortcutsRoute where
  | list | check | create | delete | deleteByUrl
  deriving DecidableEq, Repr

/-- The routes of the test-results router. -/
inductive TestsRoute where
  | createRun | createSuite | createCase | completeSuite | completeRun | bulk
  | listRuns | getRun | deleteRun
  deriving DecidableEq, Repr

/-- The routes of the lyrics router. -/
inductive LyricsRoute where
  | listSongs | getSong | createSong | putSong | deleteSong
  | addCollaborator | removeCollaborator
  | listStandalone | getLyric | createLyric | putLyric | removeLyric | reorderLyrics
  deriving DecidableEq, Repr

/-- The routes of the gallery router. -/
inductive GalleryRoute where
  | publicGallery | publicArtwork | getSettings | createSettings | updateSettings
  | checkUrl | listArtworks | getArtwork | createArtwork | updateArtwork | deleteArtwork
  deriving DecidableEq, Repr

/-- The routes of the four routers. -/
inductive Route where
  | shortcuts (route : ShortcutsRoute) : Route
  | tests (route : TestsRoute) : Route
  | lyrics (route : LyricsRoute) : Route
  | gallery (route : GalleryRoute) : Route
  deriving DecidableEq, Repr

/-- The handler of each route of the shortcuts router. -/
def shortcutsHandler (user : UserRow) (req : Request) : ShortcutsRoute → Run Response
  | ShortcutsRoute.list => listShortcuts user req
  | ShortcutsRoute.check => checkShortcut user req
  | ShortcutsRoute.create => createShortcut user req
  | ShortcutsRoute.delete => deleteShortcut user req
  | ShortcutsRoute.deleteByUrl => deleteShortcutByUrl user req

/-- The handler of each route of the lyrics router. -/
def lyricsHandler (user : UserRow) (req : Request) : LyricsRoute → Run Response
  | LyricsRoute.listSongs => listSongs user req
  | LyricsRoute.getSong => getSong user req
  | LyricsRoute.createSong => createSong user req
  | LyricsRoute.putSong => putSong user req
  | LyricsRoute.deleteSong => deleteSong user req
  | LyricsRoute.addCollaborator => addCollaborator user req
  | LyricsRoute.removeCollaborator => removeCollaborator user req
  | LyricsRoute.listStandalone => listStandalone user req
  | LyricsRoute.getLyric => getLyric user req
  | LyricsRoute.createLyric => createLyric user req
  | LyricsRoute.putLyric => putLyric user req
  | LyricsRoute.removeLyric => removeLyric user req
  | LyricsRoute.reorderLyrics => reorderLyrics user req

/-- Each route of the test-results router with its middleware. -/
def serveTests (cfg : Config) (req : Request) : TestsRoute → Run Response
  | TestsRoute.createRun => apiKeyAuth cfg req (createRun req)
  | TestsRoute.createSuite => apiKeyAuth cfg req (createSuite req)
  | TestsRoute.createCase => apiKeyAuth cfg req (createCase req)
  | TestsRoute.completeSuite => apiKeyAuth cfg req (completeSuite req)
  | TestsRoute.completeRun => apiKeyAuth cfg req (completeRun req)
  | TestsRoute.bulk => apiKeyAuth cfg req (bulkRun req)
  | TestsRoute.listRuns => authenticated cfg req (fun user => listRuns user req)
  | TestsRoute.getRun => authenticated cfg req (fun user => getRun user req)
  | TestsRoute.deleteRun => authenticated cfg req (fun user => deleteRun user req)

/-- Each route of the gallery router with its middleware. -/
def serveGallery (cfg : Config) (req : Request) : GalleryRoute → Run Response
  | GalleryRoute.publicGallery => publicGallery req
  | GalleryRoute.publicArtwork => publicArtwork req
  | GalleryRoute.getSettings => authenticated cfg req (fun user => getSettings user req)
  | GalleryRoute.createSettings => authenticated cfg req (fun user => createSettings user req)
  | GalleryRoute.updateSettings => authenticated cfg req (fun user => updateSettings user req)
  | GalleryRoute.checkUrl => authenticated cfg req (fun user => checkGalleryUrl user req)
  | GalleryRoute.listArtworks => authenticated cfg req (fun user => listArtworks user req)
  | GalleryRoute.getArtwork => authenticated cfg req (fun user => getArtwork user req)
  | GalleryRoute.createArtwork => authenticated cfg req (fun user => createArtwork user req)
  | GalleryRoute.updateArtwork => authenticated cfg req (fun user => updateArtwork user req)
  | GalleryRoute.deleteArtwork => authenticated cfg req (fun user => deleteArtwork user req)

/-- Each route with its middleware and its handler. -/
def serve (cfg : Config) (req : Request) : Route → Run Response
  | Route.shortcuts route => authenticated cfg req (fun user => shortcutsHandler user req route)
  | Route.tests route => serveTests cfg req route
  | Route.lyrics route => authenticated cfg req (fun user => lyricsHandler user req route)
  | Route.gallery route => serveGallery cfg req route

/-- The message of the 500 response in the `catch` block of each route. -/
def failureText : Route → String
  | Route.shortcuts ShortcutsRoute.list => "Failed to fetch shortcuts"
  | Route.shortcuts ShortcutsRoute.check => "Failed to check shortcut"
  | Route.shortcuts ShortcutsRoute.create => "Failed to create shortcut"
  | Route.shortcuts ShortcutsRoute.delete => "Failed to delete shortcut"
  | Route.shortcuts ShortcutsRoute.deleteByUrl => "Failed to delete shortcut"
  | Route.tests TestsRoute.createRun => "Failed to create test run"
  | Route.tests TestsRoute.createSuite => "Failed to create test suite"
  | Route.tests TestsRoute.createCase => "Failed to create test case"
  | Route.tests TestsRoute.completeSuite => "Failed to complete test suite"
  | Route.tests TestsRoute.completeRun => "Failed to complete test run"
  | Route.tests TestsRoute.bulk => "Failed to create test run"
  | Route.tests TestsRoute.listRuns => "Failed to fetch test runs"
  | Route.tests TestsRoute.getRun => "Failed to fetch test run"
  | Route.tests TestsRoute.deleteRun => "Failed to delete test run"
  | Route.lyrics LyricsRoute.listSongs => "Failed to fetch songs"
  | Route.lyrics LyricsRoute.getSong => "Failed to fetch song"
  | Route.lyrics LyricsRoute.createSong => "Failed to create song"
  | Route.lyrics LyricsRoute.putSong => "Failed to update song"
  | Route.lyrics LyricsRoute.deleteSong => "Failed to delete song"
  | Route.lyrics LyricsRoute.addCollaborator => "Failed to add collaborator"
  | Route.lyrics LyricsRoute.removeCollaborator => "Failed to remove collaborator"
  | Route.lyrics LyricsRoute.listStandalone => "Failed to fetch lyrics"
  | Route.lyrics LyricsRoute.getLyric => "Failed to fetch lyric"
  | Route.lyrics LyricsRoute.createLyric => "Failed to create lyric"
  | Route.lyrics LyricsRoute.putLyric => "Failed to update lyric"
  | Route.lyrics LyricsRoute.removeLyric => "Failed to delete lyric"
  | Route.lyrics LyricsRoute.reorderLyrics => "Failed to reorder lyrics"
  | Route.gallery GalleryRoute.publicGallery => "Failed to fetch gallery"
  | Route.gallery GalleryRoute.publicArtwork => "Failed to fetch artwork"
  | Route.gallery GalleryRoute.getSettings => "Failed to fetch settings"
  | Route.gallery GalleryRoute.createSettings => "Failed to create settings"
  | Route.gallery GalleryRoute.updateSettings => "Failed to update settings"
  | Route.gallery GalleryRoute.checkUrl => "Failed to check URL"
  | Route.gallery GalleryRoute.listArtworks => "Failed to fetch artworks"
  | Route.gallery GalleryRoute.getArtwork => "Failed to fetch artwork"
  | Route.gallery GalleryRoute.createArtwork => "Failed to create artwork"
  | Route.gallery GalleryRoute.updateArtwork => "Failed to update artwork"
  | Route.gallery GalleryRoute.deleteArtwork => "Failed to delete artwork"

/-- Every value an `async` function can return satisfies `P`. -/
def Returns {α : Type} (m : Run α) (P : α → Prop) : Prop :=
  ∀ (o : Oracle) (w : World) (a : α), (m o w).1 = Except.ok a → P a

/-! ## Sample requests and worlds -/

/-- A request with nothing set. -/
def emptyRequest : Request :=
  { token := none, apiKey := none, id := 0, userId := 0, title := none, description := none,
    genre := none, status := none, visibility := none, handle := none, role := none,
    content := none, song_id := Field.undefined, section_type := none,
    section_order := Field.undefined, mood := none, notes := none, lyricOrder := none,
    name := none, url := none, icon := none, platform := none, environment := none,
    branch := none, commit_hash := none, suites := none, hasFile := false,
    gallery_url := none, gallery_name := none }

/-- A configuration in which the token `alice-token` verifies for the user `alice` and
the token `bob-token` for the user `bob`. -/
def sampleConfig : Config :=
  { verify := fun token =>
      if token = "alice-token" then some "alice"
      else if token = "bob-token" then some "bob" else none,
    TEST_API_KEY := none }

/-- Tables with two users, a private song of `alice` and one lyric in it. -/
def sampleTables : Tables :=
  { users := [{ id := 1, handle := "alice" }, { id := 2, handle := "bob" }],
    songs := [{ id := 10, user_id := 1, title := "Song", description := none, genre := none,
                status := "idea", visibility := "private" }],
    collaborators := [],
    lyrics := [{ id := 100, user_id := 1, song_id := some 10, title := none,
                 content := "la la", section_type := "idea", section_order := none,
                 mood := none, notes := none, status := "draft" }],
    shortcuts := [], runs := [], suites := [], cases := [] }

/-- A world at the start of a request: no transaction, no call yet, no client. -/
def sampleWorld : World :=
  { db := { tables := sampleTables, snapshot := none }, calls := 0, acquired := 0,
    released := 0 }

/-- An answer with one row. -/
def oneRow : Answer :=
  { rowCount := 1, affectedRows := some 1, firstUserId := some 1, firstImagePath := none }

/-- An oracle without faults. -/
def calmOracle : Oracle :=
  { fault := fun _ => none, answer := fun _ => oneRow,
    stored := fun _ => { success := true, error := "" } }

/-- An oracle whose only fault is at the awaited call number `n`. -/
def faultAt (n : Nat) : Oracle :=
  { calmOracle with
    fault := fun k => if k = n then some { code := "ECONNRESET", message := "read ECONNRESET" }
                      else none }

/-- An oracle without faults under which every upload to S3 fails with `text`. -/
def uploadFails (text : String) : Oracle :=
  { calmOracle with stored := fun _ => { success := false, error := text } }

/-- A request of `alice` that uploads an artwork. -/
def uploadRequest : Request :=
  { emptyRequest with token := some "alice-token", title := some "Sunset", hasFile := true }

/-- A request of `bob` for the song 10. -/
def bobSongRequest : Request :=
  { emptyRequest with token := some "bob-token", id := 10 }

/-! ## Notions of the specification for the lyrics router -/

/-- The song a song id addresses: the first row of `songs` with that id. -/
def firstSong (t : Tables) (songId : Int) : Option SongRow :=
  t.songs.find? (fun s => s.id = songId)

/-- The collaborator row of a user on a song: the first row of `song_collaborators`
with that song and that user. -/
def collaboratorRow (t : Tables) (songId userId : Int) : Option CollaboratorRow :=
  t.collaborators.find? (fun c => c.song_id = songId ∧ c.user_id = userId)

/-- The row `canAccessSong` returns as `song` for a row of `songs`. -/
def accessRow (t : Tables) (s : SongRow) (userId : Int) : SongAccessRow :=
  { id := s.id, user_id := s.user_id, visibility := s.visibility,
    collab_role := collabRole t s.id userId }

/-- A song with that id exists. -/
def songExists (t : Tables) (songId : Int) : Prop := ∃ s ∈ t.songs, s.id = songId

/-- The user owns a song with that id. -/
def ownsSong (t : Tables) (songId userId : Int) : Prop :=
  ∃ s ∈ t.songs, s.id = songId ∧ s.user_id = userId

/-- The user may see the song: the song exists and the user is its owner, or has a
collaborator row with a role that is not empty, or the song is public. -/
def hasAccess (t : Tables) (songId userId : Int) : Prop :=
  ∃ s, firstSong t songId = some s ∧
    (s.user_id = userId ∨
      (∃ c, collaboratorRow t s.id userId = some c ∧ c.role ≠ "") ∨
      s.visibility = "public")

/-- The user may edit the song, as the code decides it: the song exists and the user is
its owner or has a collaborator row whose role is `owner` or `editor`. -/
def mayEdit (t : Tables) (songId userId : Int) : Prop :=
  ∃ s, firstSong t songId = some s ∧
    (s.user_id = userId ∨
      ∃ c, collaboratorRow t s.id userId = some c ∧ (c.role = "owner" ∨ c.role = "editor"))

/-- The value `canAccessSong` resolves to on given tables. -/
def accessOn (t : Tables) (songId userId : Int) : SongAccess :=
  resolveAccess (selectSongAccess songId userId t).1 userId

/-- The value `canEditSong` resolves to on given tables. -/
def editOn (t : Tables) (songId userId : Int) : Bool :=
  if !(accessOn t songId userId).access then false
  else (accessOn t songId userId).role == some "owner" ||
    (accessOn t songId userId).role == some "editor"

/-- Tables in which `bob` has a collaborator row with the role `owner` on the private
song of `alice`. -/
def ownerRoleTables : Tables :=
  { sampleTables with
    collaborators := [{ song_id := 10, user_id := 2, role := "owner", invited_by := 1 }] }

/-- The world on the tables `ownerRoleTables`. -/
def ownerRoleWorld : World :=
  { sampleWorld with db := { tables := ownerRoleTables, snapshot := none } }

/-- The request of `alice` that invites `bob` to the song 10 with the role `owner`. -/
def inviteAsOwnerRequest : Request :=
  { emptyRequest with
    token := some "alice-token", id := 10, handle := some "bob", role := some "owner" }

/-- Tables in which `bob` is a collaborator with the role `viewer` on the private song
of `alice`. -/
def viewerRoleTables : Tables :=
  { sampleTables with
    collaborators := [{ song_id := 10, user_id := 2, role := "viewer", invited_by := 1 }] }

/-- The world on the tables `viewerRoleTables`. -/
def viewerRoleWorld : World :=
  { sampleWorld with db := { tables := viewerRoleTables, snapshot := none } }

/-- The lyric a lyric id addresses: the first row of `lyrics` with that id. -/
def firstLyric (t : Tables) (lyricId : Int) : Option LyricRow :=
  t.lyrics.find? (fun l => l.id = lyricId)

/-- The lyric a lyric id addresses in `GET /:id`, which joins the lyric with its author. -/
def firstLyricWithAuthor (t : Tables) (lyricId : Int) : Option LyricRow :=
  t.lyrics.find? (fun l => l.id = lyricId ∧ t.users.any (fun u => u.id = l.user_id))

/-- The user wrote the lyric or may edit the song the lyric belongs to. -/
def mayEditLyric (t : Tables) (user : UserRow) (l : LyricRow) : Prop :=
  l.user_id = user.id ∨ (truthyId l.song_id = true ∧ mayEdit t (l.song_id.getD 0) user.id)

/-- The ownership or role each route of the lyrics router requires of the user. -/
def permitted (t : Tables) (user : UserRow) (req : Request) : LyricsRoute → Prop
  | LyricsRoute.getSong => hasAccess t req.id user.id
  | LyricsRoute.putSong => mayEdit t req.id user.id
  | LyricsRoute.reorderLyrics => mayEdit t req.id user.id
  | LyricsRoute.deleteSong => ownsSong t req.id user.id
  | LyricsRoute.addCollaborator => ownsSong t req.id user.id
  | LyricsRoute.removeCollaborator => ownsSong t req.id user.id
  | LyricsRoute.getLyric =>
    ∀ l, firstLyricWithAuthor t req.id = some l →
      l.user_id = user.id ∨
        (truthyId l.song_id = true ∧ hasAccess t (l.song_id.getD 0) user.id)
  | LyricsRoute.putLyric =>
    ∀ l, firstLyric t req.id = some l →
      mayEditLyric t user l ∧
        (movesToOtherSong req.song_id l.song_id = true →
          mayEdit t (req.song_id.toOption.getD 0) user.id)
  | LyricsRoute.removeLyric => ∀ l, firstLyric t req.id = some l → mayEditLyric t user l
  | LyricsRoute.createLyric =>
    req.song_id.truthyInt = true → mayEdit t (req.song_id.toOption.getD 0) user.id
  | LyricsRoute.listSongs => True
  | LyricsRoute.createSong => True
  | LyricsRoute.listStandalone => True

/-- What is the case when a route of the lyrics router answers 404. -/
def notFoundCause (t : Tables) (user : UserRow) (req : Request) : LyricsRoute → Prop
  | LyricsRoute.getSong => ¬ hasAccess t req.id user.id
  | LyricsRoute.deleteSong => ¬ ownsSong t req.id user.id
  | LyricsRoute.addCollaborator => ∀ u ∈ t.users, some u.handle ≠ req.handle
  | LyricsRoute.getLyric => firstLyricWithAuthor t req.id = none
  | LyricsRoute.putLyric => firstLyric t req.id = none
  | LyricsRoute.removeLyric => firstLyric t req.id = none
  | _ => False

/-- The routes that answer 404 to a user without the required access to the song. -/
def hidesSong : LyricsRoute → Prop
  | LyricsRoute.getSong => True
  | LyricsRoute.deleteSong => True
  | _ => False

/-- What the lyrics router promises about a response, on the tables `t` the request
found. -/
def LyricsPost (t : Tables) (user : UserRow) (req : Request) (route : LyricsRoute)
    (response : Response) : Prop :=
  (¬ permitted t user req route →
    response.status = 403 ∨ response.status = 500 ∨
      (response.status = 404 ∧ hidesSong route) ∨
      (response.status = 400 ∧ route = LyricsRoute.createLyric ∧ blank req.content = true)) ∧
  (response.status = 404 → notFoundCause t user req route) ∧
  response.status ≠ 401

/-- Every value `m` can return on the tables `t` satisfies `P`. -/
def ReturnsAt {α : Type} (t : Tables) (m : Run α) (P : α → Prop) : Prop :=
  ∀ (o : Oracle) (w : World) (a : α), w.db.tables = t → (m o w).1 = Except.ok a → P a

/-! ## Notions of the specification for the bulk route -/

/-- The tests submitted with a list of suites. -/
def submittedTests (suites : List SuiteInput) : List TestInput :=
  suites.flatMap (fun suite => suite.tests.getD [])

/-- The tables `after` are the tables `before` with one more run, one more suite for
each submitted suite and one more case for each submitted test, in the order they were
submitted. -/
def Inserted (before : Tables) (suites : List SuiteInput) (after : Tables) : Prop :=
  ∃ (run : TestRunRow) (srows : List TestSuiteRow) (crows : List TestCaseRow),
    srows.map (fun s => s.name) = suites.map (fun s => s.name) ∧
    crows.map (fun c => c.name) = (submittedTests suites).map (fun test => test.name) ∧
    after = { before with runs := before.runs ++ [run], suites := before.suites ++ srows,
                          cases := before.cases ++ crows }

/-- A triple for `async` functions over the database: from a database that satisfies
`pre`, a returned value `a` leaves a database that satisfies `post a` and a rejection
leaves one that satisfies `fail`. -/
def Triple {α : Type} (pre : Db → Prop) (m : Run α) (post : α → Db → Prop)
    (fail : Db → Prop) : Prop :=
  ∀ (o : Oracle) (w : World), pre w.db →
    (∀ a, (m o w).1 = Except.ok a → post a (m o w).2.db) ∧
    (∀ e, (m o w).1 = Except.error e → fail (m o w).2.db)

/-- A transaction on `start` is open and the connection sees `now`. -/
def OpenAt (start now : Tables) (db : Db) : Prop :=
  db.snapshot = some start ∧ db.tables = now

/-- No transaction is open and the tables are `now`. -/
def ClosedAt (now : Tables) (db : Db) : Prop :=
  db.snapshot = none ∧ db.tables = now

/-- The databases the `catch` block of the bulk route can find: a transaction on
`start` is open, or none is open and the tables are `start`, or none is open and
everything was inserted. -/
def Recoverable (start : Tables) (suites : Option (List SuiteInput)) (db : Db) : Prop :=
  db.snapshot = some start ∨ ClosedAt start db ∨
    (db.snapshot = none ∧ ∃ list, suites = some list ∧ Inserted start list db.tables)

/-- All or nothing: what is committed is `start`, or `start` with everything inserted. -/
def AllOrNothing (start : Tables) (suites : Option (List SuiteInput)) (db : Db) : Prop :=
  db.committed = start ∨ ∃ list, suites = some list ∧ Inserted start list db.committed

/-- A request that submits two suites, the first with two tests and the second with
none. -/
def bulkRequest : Request :=
  { emptyRequest with
    platform := some "web",
    suites := some [
      { name := some "login", file_path := none, category := none, duration_ms := some 12,
        tests := some [
          { name := some "accepts", status := some "passed", duration_ms := some 5,
            error_message := none, error_stack := none },
          { name := some "rejects", status := some "failed", duration_ms := some 7,
            error_message := some "expected 401", error_stack := none }] },
      { name := some "empty", file_path := none, category := none, duration_ms := none,
        tests := none }] }

/-! ## A reading of `parseInt` for the sample stores -/

/-- A reading of `parseInt` that is right on the strings of decimal digits, which is what
`String(block.id)` is for the blocks of the sample stores; every other string is read
as `NaN`. -/
def decimalKey (s : String) : Key :=
  if s.data.isEmpty || !s.data.all Char.isDigit then none
  else some (Int.ofNat (s.data.foldl (fun n c => n * 10 + (c.toNat - 48)) 0))

/-! ## The text helpers of `src/backend/index.js`: `stripHtml` and decoding -/

/-- The global replace `.replace(/<[^>]*>/g, '')`.  A `<` with a `>` somewhere after it
starts a match, which ends at the first `>` after it; the flag says that the scan is
inside a match. -/
def removeTagsFrom : Bool → List Char → List Char
  | _, [] => []
  | true, c :: rest => if c = '>' then removeTagsFrom false rest else removeTagsFrom true rest
  | false, c :: rest =>
    if c = '<' ∧ '>' ∈ rest then removeTagsFrom true rest else c :: removeTagsFrom false rest

/-- The global replace `.replace(/&nbsp;/g, ' ')`, and any global replace of a literal
text that is not empty by one character: the number says how many characters of the
current match are still to be passed. -/
def replaceTextFrom (pattern : List Char) (by_ : Char) : Nat → List Char → List Char
  | _, [] => []
  | skip + 1, _ :: rest => replaceTextFrom pattern by_ skip rest
  | 0, c :: rest =>
    if pattern <+: c :: rest then by_ :: replaceTextFrom pattern by_ (pattern.length - 1) rest
    else c :: replaceTextFrom pattern by_ 0 rest

/-- The global replace `.replace(/\s+/g, ' ')`; the flag says that the scan is inside a
run of white space, for which the blank has been written already. -/
def collapseFrom : Bool → List Char → List Char
  | _, [] => []
  | inRun, c :: rest =>
    if isJsSpace c then
      if inRun then collapseFrom true rest else ' ' :: collapseFrom true rest
    else c :: collapseFrom false rest

/-- The function `stripHtml`. -/
def stripHtml (html : String) : String :=
  jsTrim (String.mk
    (collapseFrom false (replaceTextFrom "&nbsp;".data ' ' 0 (removeTagsFrom false html.data))))

/-- Reading the four entities of `escapeHtml` back in one pass from left to right; the
number says how many characters of the current entity are still to be passed. -/
def unescapeFrom : Nat → List Char → List Char
  | _, [] => []
  | skip + 1, _ :: rest => unescapeFrom skip rest
  | 0, c :: rest =>
    if "&amp;".data <+: c :: rest then '&' :: unescapeFrom 4 rest
    else if "&quot;".data <+: c :: rest then '"' :: unescapeFrom 5 rest
    else if "&lt;".data <+: c :: rest then '<' :: unescapeFrom 3 rest
    else if "&gt;".data <+: c :: rest then '>' :: unescapeFrom 3 rest
    else c :: unescapeFrom 0 rest

/-- The text with the four entities `&amp;`, `&quot;`, `&lt;`, `&gt;` replaced back by
their characters. -/
def unescapeHtml (s : String) : String := String.mk (unescapeFrom 0 s.data)

/-- What `escapeHtml` makes of one character. -/
def escapeChar (c : Char) : List Char :=
  if c = '&' then "&amp;".data
  else if c = '"' then "&quot;".data
  else if c = '<' then "&lt;".data
  else if c = '>' then "&gt;".data
  else [c]

/-- No `<` of the text has a `>` anywhere after it. -/
def NoTag (l : List Char) : Prop := l.Pairwise (fun a b => ¬ (a = '<' ∧ b = '>'))

/-- No two neighbours of the text are both white space. -/
def NoDoubleSpace (l : List Char) : Prop :=
  l.Chain' (fun a b => ¬ (isJsSpace a = true ∧ isJsSpace b = true))

/-! ## The rows of the bulk route -/

/-- The row of `test_runs` that the `INSERT` of the bulk route adds. -/
def insertedRun (req : Request) (suites : List SuiteInput) (t : Tables) : TestRunRow :=
  (insertBulkRun req suites t).2.runs.getLast (by simp [insertBulkRun])

/-- The row of `test_suites` that the `INSERT` of the bulk route adds for a suite. -/
def insertedSuite (runId : Int) (suite : SuiteInput) (t : Tables) : TestSuiteRow :=
  (insertBulkSuite runId suite t).2.suites.getLast (by simp [insertBulkSuite])

/-! ## Notions of the specification for the packed entries -/

/-- The number is a finite integer that is not negative. -/
def JSNum.FiniteNonneg : JSNum → Prop
  | JSNum.fin n => 0 ≤ n
  | _ => False

instance JSNum.decFiniteNonneg (v : JSNum) : Decidable (JSNum.FiniteNonneg v) :=
  match v with
  | JSNum.negInf => isFalse not_false
  | JSNum.fin n => inferInstanceAs (Decidable (0 ≤ n))
  | JSNum.posInf => isFalse not_false

/-- Every column height is a finite integer that is not negative. -/
def AllFinite (colHeights : List JSNum) : Prop :=
  ∀ (j : Nat) (v : JSNum), colHeights[j]? = some v → JSNum.FiniteNonneg v

/-! ## Triples on the tables, with or without failing calls -/

/-- The awaited calls of the oracle reject only if `faulty` holds: this is every oracle
when `faulty` is `True`, and the oracles without a failing call when it is `False`. -/
def FaultsOnlyIf (faulty : Prop) (o : Oracle) : Prop := ∀ k e, o.fault k = some e → faulty

/-- A triple on the tables for the oracles of `FaultsOnlyIf faulty`: from tables that
satisfy `pre`, a returned value `a` leaves tables that satisfy `post a` and a rejection
leaves tables that satisfy `fail`. -/
def TripleOn {α : Type} (faulty : Prop) (pre : Tables → Prop) (m : Run α)
    (post : α → Tables → Prop) (fail : Tables → Prop) : Prop :=
  ∀ (o : Oracle) (w : World), FaultsOnlyIf faulty o → pre w.db.tables →
    (∀ a, (m o w).1 = Except.ok a → post a (m o w).2.db.tables) ∧
    (∀ e, (m o w).1 = Except.error e → fail (m o w).2.db.tables)

/-! ## Notions of the specification for the shortcuts router -/

/-- No user has two shortcuts with the same url. -/
def UniqueUrls (t : Tables) : Prop :=
  t.shortcuts.Pairwise (fun a b => ¬ (a.user_id = b.user_id ∧ a.url = b.url))

/-- The user has a shortcut with that url. -/
def HasUrl (t : Tables) (userId : Int) (url : String) : Prop :=
  ∃ s ∈ t.shortcuts, s.user_id = userId ∧ s.url = url

/-- What `POST /` refuses: a name or a url that is missing or blank, or a url that, once
trimmed, is the url of a shortcut the user already has. -/
def RefusedShortcut (t : Tables) (user : UserRow) (req : Request) : Prop :=
  blank req.name = true ∨ blank req.url = true ∨ HasUrl t user.id (jsTrim (req.url.getD ""))

/-! ## Notions of the specification for collaborators and lyric updates -/

/-- No song has its owner among its collaborators. -/
def NoOwnerCollaborator (t : Tables) : Prop :=
  ∀ c ∈ t.collaborators, ¬ ownsSong t c.song_id c.user_id

/-- The request for `PUT /:id` is allowed on the lyric: the user wrote the lyric or may
edit the song it belongs to, and may edit the song the request moves it to, if that is
another song. -/
def LyricEditAllowed (t : Tables) (user : UserRow) (req : Request) (l : LyricRow) : Prop :=
  mayEditLyric t user l ∧
    ∀ n, req.song_id = Field.value n → n ≠ 0 → some n ≠ l.song_id → mayEdit t n user.id

/-- What `PUT /:id` may leave of the tables `t`: the same tables when the lyric does not
exist or the request is not allowed on it; otherwise the same tables or the tables with
the lyric updated. -/
def PutLyricLeft (t : Tables) (user : UserRow) (req : Request) (after : Tables) : Prop :=
  (firstLyric t req.id = none → after = t) ∧
  (∀ l, firstLyric t req.id = some l → ¬ LyricEditAllowed t user req l → after = t) ∧
  (after = t ∨ ∃ l, firstLyric t req.id = some l ∧ LyricEditAllowed t user req l ∧
    after = (updateLyric req l t).2)

/-! ## Routing in the shortcuts router -/

/-- A path pattern of Express matches a path: `/:id` matches every path of one segment
that is not empty, and a pattern without parameter matches the path equal to it.  (By
default Express also ignores the case of a fixed pattern and accepts one trailing slash;
such paths are left out here, and on them `/:id` is tried before `/by-url` as well.) -/
def patternMatches (pattern path : String) : Bool :=
  if pattern = "/:id" then
    match path.data with
    | '/' :: segment => !segment.isEmpty && !segment.contains '/'
    | _ => false
  else pattern == path

/-- The routes of the shortcuts router in the order in which `shortcuts.js` registers
them: method, path pattern, route. -/
def shortcutsRoutes : List (String × String × ShortcutsRoute) :=
  [("GET", "/", ShortcutsRoute.list), ("GET", "/check", ShortcutsRoute.check),
   ("POST", "/", ShortcutsRoute.create), ("DELETE", "/:id", ShortcutsRoute.delete),
   ("DELETE", "/by-url", ShortcutsRoute.deleteByUrl)]

/-- The route Express hands a request to: the first registered route whose method and
pattern match.  Every handler of this router answers without calling `next`, so no
later route sees the request. -/
def dispatchShortcuts (method path : String) : Option ShortcutsRoute :=
  (shortcutsRoutes.find? (fun r => r.1 == method && patternMatches r.2.1 path)).map
    (fun r => r.2.2)

/-- Tables in which `alice` has one shortcut. -/
def shortcutTables : Tables :=
  { sampleTables with
    shortcuts := [{ id := 5, user_id := 1, name := "Docs", url := "https://docs.example",
                    icon := none, sort_order := 1 }] }

/-- The world on the tables `shortcutTables`. -/
def shortcutWorld : World :=
  { sampleWorld with db := { tables := shortcutTables, snapshot := none } }

/-- The request `DELETE /by-url` of `alice` with the url of her shortcut in the body, as
the handler of `/:id` sees it: `req.params.id` is the text `by-url`, which the database
compares with the numeric column `id` as the number 0. -/
def deleteByUrlRequest : Request :=
  { emptyRequest with token := some "alice-token", id := 0, url := some "https://docs.example" }

/-- The request of `alice` to create a shortcut for the url she already has one for,
written with blanks around it. -/
def duplicateShortcutRequest : Request :=
  { emptyRequest with
    token := some "alice-token", name := some "Docs again",
    url := some "  https://docs.example " }

/-- The request of `bob` to rewrite the lyric 100, which `alice` wrote in her private
song. -/
def bobLyricRequest : Request :=
  { emptyRequest with token := some "bob-token", id := 100, content := some "na na" }

/-- The shortcut of `alice` in `shortcutTables`. -/
def docsShortcut : ShortcutRow :=
  { id := 5, user_id := 1, name := "Docs", url := "https://docs.example", icon := none,
    sort_order := 1 }

/-- The lyric of `alice` in `sampleTables`. -/
def aliceLyric : LyricRow :=
  { id := 100, user_id := 1, song_id := some 10, title := none, content := "la la",
    section_type := "idea", section_order := none, mood := none, notes := none,
    status := "draft" }

/-! ## Shape of the result -/

theorem packAll_map_i (colCount : Nat) (bs : List Block) :
    ∀ hs : List JSNum, (packAll colCount hs bs).1.map Item.i = bs.map Block.i := by
  induction bs with
  | nil => intro hs; rfl
  | cons b rest ih =>
    intro hs
    simp only [packAll, List.map_cons, ih]
    rfl

theorem packAll_length (colCount : Nat) (bs : List Block) :
    ∀ hs : List JSNum, (packAll colCount hs bs).1.length = bs.length := by
  intro hs
  have h := congrArg List.length (packAll_map_i colCount bs hs)
  simpa using h

theorem partition_ids_perm (st : State) (colCount : Nat) (l : List Block) :
    (((l.filterMap (fun block =>
        (savedAt st block colCount).map (savedItem block))).map Item.i) ++
      ((l.filter (fun block => (savedAt st block colCount).isNone)).map Block.i)).Perm
      (l.map Block.i) := by
  induction l with
  | nil => simp
  | cons b rest ih =>
    cases hb : savedAt st b colCount with
    | none =>
      simp only [List.filterMap_cons, hb, Option.map_none', List.filter_cons, Option.isNone_none,
        if_true, List.map_cons]
      exact List.perm_middle.trans (List.Perm.cons _ ih)
    | some p =>
      simp only [List.filterMap_cons, hb, Option.map_some', List.filter_cons, Option.isNone_some,
        List.map_cons, List.cons_append]
      exact List.Perm.cons _ ih

theorem layout_eq_append (st : State) (colCount : Nat) :
    getLayoutForColCount st colCount = savedItems st colCount ++ unsavedItems st colCount := by
  unfold getLayoutForColCount
  split
  · next h =>
    have h0 : unsavedBlocks st colCount = [] := List.length_eq_zero.mp h
    simp [unsavedItems, h0, sortBlocks, packAll]
  · rfl

theorem unsavedItems_map_i (st : State) (colCount : Nat) :
    (unsavedItems st colCount).map Item.i =
      (sortBlocks (unsavedBlocks st colCount)).map Block.i := by
  unfold unsavedItems
  exact packAll_map_i _ _ _

theorem layout_ids_perm (st : State) (colCount : Nat) :
    ((getLayoutForColCount st colCount).map Item.i).Perm (st.blocks.map Block.i) := by
  rw [layout_eq_append, List.map_append, unsavedItems_map_i]
  refine List.Perm.trans ?_ (partition_ids_perm st colCount st.blocks)
  refine List.Perm.append (List.Perm.refl _) ?_
  exact (List.perm_insertionSort blockLE (unsavedBlocks st colCount)).map Block.i

theorem packAll_forall₂ (colCount : Nat) (bs : List Block) :
    ∀ hs : List JSNum,
      List.Forall₂ (fun b it => it.i = b.i ∧ it.w = min b.w colCount ∧ it.h = b.h) bs
        (packAll colCount hs bs).1 := by
  induction bs with
  | nil => intro hs; exact List.Forall₂.nil
  | cons b rest ih =>
    intro hs
    simp only [packAll]
    exact List.Forall₂.cons ⟨rfl, rfl, rfl⟩ (ih _)

theorem forall₂_mem_left {α β : Type} {R : α → β → Prop} {l₁ : List α} {l₂ : List β}
    (h : List.Forall₂ R l₁ l₂) : ∀ a ∈ l₁, ∃ b ∈ l₂, R a b := by
  induction h with
  | nil => intro a ha; exact absurd ha (List.not_mem_nil _)
  | cons hab _ ih =>
    intro a ha
    rcases List.mem_cons.mp ha with rfl | ha
    · exact ⟨_, List.mem_cons_self _ _, hab⟩
    · obtain ⟨b, hb, hr⟩ := ih a ha
      exact ⟨b, List.mem_cons_of_mem _ hb, hr⟩

theorem forall₂_mem_right {α β : Type} {R : α → β → Prop} {l₁ : List α} {l₂ : List β}
    (h : List.Forall₂ R l₁ l₂) : ∀ b ∈ l₂, ∃ a ∈ l₁, R a b := by
  induction h with
  | nil => intro b hb; exact absurd hb (List.not_mem_nil _)
  | cons hab _ ih =>
    intro b hb
    rcases List.mem_cons.mp hb with rfl | hb
    · exact ⟨_, List.mem_cons_self _ _, hab⟩
    · obtain ⟨a, ha, hr⟩ := ih b hb
      exact ⟨a, List.mem_cons_of_mem _ ha, hr⟩

theorem mem_savedItems {st : State} {colCount : Nat} {it : Item} :
    it ∈ savedItems st colCount ↔
      ∃ b ∈ st.blocks, ∃ p, savedAt st b colCount = some p ∧ it = savedItem b p := by
  unfold savedItems
  rw [List.mem_filterMap]
  constructor
  · rintro ⟨b, hb, h⟩
    cases hp : savedAt st b colCount with
    | none => rw [hp] at h; exact absurd h (by simp)
    | some p =>
      rw [hp] at h
      simp only [Option.map_some', Option.some.injEq] at h
      exact ⟨b, hb, p, hp, h.symm⟩
  · rintro ⟨b, hb, p, hp, rfl⟩
    exact ⟨b, hb, by rw [hp]; rfl⟩

theorem mem_sorted_unsaved {st : State} {colCount : Nat} {b : Block} :
    b ∈ sortBlocks (unsavedBlocks st colCount) ↔
      b ∈ st.blocks ∧ savedAt st b colCount = none := by
  unfold sortBlocks unsavedBlocks
  rw [(List.perm_insertionSort blockLE _).mem_iff, List.mem_filter]
  simp

theorem layout_congr (st₁ st₂ : State) (colCount : Nat) (hb : st₁.blocks = st₂.blocks)
    (hp : ∀ b ∈ st₁.blocks, savedAt st₁ b colCount = savedAt st₂ b colCount) :
    getLayoutForColCount st₁ colCount = getLayoutForColCount st₂ colCount := by
  have h1 : savedItems st₁ colCount = savedItems st₂ colCount := by
    unfold savedItems
    rw [← hb]
    exact List.filterMap_congr (fun b hbm => by rw [hp b hbm])
  have h2 : unsavedBlocks st₁ colCount = unsavedBlocks st₂ colCount := by
    unfold unsavedBlocks
    rw [← hb]
    exact List.filter_congr (fun b hbm => by rw [hp b hbm])
  unfold getLayoutForColCount unsavedItems
  rw [h1, h2]


/-! ## Numbers and column heights -/

theorem JSNum.negInf_le (a : JSNum) : JSNum.negInf ≤ a := by
  show JSNum.le _ _
  cases a <;> simp [JSNum.le]

theorem JSNum.le_posInf (a : JSNum) : a ≤ JSNum.posInf := by
  show JSNum.le _ _
  cases a <;> simp [JSNum.le]

theorem JSNum.le_addExact (a : JSNum) (h : Nat) : a ≤ JSNum.addExact a h := by
  show JSNum.le _ _
  cases a <;> simp [JSNum.le, JSNum.addExact]

theorem JSNum.fin_le_fin (a b : Int) : JSNum.fin a ≤ JSNum.fin b ↔ a ≤ b := Iff.rfl

theorem JSNum.toDouble_exact (n : Int) (h1 : -(2 ^ 53) ≤ n) (h2 : n ≤ 2 ^ 53) :
    JSNum.toDouble n = JSNum.fin n := by
  have hn : n.natAbs ≤ 2 ^ 53 := by omega
  unfold JSNum.toDouble
  rw [if_pos hn]

theorem JSNum.addNat_eq_addExact (v : JSNum) (h : Nat)
    (hw : (JSNum.addExact v h).Within (-(2 ^ 53)) (2 ^ 53)) :
    JSNum.addNat v h = JSNum.addExact v h := by
  cases v with
  | negInf => rfl
  | fin a => exact JSNum.toDouble_exact _ hw.1 hw.2
  | posInf => rfl

theorem JSNum.within_mono {lo hi hi' : Int} {v : JSNum} (h : v.Within lo hi) (hle : hi ≤ hi') :
    v.Within lo hi' := by
  cases v with
  | negInf => trivial
  | fin n => exact ⟨h.1, le_trans h.2 hle⟩
  | posInf => trivial

theorem JSNum.within_of_nonneg {lo hi : Int} {v : JSNum} (h : v.Within lo hi)
    (h0 : JSNum.fin 0 ≤ v) : v.Within 0 hi := by
  cases v with
  | negInf => trivial
  | fin n => exact ⟨(JSNum.fin_le_fin 0 n).mp h0, h.2⟩
  | posInf => trivial

theorem JSNum.within_addExact {hi : Int} {v : JSNum} (h : Nat) (hv : v.Within 0 hi) :
    (JSNum.addExact v h).Within 0 (hi + h) := by
  cases v with
  | negInf => trivial
  | fin n =>
    have h1 : 0 ≤ n := hv.1
    have h2 : n ≤ hi := hv.2
    exact ⟨by omega, by omega⟩
  | posInf => trivial

theorem getElem?_foldl_range' (upd : List JSNum → Nat → List JSNum) (f : JSNum → JSNum)
    (hupd : ∀ acc col j, (upd acc col)[j]? = if col = j then (acc[j]?).map f else acc[j]?) :
    ∀ (w x : Nat) (hs : List JSNum) (j : Nat),
      ((List.range' x w).foldl upd hs)[j]? =
        if x ≤ j ∧ j < x + w then (hs[j]?).map f else hs[j]? := by
  intro w
  induction w with
  | zero =>
    intro x hs j
    have : ¬ (x ≤ j ∧ j < x + 0) := by omega
    rw [if_neg this]
    rfl
  | succ w ih =>
    intro x hs j
    rw [List.range'_succ, List.foldl_cons, ih (x + 1) (upd hs x) j, hupd]
    by_cases h1 : x = j
    · subst h1
      have a1 : ¬ (x + 1 ≤ x ∧ x < x + 1 + w) := by omega
      have a2 : x ≤ x ∧ x < x + (w + 1) := by omega
      simp [a1, a2]
    · by_cases h2 : x + 1 ≤ j ∧ j < x + 1 + w
      · have a2 : x ≤ j ∧ j < x + (w + 1) := by omega
        simp [h1, h2, a2]
      · have a2 : ¬ (x ≤ j ∧ j < x + (w + 1)) := by omega
        simp [h1, h2, a2]

theorem getElem?_raiseCol (hs : List JSNum) (col : Nat) (v : JSNum) (j : Nat) :
    (raiseCol hs col v)[j]? = if col = j then (hs[j]?).map (fun old => max old v) else hs[j]? := by
  unfold raiseCol
  by_cases hc : col < hs.length
  · rw [dif_pos hc, List.getElem?_set]
    by_cases hj : col = j
    · subst hj
      simp [hc, List.getElem?_eq_getElem hc]
    · simp [hj]
  · rw [dif_neg hc]
    by_cases hj : col = j
    · subst hj
      simp [List.getElem?_eq_none (Nat.le_of_not_lt hc)]
    · simp [hj]

theorem getElem?_seedItem (hs : List JSNum) (item : Item) (j : Nat) :
    (seedItem hs item)[j]? =
      if item.x ≤ j ∧ j < item.x + item.w then
        (hs[j]?).map (fun old => max old (JSNum.addNat item.y item.h))
      else hs[j]? := by
  unfold seedItem
  exact getElem?_foldl_range' _ _ (fun acc col j => getElem?_raiseCol acc col _ j) _ _ _ _

theorem getElem?_setRange (hs : List JSNum) (x w : Nat) (v : JSNum) (j : Nat) :
    (setRange hs x w v)[j]? =
      if x ≤ j ∧ j < x + w then (hs[j]?).map (fun _ => v) else hs[j]? := by
  unfold setRange
  refine getElem?_foldl_range' _ _ (fun acc col j => ?_) _ _ _ _
  rw [List.getElem?_set]
  by_cases hj : col = j
  · subst hj
    by_cases hc : col < acc.length
    · simp [hc, List.getElem?_eq_getElem hc]
    · simp [hc, List.getElem?_eq_none (Nat.le_of_not_lt hc)]
  · simp [hj]

theorem length_eq_of_getElem? {l₁ l₂ : List JSNum}
    (h : ∀ j : Nat, (l₁[j]?).isSome = (l₂[j]?).isSome) : l₁.length = l₂.length := by
  rcases Nat.lt_trichotomy l₁.length l₂.length with hlt | heq | hgt
  · have := h l₁.length
    rw [List.getElem?_eq_none (Nat.le_refl _), List.getElem?_eq_getElem hlt] at this
    simp at this
  · exact heq
  · have := h l₂.length
    rw [List.getElem?_eq_none (Nat.le_refl _), List.getElem?_eq_getElem hgt] at this
    simp at this

theorem length_setRange (hs : List JSNum) (x w : Nat) (v : JSNum) :
    (setRange hs x w v).length = hs.length := by
  apply length_eq_of_getElem?
  intro j
  rw [getElem?_setRange]
  split <;> simp

theorem length_seedItem (hs : List JSNum) (item : Item) :
    (seedItem hs item).length = hs.length := by
  apply length_eq_of_getElem?
  intro j
  rw [getElem?_seedItem]
  split <;> simp

theorem length_seedHeights (colCount : Nat) (saved : List Item) :
    (seedHeights colCount saved).length = colCount := by
  unfold seedHeights
  have key : ∀ (l : List Item) (hs : List JSNum), (l.foldl seedItem hs).length = hs.length := by
    intro l
    induction l with
    | nil => intro hs; rfl
    | cons a rest ih => intro hs; rw [List.foldl_cons, ih, length_seedItem]
  rw [key, List.length_replicate]

/-! ## The maximum over a window and the search loop -/

theorem foldl_max_bounds (l : List JSNum) :
    ∀ init : JSNum, init ≤ l.foldl max init ∧ ∀ a ∈ l, a ≤ l.foldl max init := by
  induction l with
  | nil => intro init; simp
  | cons b rest ih =>
    intro init
    rw [List.foldl_cons]
    obtain ⟨h1, h2⟩ := ih (max init b)
    refine ⟨le_trans (le_max_left _ _) h1, ?_⟩
    intro a ha
    rcases List.mem_cons.mp ha with rfl | ha
    · exact le_trans (le_max_right _ _) h1
    · exact h2 a ha

theorem foldl_max_le (l : List JSNum) (m : JSNum) :
    ∀ init : JSNum, init ≤ m → (∀ a ∈ l, a ≤ m) → l.foldl max init ≤ m := by
  induction l with
  | nil => intro init h _; simpa using h
  | cons b rest ih =>
    intro init h hall
    rw [List.foldl_cons]
    exact ih _ (max_le h (hall b (List.mem_cons_self _ _)))
      (fun a ha => hall a (List.mem_cons_of_mem _ ha))

theorem foldl_max_mem (l : List JSNum) :
    ∀ init : JSNum, l.foldl max init = init ∨ l.foldl max init ∈ l := by
  induction l with
  | nil => intro init; exact Or.inl rfl
  | cons a rest ih =>
    intro init
    rw [List.foldl_cons]
    rcases ih (max init a) with h | h
    · rcases max_choice init a with hm | hm
      · exact Or.inl (by rw [h, hm])
      · exact Or.inr (by rw [h, hm]; exact List.mem_cons_self _ _)
    · exact Or.inr (List.mem_cons_of_mem _ h)

theorem mem_window (hs : List JSNum) (x w : Nat) (a : JSNum) :
    a ∈ (hs.drop x).take w ↔ ∃ col, x ≤ col ∧ col < x + w ∧ hs[col]? = some a := by
  rw [List.mem_iff_getElem?]
  constructor
  · rintro ⟨n, hn⟩
    rw [List.getElem?_take] at hn
    by_cases hlt : n < w
    · rw [if_pos hlt, List.getElem?_drop] at hn
      exact ⟨x + n, by omega, by omega, hn⟩
    · rw [if_neg hlt] at hn
      exact absurd hn (by simp)
  · rintro ⟨col, h1, h2, h3⟩
    refine ⟨col - x, ?_⟩
    rw [List.getElem?_take, if_pos (by omega), List.getElem?_drop]
    have : x + (col - x) = col := by omega
    rw [this]
    exact h3

theorem isWindowMax_windowMax (hs : List JSNum) (x w : Nat) :
    IsWindowMax hs x w (windowMax hs x w) := by
  constructor
  · intro col v h1 h2 h3
    exact (foldl_max_bounds _ _).2 v ((mem_window hs x w v).mpr ⟨col, h1, h2, h3⟩)
  · intro m' hm'
    refine foldl_max_le _ _ _ (JSNum.negInf_le _) ?_
    intro a ha
    obtain ⟨col, h1, h2, h3⟩ := (mem_window hs x w a).mp ha
    exact hm' col a h1 h2 h3

theorem isWindowMax_unique {hs : List JSNum} {x w : Nat} {m₁ m₂ : JSNum}
    (h₁ : IsWindowMax hs x w m₁) (h₂ : IsWindowMax hs x w m₂) : m₁ = m₂ :=
  le_antisymm (h₁.2 m₂ h₂.1) (h₂.2 m₁ h₁.1)

theorem searchLoop_spec (hs : List JSNum) (w : Nat) (n : Nat) :
    ((List.range (n + 1)).foldl (searchStep hs w) (0, JSNum.posInf)).1 ≤ n ∧
    ((List.range (n + 1)).foldl (searchStep hs w) (0, JSNum.posInf)).2 =
      windowMax hs ((List.range (n + 1)).foldl (searchStep hs w) (0, JSNum.posInf)).1 w ∧
    (∀ x, x ≤ n →
      ((List.range (n + 1)).foldl (searchStep hs w) (0, JSNum.posInf)).2 ≤ windowMax hs x w) ∧
    (∀ x, x < ((List.range (n + 1)).foldl (searchStep hs w) (0, JSNum.posInf)).1 →
      ((List.range (n + 1)).foldl (searchStep hs w) (0, JSNum.posInf)).2 < windowMax hs x w) := by
  induction n with
  | zero =>
    have hr : List.range (0 + 1) = [0] := by decide
    rw [hr, List.foldl_cons, List.foldl_nil]
    unfold searchStep
    by_cases hlt : windowMax hs 0 w < JSNum.posInf
    · rw [if_pos hlt]
      refine ⟨Nat.le_refl _, rfl, ?_, ?_⟩
      · intro x hx
        have : x = 0 := by omega
        subst this
        exact le_refl _
      · intro x hx
        omega
    · rw [if_neg hlt]
      have heq : JSNum.posInf = windowMax hs 0 w :=
        le_antisymm (not_lt.mp hlt) (JSNum.le_posInf _)
      refine ⟨Nat.le_refl _, heq, ?_, ?_⟩
      · intro x hx
        have : x = 0 := by omega
        subst this
        exact le_of_eq heq
      · intro x hx
        omega
  | succ n ih =>
    rw [List.range_succ, List.foldl_append, List.foldl_cons, List.foldl_nil]
    generalize (List.range (n + 1)).foldl (searchStep hs w) (0, JSNum.posInf) = r at ih
    obtain ⟨h1, h2, h3, h4⟩ := ih
    unfold searchStep
    by_cases hlt : windowMax hs (n + 1) w < r.2
    · rw [if_pos hlt]
      refine ⟨Nat.le_refl _, rfl, ?_, ?_⟩
      · intro x hx
        by_cases hx' : x ≤ n
        · exact le_of_lt (lt_of_lt_of_le hlt (h3 x hx'))
        · have : x = n + 1 := by omega
          subst this
          exact le_refl _
      · intro x hx
        exact lt_of_lt_of_le hlt (h3 x (by omega))
    · rw [if_neg hlt]
      refine ⟨by omega, h2, ?_, h4⟩
      intro x hx
      by_cases hx' : x ≤ n
      · exact h3 x hx'
      · have : x = n + 1 := by omega
        subst this
        exact not_lt.mp hlt

theorem findBest_spec (colCount : Nat) (hs : List JSNum) (w : Nat) :
    (findBest colCount hs w).1 ≤ colCount - w ∧
    (findBest colCount hs w).2 = windowMax hs (findBest colCount hs w).1 w ∧
    (∀ x, x ≤ colCount - w → (findBest colCount hs w).2 ≤ windowMax hs x w) ∧
    (∀ x, x < (findBest colCount hs w).1 → (findBest colCount hs w).2 < windowMax hs x w) :=
  searchLoop_spec hs w (colCount - w)

/-! ## One placement and the packing invariant -/

theorem placeBlock_fst (colCount : Nat) (hs : List JSNum) (b : Block) :
    (placeBlock colCount hs b).1 =
      { i := b.i, x := (findBest colCount hs (min b.w colCount)).1,
        y := (findBest colCount hs (min b.w colCount)).2, w := min b.w colCount, h := b.h } :=
  rfl

theorem placeBlock_snd (colCount : Nat) (hs : List JSNum) (b : Block) :
    (placeBlock colCount hs b).2 =
      setRange hs (placeBlock colCount hs b).1.x (placeBlock colCount hs b).1.w
        (JSNum.addNat (placeBlock colCount hs b).1.y (placeBlock colCount hs b).1.h) :=
  rfl

theorem placeBlock_inside (colCount : Nat) (hs : List JSNum) (b : Block) :
    (placeBlock colCount hs b).1.x + (placeBlock colCount hs b).1.w ≤ colCount := by
  have h := (findBest_spec colCount hs (min b.w colCount)).1
  rw [placeBlock_fst]
  simp only
  have hw : min b.w colCount ≤ colCount := Nat.min_le_right _ _
  omega

theorem placeBlock_y (colCount : Nat) (hs : List JSNum) (b : Block) :
    (placeBlock colCount hs b).1.y =
      windowMax hs (placeBlock colCount hs b).1.x (placeBlock colCount hs b).1.w :=
  (findBest_spec colCount hs (min b.w colCount)).2.1

theorem length_placeBlock (colCount : Nat) (hs : List JSNum) (b : Block) :
    (placeBlock colCount hs b).2.length = hs.length := by
  rw [placeBlock_snd, length_setRange]

theorem length_packAll (colCount : Nat) (bs : List Block) :
    ∀ hs : List JSNum, (packAll colCount hs bs).2.length = hs.length := by
  induction bs with
  | nil => intro hs; rfl
  | cons b rest ih =>
    intro hs
    simp only [packAll]
    rw [ih, length_placeBlock]

theorem stacked_noOverlap {a b : Item} (h : Stacked a b) : NoOverlap a b := by
  intro col row hc
  obtain ⟨⟨ha1, ha2, _, ha4⟩, ⟨hb1, hb2, hb3, _⟩⟩ := hc
  have h1 := h col ⟨ha1, ha2⟩ ⟨hb1, hb2⟩
  exact absurd (lt_of_lt_of_le ha4 (le_trans h1 hb3)) (lt_irrefl _)

theorem noOverlap_symm {a b : Item} (h : NoOverlap a b) : NoOverlap b a :=
  fun col row hc => h col row ⟨hc.2, hc.1⟩

theorem within_windowMax (hs : List JSNum) (x w : Nat) (top : Int)
    (hh : HeightsUpTo top hs) : (windowMax hs x w).Within 0 top := by
  rcases foldl_max_mem ((hs.drop x).take w) JSNum.negInf with h | h
  · have hneg : windowMax hs x w = JSNum.negInf := h
    rw [hneg]
    trivial
  · obtain ⟨col, _, _, hcol⟩ := (mem_window hs x w _).mp h
    exact (hh col _ hcol).2

theorem placeBlock_exact (colCount : Nat) (hs : List JSNum) (b : Block) (top : Int)
    (hh : HeightsUpTo top hs) (htop : top + b.h ≤ 2 ^ 53) :
    JSNum.addNat (placeBlock colCount hs b).1.y (placeBlock colCount hs b).1.h =
        JSNum.addExact (placeBlock colCount hs b).1.y (placeBlock colCount hs b).1.h ∧
      HeightsUpTo (top + b.h) (placeBlock colCount hs b).2 := by
  have hy := placeBlock_y colCount hs b
  have hwin : (placeBlock colCount hs b).1.y.Within 0 top := by
    rw [hy]
    exact within_windowMax hs _ _ top hh
  have hb : (placeBlock colCount hs b).1.h = b.h := rfl
  have hsum : (JSNum.addExact (placeBlock colCount hs b).1.y b.h).Within 0 (top + b.h) :=
    JSNum.within_addExact b.h hwin
  have hexact : JSNum.addNat (placeBlock colCount hs b).1.y b.h =
      JSNum.addExact (placeBlock colCount hs b).1.y b.h := by
    apply JSNum.addNat_eq_addExact
    generalize JSNum.addExact (placeBlock colCount hs b).1.y b.h = v at hsum
    cases v with
    | negInf => trivial
    | fin n =>
      have h1 : 0 ≤ n := hsum.1
      have h2 : n ≤ top + b.h := hsum.2
      exact ⟨by omega, by omega⟩
    | posInf => trivial
  rw [hb]
  refine ⟨hexact, ?_⟩
  intro j v hv
  rw [placeBlock_snd, getElem?_setRange, hb, hexact] at hv
  by_cases hspan : (placeBlock colCount hs b).1.x ≤ j ∧
      j < (placeBlock colCount hs b).1.x + (placeBlock colCount hs b).1.w
  · rw [if_pos hspan] at hv
    cases hold : hs[j]? with
    | none => rw [hold] at hv; exact absurd hv (by simp)
    | some old =>
      rw [hold] at hv
      simp only [Option.map_some', Option.some.injEq] at hv
      subst hv
      have h0 : JSNum.fin 0 ≤ old := (hh j old hold).1
      have hle : old ≤ (placeBlock colCount hs b).1.y := by
        rw [hy]
        exact (isWindowMax_windowMax hs _ _).1 j old hspan.1 hspan.2 hold
      exact ⟨le_trans (le_trans h0 hle) (JSNum.le_addExact _ _), hsum⟩
  · rw [if_neg hspan] at hv
    have h := hh j v hv
    exact ⟨h.1, JSNum.within_mono h.2 (by omega)⟩

theorem place_covered (colCount : Nat) (hs : List JSNum) (b : Block) (placed : List Item)
    (hcov : Covered placed hs) (hlen : hs.length = colCount)
    (hexact : JSNum.addNat (placeBlock colCount hs b).1.y (placeBlock colCount hs b).1.h =
      JSNum.addExact (placeBlock colCount hs b).1.y (placeBlock colCount hs b).1.h) :
    (∀ a ∈ placed, Stacked a (placeBlock colCount hs b).1) ∧
      Covered (placed ++ [(placeBlock colCount hs b).1]) (placeBlock colCount hs b).2 := by
  have hin := placeBlock_inside colCount hs b
  have hy := placeBlock_y colCount hs b
  have hsnd := placeBlock_snd colCount hs b
  rw [hexact] at hsnd
  generalize (placeBlock colCount hs b).1 = it at hin hy hsnd
  generalize (placeBlock colCount hs b).2 = hs' at hsnd
  have hstack : ∀ a ∈ placed, Stacked a it := by
    intro a ha col hacol hitcol
    have hlt : col < hs.length := by
      have := hitcol.2
      omega
    have hv : hs[col]? = some (hs.get ⟨col, hlt⟩) := List.getElem?_eq_getElem hlt
    have h1 := hcov a ha col _ hacol hv
    have h2 := (isWindowMax_windowMax hs it.x it.w).1 col _ hitcol.1 hitcol.2 hv
    rw [hy]
    exact le_trans h1 h2
  refine ⟨hstack, ?_⟩
  intro a ha col v hacol hv
  rw [hsnd, getElem?_setRange] at hv
  by_cases hspan : it.x ≤ col ∧ col < it.x + it.w
  · rw [if_pos hspan] at hv
    cases hold : hs[col]? with
    | none => rw [hold] at hv; exact absurd hv (by simp)
    | some old =>
      rw [hold] at hv
      simp only [Option.map_some', Option.some.injEq] at hv
      subst hv
      rcases List.mem_append.mp ha with ha | ha
      · exact le_trans (hstack a ha col hacol hspan) (JSNum.le_addExact _ _)
      · have : a = it := by simpa using ha
        subst this
        exact le_refl _
  · rw [if_neg hspan] at hv
    rcases List.mem_append.mp ha with ha | ha
    · exact hcov a ha col v hacol hv
    · have : a = it := by simpa using ha
      subst this
      exact absurd hacol hspan

theorem pack_stacked (colCount : Nat) (bs : List Block) :
    ∀ (placed : List Item) (hs : List JSNum) (top : Int), Covered placed hs →
      hs.length = colCount → HeightsUpTo top hs →
      top + ((bs.map Block.h).sum : Nat) ≤ 2 ^ 53 →
      (∀ a ∈ placed, ∀ b ∈ (packAll colCount hs bs).1, Stacked a b) ∧
        (packAll colCount hs bs).1.Pairwise Stacked := by
  induction bs with
  | nil =>
    intro placed hs _ _ _ _ _
    simp [packAll]
  | cons b rest ih =>
    intro placed hs top hcov hlen hh htop
    simp only [List.map_cons, List.sum_cons, Nat.cast_add] at htop
    have hrest : (0 : Int) ≤ ((rest.map Block.h).sum : Nat) := Int.ofNat_nonneg _
    obtain ⟨hexact, hh'⟩ := placeBlock_exact colCount hs b top hh (by omega)
    obtain ⟨h1, h2⟩ := place_covered colCount hs b placed hcov hlen hexact
    have hlen' : (placeBlock colCount hs b).2.length = colCount := by
      rw [length_placeBlock, hlen]
    obtain ⟨h3, h4⟩ := ih _ _ (top + b.h) h2 hlen' hh' (by omega)
    simp only [packAll]
    refine ⟨?_, ?_⟩
    · intro a ha it hit
      rcases List.mem_cons.mp hit with rfl | hit
      · exact h1 a ha
      · exact h3 a (List.mem_append_left _ ha) it hit
    · refine List.Pairwise.cons ?_ h4
      intro it hit
      exact h3 _ (List.mem_append_right _ (List.mem_singleton_self _)) it hit

theorem seedItem_mono (hs : List JSNum) (item : Item) (j : Nat) (v' : JSNum)
    (h : (seedItem hs item)[j]? = some v') :
    ∃ v, hs[j]? = some v ∧ v ≤ v' ∧ (item.spans j → JSNum.addNat item.y item.h ≤ v') := by
  rw [getElem?_seedItem] at h
  by_cases hspan : item.x ≤ j ∧ j < item.x + item.w
  · rw [if_pos hspan] at h
    cases hold : hs[j]? with
    | none => rw [hold] at h; exact absurd h (by simp)
    | some old =>
      rw [hold] at h
      simp only [Option.map_some', Option.some.injEq] at h
      subst h
      exact ⟨old, rfl, le_max_left _ _, fun _ => le_max_right _ _⟩
  · rw [if_neg hspan] at h
    exact ⟨v', h, le_refl _, fun hs' => absurd hs' hspan⟩

theorem seed_fold_covered (l : List Item) :
    ∀ hs : List JSNum,
      (∀ it ∈ l, JSNum.addNat it.y it.h = JSNum.addExact it.y it.h) →
      (∀ (j : Nat) (v' : JSNum), (l.foldl seedItem hs)[j]? = some v' →
        ∃ v, hs[j]? = some v ∧ v ≤ v') ∧
      Covered l (l.foldl seedItem hs) := by
  induction l with
  | nil =>
    intro hs _
    refine ⟨fun j v' h => ⟨v', h, le_refl _⟩, ?_⟩
    intro it hit
    exact absurd hit (List.not_mem_nil _)
  | cons a rest ih =>
    intro hs hexact
    rw [List.foldl_cons]
    obtain ⟨hmono, hcov⟩ := ih (seedItem hs a)
      (fun it hit => hexact it (List.mem_cons_of_mem _ hit))
    refine ⟨?_, ?_⟩
    · intro j v' h
      obtain ⟨v1, hv1, hle1⟩ := hmono j v' h
      obtain ⟨v, hv, hle, _⟩ := seedItem_mono hs a j v1 hv1
      exact ⟨v, hv, le_trans hle hle1⟩
    · intro it hit col v hspan hv
      rcases List.mem_cons.mp hit with rfl | hit
      · obtain ⟨v1, hv1, hle1⟩ := hmono col v hv
        obtain ⟨_, _, _, hb⟩ := seedItem_mono hs it col v1 hv1
        rw [← hexact it (List.mem_cons_self _ _)]
        exact le_trans (hb hspan) hle1
      · exact hcov it hit col v hspan hv

theorem seedHeights_covered (colCount : Nat) (saved : List Item)
    (hexact : ∀ it ∈ saved, JSNum.addNat it.y it.h = JSNum.addExact it.y it.h) :
    Covered saved (seedHeights colCount saved) :=
  (seed_fold_covered saved _ hexact).2

theorem heightsUpTo_seedItem (hs : List JSNum) (item : Item) (top : Int)
    (hh : HeightsUpTo top hs) (hw : (JSNum.addExact item.y item.h).Within (-(2 ^ 53)) top)
    (hexact : JSNum.addNat item.y item.h = JSNum.addExact item.y item.h) :
    HeightsUpTo top (seedItem hs item) := by
  intro j v hv
  rw [getElem?_seedItem, hexact] at hv
  split at hv
  · cases hj : hs[j]? with
    | none => rw [hj] at hv; simp at hv
    | some old =>
      rw [hj] at hv
      simp only [Option.map_some', Option.some.injEq] at hv
      have hold := hh j old hj
      have h0 : JSNum.fin 0 ≤ v := by
        rw [← hv]
        exact le_trans hold.1 (le_max_left _ _)
      refine ⟨h0, ?_⟩
      rcases max_choice old (JSNum.addExact item.y item.h) with hm | hm
      · rw [← hv, hm]
        exact hold.2
      · rw [hm] at hv
        rw [← hv] at h0 ⊢
        exact JSNum.within_of_nonneg hw h0
  · exact hh j v hv

theorem heightsUpTo_seedHeights (colCount : Nat) (saved : List Item) (top : Int)
    (h0 : 0 ≤ top)
    (hw : ∀ it ∈ saved, (JSNum.addExact it.y it.h).Within (-(2 ^ 53)) top)
    (hexact : ∀ it ∈ saved, JSNum.addNat it.y it.h = JSNum.addExact it.y it.h) :
    HeightsUpTo top (seedHeights colCount saved) := by
  unfold seedHeights
  have hgen : ∀ (l : List Item) (hs : List JSNum), HeightsUpTo top hs →
      (∀ it ∈ l, (JSNum.addExact it.y it.h).Within (-(2 ^ 53)) top) →
      (∀ it ∈ l, JSNum.addNat it.y it.h = JSNum.addExact it.y it.h) →
      HeightsUpTo top (l.foldl seedItem hs) := by
    intro l
    induction l with
    | nil => intro hs h _ _; exact h
    | cons it rest ih =>
      intro hs h hl he
      rw [List.foldl_cons]
      exact ih _
        (heightsUpTo_seedItem hs it top h (hl it (List.mem_cons_self _ _))
          (he it (List.mem_cons_self _ _)))
        (fun it' h' => hl it' (List.mem_cons_of_mem _ h'))
        (fun it' h' => he it' (List.mem_cons_of_mem _ h'))
  refine hgen saved _ ?_ hw hexact
  intro j v hv
  rw [List.getElem?_replicate] at hv
  split at hv
  · rw [← Option.some.inj hv]
    exact ⟨le_refl _, le_refl (0 : Int), h0⟩
  · exact absurd hv (by simp)

theorem exactRows_saved (st : State) (colCount : Nat) (top : Nat)
    (hrows : ExactRows st colCount top) :
    (top : Int) ≤ 2 ^ 53 ∧
      ∀ it ∈ savedItems st colCount, JSNum.addNat it.y it.h = JSNum.addExact it.y it.h := by
  have hsum : (0 : Int) ≤ (((unsavedBlocks st colCount).map Block.h).sum : Nat) :=
    Int.ofNat_nonneg _
  have htop : (top : Int) ≤ 2 ^ 53 := by
    have := hrows.2
    omega
  refine ⟨htop, ?_⟩
  intro it hit
  exact JSNum.addNat_eq_addExact _ _ (JSNum.within_mono (hrows.1 it hit) htop)

theorem exactRows_sorted (st : State) (colCount : Nat) (top : Nat)
    (hrows : ExactRows st colCount top) :
    (top : Int) + ((((sortBlocks (unsavedBlocks st colCount)).map Block.h).sum : Nat) : Int)
      ≤ 2 ^ 53 := by
  have hperm : ((sortBlocks (unsavedBlocks st colCount)).map Block.h).sum =
      ((unsavedBlocks st colCount).map Block.h).sum :=
    ((List.perm_insertionSort blockLE (unsavedBlocks st colCount)).map Block.h).sum_eq
  rw [hperm]
  exact hrows.2

theorem layout_stacked (st : State) (colCount : Nat) (top : Nat)
    (hrows : ExactRows st colCount top) :
    (∀ a ∈ savedItems st colCount, ∀ b ∈ unsavedItems st colCount, Stacked a b) ∧
      (unsavedItems st colCount).Pairwise Stacked :=
  pack_stacked colCount _ _ _ (top : Int)
    (seedHeights_covered colCount _ (exactRows_saved st colCount top hrows).2)
    (length_seedHeights colCount _)
    (heightsUpTo_seedHeights colCount _ top (Int.ofNat_nonneg _) hrows.1
      (exactRows_saved st colCount top hrows).2)
    (exactRows_sorted st colCount top hrows)

/-! ## Claims about the layout returned -/

/-- C1: the layout returned for a column count has exactly one entry per block of the
store: as many entries as blocks, and the identifiers `i` of the entries are the
identifiers of the blocks, each as often as it occurs among the blocks. -/
theorem getLayoutForColCount_one_entry_per_block (st : State) (colCount : Nat) :
    (getLayoutForColCount st colCount).length = st.blocks.length ∧
      ((getLayoutForColCount st colCount).map Item.i).Perm (st.blocks.map Block.i) := by
  refine ⟨?_, layout_ids_perm st colCount⟩
  have := (layout_ids_perm st colCount).length_eq
  simpa using this

/-- C2 (counterexample): with two blocks whose saved positions at two columns are the
same cell, the two entries of the layout share the cell `(0, 0)`, so the entries of a
layout are not always pairwise disjoint. -/
theorem getLayoutForColCount_saved_overlap :
    ¬ (getLayoutForColCount overlapStore 2).Pairwise NoOverlap := by
  intro h
  have h2 : getLayoutForColCount overlapStore 2 =
      [⟨"1", 0, JSNum.fin 0, 1, 1⟩, ⟨"2", 0, JSNum.fin 0, 1, 1⟩] := by decide
  rw [h2] at h
  simp only [List.pairwise_cons, List.mem_singleton, forall_eq] at h
  exact h.1 0 0 (by decide)

/-- C2 (amended): when the saved entries at a column count are pairwise disjoint and the
rows stay among the integers that a double holds exactly (the bottom edge of every saved
entry lies between `-2^53` and `top`, and `top` plus the heights of the blocks without a
saved position is at most `2^53`), no two entries of the layout for that column count
occupy a common grid cell. -/
theorem getLayoutForColCount_noOverlap (st : State) (colCount : Nat) (top : Nat)
    (hsaved : (savedItems st colCount).Pairwise NoOverlap)
    (hrows : ExactRows st colCount top) :
    (getLayoutForColCount st colCount).Pairwise NoOverlap := by
  rw [layout_eq_append, List.pairwise_append]
  obtain ⟨h1, h2⟩ := layout_stacked st colCount top hrows
  exact ⟨hsaved, h2.imp (fun h => stacked_noOverlap h),
    fun a ha b hb => stacked_noOverlap (h1 a ha b hb)⟩

/-- The amended C2 on the sample store at three columns, whose saved entry ends at row 2
and whose three other blocks are 3 rows high together. -/
theorem getLayoutForColCount_noOverlap_witness :
    (savedItems sampleStore 3).Pairwise NoOverlap ∧ ExactRows sampleStore 3 2 ∧
      (getLayoutForColCount sampleStore 3).Pairwise NoOverlap :=
  have hs : (savedItems sampleStore 3).Pairwise NoOverlap := by
    have h : savedItems sampleStore 3 = [⟨"1", 1, JSNum.fin 0, 2, 2⟩] := by decide
    rw [h]
    exact List.pairwise_singleton _ _
  ⟨hs, by decide, getLayoutForColCount_noOverlap sampleStore 3 2 hs (by decide)⟩

/-- C3: a block with a saved position at the column count has an entry with exactly
the saved `x`, `y`, `w`, `h` in the layout, whatever the other blocks are; when the
identifiers of the blocks are distinct this is the only entry with the identifier of
the block. -/
theorem getLayoutForColCount_keeps_saved (st : State) (colCount : Nat) (b : Block) (p : Pos)
    (hb : b ∈ st.blocks) (hsaved : savedAt st b colCount = some p) :
    savedItem b p ∈ getLayoutForColCount st colCount ∧
      ((st.blocks.map Block.i).Nodup →
        ∀ it ∈ getLayoutForColCount st colCount, it.i = b.i → it = savedItem b p) := by
  have hmem : savedItem b p ∈ getLayoutForColCount st colCount := by
    rw [layout_eq_append]
    exact List.mem_append_left _ (mem_savedItems.mpr ⟨b, hb, p, hsaved, rfl⟩)
  refine ⟨hmem, ?_⟩
  intro hnd it hit hi
  have hnd' : ((getLayoutForColCount st colCount).map Item.i).Nodup :=
    (layout_ids_perm st colCount).nodup_iff.mpr hnd
  exact List.inj_on_of_nodup_map hnd' hit hmem hi

/-- The first block of the sample store keeps its saved position at three columns. -/
theorem getLayoutForColCount_keeps_saved_witness :
    savedItem ⟨1, "1", 0, 0, 2, 2⟩ ⟨1, JSNum.fin 0, 2, 2⟩ ∈ getLayoutForColCount sampleStore 3 ∧
      ((sampleStore.blocks.map Block.i).Nodup →
        ∀ it ∈ getLayoutForColCount sampleStore 3, it.i = "1" →
          it = savedItem ⟨1, "1", 0, 0, 2, 2⟩ ⟨1, JSNum.fin 0, 2, 2⟩) :=
  getLayoutForColCount_keeps_saved sampleStore 3 ⟨1, "1", 0, 0, 2, 2⟩ ⟨1, JSNum.fin 0, 2, 2⟩
    (by decide) (by decide)

/-- C4: the layout depends only on the block list, the saved-position cache and the
column count: two stores with the same blocks and the same cache give equal layouts
(same entries in the same order), and a second call on the store left by a first call
returns the layout of the first call. -/
theorem getLayoutForColCount_deterministic (st₁ st₂ : State) (colCount : Nat)
    (hb : st₁.blocks = st₂.blocks) (hp : st₁.positions = st₂.positions) :
    getLayoutForColCount st₁ colCount = getLayoutForColCount st₂ colCount ∧
      (runGetLayoutForColCount (runGetLayoutForColCount st₁ colCount).2 colCount).1 =
        (runGetLayoutForColCount st₁ colCount).1 := by
  refine ⟨layout_congr st₁ st₂ colCount hb ?_, rfl⟩
  intro b _
  unfold savedAt
  rw [hp]

/-- The sample store and the same store with a pending request give one layout. -/
theorem getLayoutForColCount_deterministic_witness :
    getLayoutForColCount sampleStore 3 = getLayoutForColCount sampleStoreBusy 3 ∧
      (runGetLayoutForColCount (runGetLayoutForColCount sampleStore 3).2 3).1 =
        (runGetLayoutForColCount sampleStore 3).1 :=
  getLayoutForColCount_deterministic sampleStore sampleStoreBusy 3 rfl rfl

/-- C5 (counterexample): a block whose saved position at two columns is three cells
wide has an entry of width three in the layout for two columns. -/
theorem getLayoutForColCount_saved_width_exceeds :
    ¬ (∀ it ∈ getLayoutForColCount wideStore 2, it.w ≤ 2) := by decide

/-- C5 (amended): every block without a saved position at the column count has an
entry whose width is the block's width clamped to the column count, hence at most the
column count; every entry of the layout either has width at most the column count or
is the entry of a block with a saved position, which keeps the saved width. -/
theorem getLayoutForColCount_width_clamped (st : State) (colCount : Nat) :
    (∀ b ∈ st.blocks, savedAt st b colCount = none →
      ∃ it ∈ getLayoutForColCount st colCount,
        it.i = b.i ∧ it.w = min b.w colCount ∧ it.w ≤ colCount) ∧
    (∀ it ∈ getLayoutForColCount st colCount,
      it.w ≤ colCount ∨
        ∃ b ∈ st.blocks, ∃ p, savedAt st b colCount = some p ∧ it = savedItem b p) := by
  have hf := packAll_forall₂ colCount (sortBlocks (unsavedBlocks st colCount))
    (seedHeights colCount (savedItems st colCount))
  constructor
  · intro b hb hnone
    obtain ⟨it, hit, h1, h2, _⟩ :=
      forall₂_mem_left hf b (mem_sorted_unsaved.mpr ⟨hb, hnone⟩)
    refine ⟨it, ?_, h1, h2, ?_⟩
    · rw [layout_eq_append]
      exact List.mem_append_right _ hit
    · rw [h2]
      exact Nat.min_le_right _ _
  · intro it hit
    rw [layout_eq_append] at hit
    rcases List.mem_append.mp hit with hit | hit
    · exact Or.inr (mem_savedItems.mp hit)
    · obtain ⟨b, _, _, h2, _⟩ := forall₂_mem_right hf it hit
      left
      rw [h2]
      exact Nat.min_le_right _ _

/-! ## The greedy step, seeding and the order of the result -/

theorem packAll_append (colCount : Nat) (pre rest : List Block) :
    ∀ hs : List JSNum,
      packAll colCount hs (pre ++ rest) =
        ((packAll colCount hs pre).1 ++ (packAll colCount (packAll colCount hs pre).2 rest).1,
          (packAll colCount (packAll colCount hs pre).2 rest).2) := by
  induction pre with
  | nil => intro hs; rfl
  | cons b pre ih =>
    intro hs
    show packAll colCount hs (b :: (pre ++ rest)) = _
    simp only [packAll]
    rw [ih]
    rfl

theorem unsavedItems_at (st : State) (colCount : Nat) (pre : List Block) (b : Block)
    (post : List Block) (hsplit : sortBlocks (unsavedBlocks st colCount) = pre ++ b :: post) :
    (unsavedItems st colCount)[pre.length]? =
      some (placeBlock colCount (heightsAfter st colCount pre) b).1 := by
  unfold unsavedItems heightsAfter
  rw [hsplit, packAll_append]
  simp only [packAll]
  rw [List.getElem?_append_right (by rw [packAll_length])]
  simp [packAll_length]

theorem length_heightsAfter (st : State) (colCount : Nat) (pre : List Block) :
    (heightsAfter st colCount pre).length = colCount := by
  unfold heightsAfter
  rw [length_packAll, length_seedHeights]

theorem blockLE_iff_keyLE (a b : Block) : blockLE a b ↔ keyLE a b := by
  unfold blockLE compareBlocks keyLE
  split <;> omega

theorem blockLE_total (a b : Block) : blockLE a b ∨ blockLE b a := by
  rw [blockLE_iff_keyLE, blockLE_iff_keyLE]
  unfold keyLE
  omega

theorem blockLE_trans (a b c : Block) (h₁ : blockLE a b) (h₂ : blockLE b c) : blockLE a c := by
  rw [blockLE_iff_keyLE] at *
  unfold keyLE at *
  omega

theorem sortBlocks_sorted (bs : List Block) : (sortBlocks bs).Pairwise keyLE := by
  haveI : IsTotal Block blockLE := ⟨blockLE_total⟩
  haveI : IsTrans Block blockLE := ⟨blockLE_trans⟩
  have h : (List.insertionSort blockLE bs).Pairwise blockLE := List.sorted_insertionSort blockLE bs
  exact h.imp (fun hab => (blockLE_iff_keyLE _ _).mp hab)

theorem sortBlocks_stable (bs : List Block) (a b : Block) (hab : blockLE a b)
    (h : [a, b].Sublist bs) : [a, b].Sublist (sortBlocks bs) := by
  haveI : IsTotal Block blockLE := ⟨blockLE_total⟩
  haveI : IsTrans Block blockLE := ⟨blockLE_trans⟩
  exact List.pair_sublist_insertionSort hab h

theorem savedItems_forall₂ (st : State) (colCount : Nat) (l : List Block) :
    List.Forall₂ (fun b it => ∃ p, savedAt st b colCount = some p ∧ it = savedItem b p)
      (l.filter (fun block => (savedAt st block colCount).isSome))
      (l.filterMap (fun block => (savedAt st block colCount).map (savedItem block))) := by
  induction l with
  | nil => exact List.Forall₂.nil
  | cons b rest ih =>
    cases hb : savedAt st b colCount with
    | none =>
      simpa [List.filter_cons, List.filterMap_cons, hb] using ih
    | some p =>
      simp only [List.filter_cons, List.filterMap_cons, hb, Option.isSome_some, if_true,
        Option.map_some']
      exact List.Forall₂.cons ⟨p, hb, rfl⟩ ih

/-- C6: the greedy placement step.  When the sorted unsaved blocks are `pre`, then
`b`, then `post`, the entry of `b` is the one placed on the column heights left by
`pre`, with `w = min(b.w, colCount)`; its `x` is a start position in `[0, colCount - w]`;
its `y` is the maximum height over the columns `[x, x + w)`, it is at most the maximum
over the window of every start position in `[0, colCount - w]` and strictly below the
maximum over the window of every smaller start position; afterwards every column in
`[x, x + w)` has height `y + b.h` and every other column keeps its height. -/
theorem greedy_placement_step (st : State) (colCount : Nat) (pre : List Block) (b : Block)
    (post : List Block) (hsplit : sortBlocks (unsavedBlocks st colCount) = pre ++ b :: post) :
    (unsavedItems st colCount)[pre.length]? =
        some (placeBlock colCount (heightsAfter st colCount pre) b).1 ∧
      heightsAfter st colCount (pre ++ [b]) =
        (placeBlock colCount (heightsAfter st colCount pre) b).2 ∧
      (placeBlock colCount (heightsAfter st colCount pre) b).1.w = min b.w colCount ∧
      (placeBlock colCount (heightsAfter st colCount pre) b).1.x ≤
        colCount - min b.w colCount ∧
      IsWindowMax (heightsAfter st colCount pre)
        (placeBlock colCount (heightsAfter st colCount pre) b).1.x (min b.w colCount)
        (placeBlock colCount (heightsAfter st colCount pre) b).1.y ∧
      (∀ x m, x ≤ colCount - min b.w colCount →
        IsWindowMax (heightsAfter st colCount pre) x (min b.w colCount) m →
          (placeBlock colCount (heightsAfter st colCount pre) b).1.y ≤ m) ∧
      (∀ x m, x < (placeBlock colCount (heightsAfter st colCount pre) b).1.x →
        IsWindowMax (heightsAfter st colCount pre) x (min b.w colCount) m →
          (placeBlock colCount (heightsAfter st colCount pre) b).1.y < m) ∧
      (∀ col, (placeBlock colCount (heightsAfter st colCount pre) b).1.x ≤ col →
        col < (placeBlock colCount (heightsAfter st colCount pre) b).1.x + min b.w colCount →
          (placeBlock colCount (heightsAfter st colCount pre) b).2[col]? =
            some (JSNum.addNat (placeBlock colCount (heightsAfter st colCount pre) b).1.y b.h)) ∧
      (∀ col, ¬ ((placeBlock colCount (heightsAfter st colCount pre) b).1.x ≤ col ∧
        col < (placeBlock colCount (heightsAfter st colCount pre) b).1.x + min b.w colCount) →
          (placeBlock colCount (heightsAfter st colCount pre) b).2[col]? =
            (heightsAfter st colCount pre)[col]?) := by
  refine ⟨unsavedItems_at st colCount pre b post hsplit, ?_, ?_⟩
  · unfold heightsAfter
    rw [packAll_append]
    rfl
  have hlen := length_heightsAfter st colCount pre
  generalize heightsAfter st colCount pre = hs at hlen ⊢
  obtain ⟨f1, f2, f3, f4⟩ := findBest_spec colCount hs (min b.w colCount)
  have hw : min b.w colCount ≤ colCount := Nat.min_le_right _ _
  refine ⟨rfl, f1, ?_, ?_, ?_, ?_, ?_⟩
  · show IsWindowMax hs (findBest colCount hs (min b.w colCount)).1 (min b.w colCount)
      (findBest colCount hs (min b.w colCount)).2
    rw [f2]
    exact isWindowMax_windowMax _ _ _
  · intro x m hx hm
    show (findBest colCount hs (min b.w colCount)).2 ≤ m
    rw [isWindowMax_unique hm (isWindowMax_windowMax hs x _)]
    exact f3 x hx
  · intro x m hx hm
    show (findBest colCount hs (min b.w colCount)).2 < m
    rw [isWindowMax_unique hm (isWindowMax_windowMax hs x _)]
    exact f4 x hx
  · intro col h1 h2
    rw [placeBlock_snd, getElem?_setRange]
    have h1' : (findBest colCount hs (min b.w colCount)).1 ≤ col := h1
    have h2' : col < (findBest colCount hs (min b.w colCount)).1 + min b.w colCount := h2
    have hlt : col < hs.length := by
      rw [hlen]
      generalize min b.w colCount = w at *
      omega
    have hif : (if (placeBlock colCount hs b).1.x ≤ col ∧
        col < (placeBlock colCount hs b).1.x + (placeBlock colCount hs b).1.w then
          (hs[col]?).map (fun _ => JSNum.addNat (placeBlock colCount hs b).1.y
            (placeBlock colCount hs b).1.h)
        else hs[col]?) =
        (hs[col]?).map (fun _ => JSNum.addNat (placeBlock colCount hs b).1.y
            (placeBlock colCount hs b).1.h) := if_pos ⟨h1, h2⟩
    rw [hif, List.getElem?_eq_getElem hlt]
    rfl
  · intro col hcol
    rw [placeBlock_snd, getElem?_setRange]
    exact if_neg hcol

/-- The second placement on the sample store at three columns. -/
theorem greedy_placement_step_witness :
    sortBlocks (unsavedBlocks sampleStore 3) =
        [⟨2, "2", 2, 0, 2, 1⟩] ++ ⟨3, "3", 0, 2, 3, 1⟩ :: [⟨4, "4", 0, 2, 1, 1⟩] ∧
      (unsavedItems sampleStore 3)[1]? = some ⟨"3", 0, JSNum.fin 3, 3, 1⟩ ∧
      heightsAfter sampleStore 3 ([⟨2, "2", 2, 0, 2, 1⟩] ++ [⟨3, "3", 0, 2, 3, 1⟩]) =
        [JSNum.fin 4, JSNum.fin 4, JSNum.fin 4] :=
  have h := greedy_placement_step sampleStore 3 [⟨2, "2", 2, 0, 2, 1⟩] ⟨3, "3", 0, 2, 3, 1⟩
    [⟨4, "4", 0, 2, 1, 1⟩] (by decide)
  ⟨by decide, h.1.trans (by decide), h.2.1.trans (by decide)⟩

/-- C7 (failing input): at two columns the first block is saved two columns wide at row
`2^53 + 4` with height 1, so its bottom edge is row `2^53 + 5`.  The sum of the two
doubles is `2^53 + 4`, the columns are seeded with it, and the entry of the second block
is packed at `y = 2^53 + 4`, above the bottom edge of the saved block. -/
theorem unsaved_lands_on_saved :
    savedAt edgeStoreWide ⟨1, "1", 0, 0, 2, 1⟩ 2 = some ⟨0, JSNum.fin 9007199254740996, 2, 1⟩ ∧
    unsavedItems edgeStoreWide 2 = [⟨"2", 0, JSNum.fin 9007199254740996, 1, 1⟩] ∧
    ¬ (∀ u ∈ unsavedItems edgeStoreWide 2, ∀ col, 0 ≤ col → col < 0 + 2 → u.spans col →
        JSNum.addExact (JSNum.fin 9007199254740996) 1 ≤ u.y) := by
  have hu : unsavedItems edgeStoreWide 2 = [⟨"2", 0, JSNum.fin 9007199254740996, 1, 1⟩] := by
    decide!
  refine ⟨by decide, hu, ?_⟩
  intro h
  rw [hu] at h
  exact absurd
    (h _ (List.mem_singleton_self _) 0 (le_refl _) (by decide) ⟨by decide, by decide⟩)
    (by decide)

/-- Where the sums are exact, unsaved blocks land below the saved ones.  When the rows
stay among the integers that a double holds exactly (the bottom edge of every saved entry
lies between `-2^53` and `top`, and `top` plus the heights of the blocks without a saved
position is at most `2^53`), then for a block with a saved position at the column count
every column of the array that the saved position spans is raised to at least its bottom
edge `y + h`, and every packed (unsaved) entry of the layout that spans a column spanned
by the saved position starts at or after that bottom edge. -/
theorem unsaved_land_below_saved (st : State) (colCount : Nat) (top : Nat) (b : Block)
    (p : Pos) (hb : b ∈ st.blocks) (hsaved : savedAt st b colCount = some p)
    (hrows : ExactRows st colCount top) :
    getLayoutForColCount st colCount = savedItems st colCount ++ unsavedItems st colCount ∧
      (∀ (col : Nat) (v : JSNum), p.x ≤ col → col < p.x + p.w →
        (seedHeights colCount (savedItems st colCount))[col]? = some v →
          JSNum.addExact p.y p.h ≤ v) ∧
      (∀ u ∈ unsavedItems st colCount, ∀ col, p.x ≤ col → col < p.x + p.w → u.spans col →
        JSNum.addExact p.y p.h ≤ u.y) := by
  have hmem : savedItem b p ∈ savedItems st colCount :=
    mem_savedItems.mpr ⟨b, hb, p, hsaved, rfl⟩
  refine ⟨layout_eq_append st colCount, ?_, ?_⟩
  · intro col v h1 h2 hv
    exact seedHeights_covered colCount _ (exactRows_saved st colCount top hrows).2 _ hmem
      col v ⟨h1, h2⟩ hv
  · intro u hu col h1 h2 hspan
    exact (layout_stacked st colCount top hrows).1 _ hmem u hu col ⟨h1, h2⟩ hspan

/-- The packed entries of the sample store at three columns start at or after row 2
on the columns of the saved block. -/
theorem unsaved_land_below_saved_witness :
    ExactRows sampleStore 3 2 ∧
    getLayoutForColCount sampleStore 3 = savedItems sampleStore 3 ++ unsavedItems sampleStore 3 ∧
      (∀ (col : Nat) (v : JSNum), 1 ≤ col → col < 1 + 2 →
        (seedHeights 3 (savedItems sampleStore 3))[col]? = some v →
          JSNum.addExact (JSNum.fin 0) 2 ≤ v) ∧
      (∀ u ∈ unsavedItems sampleStore 3, ∀ col, 1 ≤ col → col < 1 + 2 → u.spans col →
        JSNum.addExact (JSNum.fin 0) 2 ≤ u.y) :=
  ⟨by decide,
    unsaved_land_below_saved sampleStore 3 2 ⟨1, "1", 0, 0, 2, 2⟩ ⟨1, JSNum.fin 0, 2, 2⟩
      (by decide) (by decide) (by decide)⟩

/-- C8: order of the result.  The layout is the saved entries followed by the packed
entries.  The saved entries are the entries of the blocks with a saved position, in
the blocks' input order.  The packed entries are the entries of the blocks without a
saved position taken in the order given by ascending original `y` and, for equal `y`,
ascending original `x`, where blocks equal in both keep their input order; and the
blocks are packed in exactly that order: the entry at each position is placed on the
column heights left by the blocks before it. -/
theorem getLayoutForColCount_order (st : State) (colCount : Nat) :
    getLayoutForColCount st colCount = savedItems st colCount ++ unsavedItems st colCount ∧
      List.Forall₂ (fun b it => ∃ p, savedAt st b colCount = some p ∧ it = savedItem b p)
        (st.blocks.filter (fun block => (savedAt st block colCount).isSome))
        (savedItems st colCount) ∧
      List.Forall₂ (fun b it => it.i = b.i ∧ it.w = min b.w colCount ∧ it.h = b.h)
        (sortBlocks (unsavedBlocks st colCount)) (unsavedItems st colCount) ∧
      (sortBlocks (unsavedBlocks st colCount)).Perm
        (st.blocks.filter (fun block => (savedAt st block colCount).isNone)) ∧
      (sortBlocks (unsavedBlocks st colCount)).Pairwise keyLE ∧
      (∀ a b, [a, b].Sublist
          (st.blocks.filter (fun block => (savedAt st block colCount).isNone)) →
        a.y = b.y → a.x = b.x → [a, b].Sublist (sortBlocks (unsavedBlocks st colCount))) ∧
      (∀ pre b post, sortBlocks (unsavedBlocks st colCount) = pre ++ b :: post →
        (unsavedItems st colCount)[pre.length]? =
          some (placeBlock colCount (heightsAfter st colCount pre) b).1) := by
  refine ⟨layout_eq_append st colCount, savedItems_forall₂ st colCount st.blocks,
    packAll_forall₂ colCount _ _, List.perm_insertionSort blockLE _, sortBlocks_sorted _, ?_, ?_⟩
  · intro a b hsub hy hx
    refine sortBlocks_stable _ a b ?_ hsub
    rw [blockLE_iff_keyLE]
    exact Or.inr ⟨hy, Nat.le_of_eq hx⟩
  · intro pre b post hsplit
    exact unsavedItems_at st colCount pre b post hsplit

/-! ## The store -/

/-- C9: the packer leaves the store unchanged.  After `getLayoutForColCount` and after
`buildResponsiveLayouts` the saved-position cache and the block list are those before
the call (the whole store is); `buildResponsiveLayouts` returns, for each breakpoint,
the layout of its column count on that unchanged store. -/
theorem packer_leaves_store_unchanged (st : State) (colCount : Nat) :
    (runGetLayoutForColCount st colCount).2 = st ∧
      (runGetLayoutForColCount st colCount).2.positions = st.positions ∧
      (runGetLayoutForColCount st colCount).2.blocks = st.blocks ∧
      (buildResponsiveLayouts st).2 = st ∧
      (buildResponsiveLayouts st).2.positions = st.positions ∧
      (buildResponsiveLayouts st).2.blocks = st.blocks ∧
      (buildResponsiveLayouts st).1 =
        BREAKPOINT_COLS.map (fun entry => (entry.1, getLayoutForColCount st entry.2)) :=
  ⟨rfl, rfl, rfl, rfl, rfl, rfl, rfl⟩

theorem lookup_setPosition (ps : Key → Option (Nat → Option Pos)) (id : Key) (c : Nat)
    (p : Pos) (k : Key) (c' : Nat) :
    ((setPosition ps id c p) k).bind (fun byCol => byCol c') =
      if k = id ∧ c' = c then some p else (ps k).bind (fun byCol => byCol c') := by
  unfold setPosition
  by_cases hk : k = id
  · subst hk
    by_cases hc : c' = c
    · simp [hc]
    · cases hps : ps k <;> simp [hc, hps]
  · simp [hk]

theorem lookup_updateCache (c : Nat) (items : List (Key × Pos)) :
    ∀ (ps : Key → Option (Nat → Option Pos)) (k : Key) (c' : Nat),
      (c' ≠ c ∨ ∀ e ∈ items, e.1 ≠ k) →
        ((updateCache ps c items) k).bind (fun byCol => byCol c') =
          (ps k).bind (fun byCol => byCol c') := by
  induction items with
  | nil => intro ps k c' _; rfl
  | cons e rest ih =>
    intro ps k c' h
    have hrest : c' ≠ c ∨ ∀ e' ∈ rest, e'.1 ≠ k := by
      rcases h with h | h
      · exact Or.inl h
      · exact Or.inr (fun e' he' => h e' (List.mem_cons_of_mem _ he'))
    unfold updateCache
    rw [List.foldl_cons]
    have := ih (setPosition ps e.1 c e.2) k c' hrest
    unfold updateCache at this
    rw [this, lookup_setPosition]
    have hne : ¬ (k = e.1 ∧ c' = c) := by
      rintro ⟨h1, h2⟩
      rcases h with h | h
      · exact h h2
      · exact h e (List.mem_cons_self _ _) h1.symm
    rw [if_neg hne]

/-- C10: saved positions are independent across column counts.  A successful
`saveLayoutForColCount(c, items)` leaves the block list as it is and changes the cache
only at keys `(parseInt(item.i), c)` for an item of `items`: the saved position of
every key at every other column count, and of every key that is not the id of an item
at `c`, is the same before and after; hence `getLayoutForColCount(c')` returns the
same layout before and after for every `c'` different from `c`. -/
theorem saveLayoutForColCount_frame (parseInt : String → Key) (outcome : FetchOutcome)
    (c : Nat) (items : List Item) (st : State)
    (hok : (saveLayoutForColCount parseInt outcome c items st).1 = Except.ok ()) :
    (saveLayoutForColCount parseInt outcome c items st).2.blocks = st.blocks ∧
      (∀ k c', c' ≠ c →
        lookupPosition (saveLayoutForColCount parseInt outcome c items st).2 k c' =
          lookupPosition st k c') ∧
      (∀ k, (∀ it ∈ items, parseInt it.i ≠ k) →
        lookupPosition (saveLayoutForColCount parseInt outcome c items st).2 k c =
          lookupPosition st k c) ∧
      (∀ c', c' ≠ c →
        getLayoutForColCount (saveLayoutForColCount parseInt outcome c items st).2 c' =
          getLayoutForColCount st c') := by
  cases outcome with
  | rejected message => exact absurd hok (by simp [saveLayoutForColCount])
  | resolved ok =>
    cases ok with
    | false => exact absurd hok (by simp [saveLayoutForColCount])
    | true =>
      have hother : ∀ k c', c' ≠ c →
          lookupPosition (saveLayoutForColCount parseInt (FetchOutcome.resolved true) c items
            st).2 k c' = lookupPosition st k c' := by
        intro k c' hc
        exact lookup_updateCache c _ st.positions k c' (Or.inl hc)
      refine ⟨rfl, hother, ?_, ?_⟩
      · intro k hk
        refine lookup_updateCache c _ st.positions k c (Or.inr ?_)
        intro e he
        unfold saveItems at he
        obtain ⟨it, hit, rfl⟩ := List.mem_map.mp he
        exact hk it hit
      · intro c' hc
        refine layout_congr _ _ c' rfl ?_
        intro b _
        exact hother (some b.id) c' hc

/-- Saving one entry at three columns leaves the layout for five columns as it was. -/
theorem saveLayoutForColCount_frame_witness :
    (saveLayoutForColCount String.toInt? (FetchOutcome.resolved true) 3
        [⟨"2", 0, JSNum.fin 2, 2, 1⟩] sampleStore).1 = Except.ok () ∧
      getLayoutForColCount (saveLayoutForColCount String.toInt? (FetchOutcome.resolved true) 3
        [⟨"2", 0, JSNum.fin 2, 2, 1⟩] sampleStore).2 5 = getLayoutForColCount sampleStore 5 :=
  ⟨rfl, (saveLayoutForColCount_frame String.toInt? (FetchOutcome.resolved true) 3
    [⟨"2", 0, JSNum.fin 2, 2, 1⟩] sampleStore rfl).2.2.2 5 (by decide)⟩


/-! ## Backend: redirects, sliding session, Open Graph injection -/

theorem startsWith_exclusive (key a b : String) (ha : startsWith key a = true)
    (hb : startsWith key b = true) :
    a.data.isPrefixOf b.data = true ∨ b.data.isPrefixOf a.data = true := by
  unfold startsWith at ha hb
  rw [List.isPrefixOf_iff_prefix] at ha hb
  rcases List.prefix_or_prefix_of_prefix ha hb with h | h
  · exact Or.inl (List.isPrefixOf_iff_prefix.mpr h)
  · exact Or.inr (List.isPrefixOf_iff_prefix.mpr h)

theorem legacy_profile_not_folder (key : String) (h : startsWith key "profile_" = true) :
    hasS3Folder key = false := by
  unfold hasS3Folder
  have h1 : startsWith key "profiles/" = false := by
    cases hc : startsWith key "profiles/" with
    | false => rfl
    | true => exact absurd (startsWith_exclusive key _ _ h hc) (by decide)
  have h2 : startsWith key "chat/" = false := by
    cases hc : startsWith key "chat/" with
    | false => rfl
    | true => exact absurd (startsWith_exclusive key _ _ h hc) (by decide)
  have h3 : startsWith key "blog/" = false := by
    cases hc : startsWith key "blog/" with
    | false => rfl
    | true => exact absurd (startsWith_exclusive key _ _ h hc) (by decide)
  have h4 : startsWith key "gallery/" = false := by
    cases hc : startsWith key "gallery/" with
    | false => rfl
    | true => exact absurd (startsWith_exclusive key _ _ h hc) (by decide)
  rw [h1, h2, h3, h4]
  rfl

theorem legacy_chat_not_folder (key : String) (h : startsWith key "chat_" = true) :
    hasS3Folder key = false ∧ startsWith key "profile_" = false := by
  have h0 : startsWith key "profile_" = false := by
    cases hc : startsWith key "profile_" with
    | false => rfl
    | true => exact absurd (startsWith_exclusive key _ _ h hc) (by decide)
  refine ⟨?_, h0⟩
  unfold hasS3Folder
  have h1 : startsWith key "profiles/" = false := by
    cases hc : startsWith key "profiles/" with
    | false => rfl
    | true => exact absurd (startsWith_exclusive key _ _ h hc) (by decide)
  have h2 : startsWith key "chat/" = false := by
    cases hc : startsWith key "chat/" with
    | false => rfl
    | true => exact absurd (startsWith_exclusive key _ _ h hc) (by decide)
  have h3 : startsWith key "blog/" = false := by
    cases hc : startsWith key "blog/" with
    | false => rfl
    | true => exact absurd (startsWith_exclusive key _ _ h hc) (by decide)
  have h4 : startsWith key "gallery/" = false := by
    cases hc : startsWith key "gallery/" with
    | false => rfl
    | true => exact absurd (startsWith_exclusive key _ _ h hc) (by decide)
  rw [h1, h2, h3, h4]
  rfl

/-- C14: the key mapping of `handleS3Redirect`.  With `key` the request path without
its leading slash: an empty key gives status 404; otherwise the response is a 301
redirect to `getS3Url(s3Key)` where `s3Key` is `key` when `key` starts with
`profiles/`, `chat/`, `blog/` or `gallery/`, is `profiles/` followed by `key` when
`key` starts with `profile_`, is `chat/` followed by `key` when `key` starts with
`chat_`, and is `key` in every other case. -/
theorem handleS3Redirect_key_mapping (getS3Url : String → String) (path : String) :
    (stripLeadingSlash path = "" →
      handleS3Redirect getS3Url path = ⟨404, Body.message "File not found"⟩) ∧
    (stripLeadingSlash path ≠ "" →
      ∃ s3Key, handleS3Redirect getS3Url path = ⟨301, Body.location (getS3Url s3Key)⟩ ∧
        ((startsWith (stripLeadingSlash path) "profiles/" = true ∨
            startsWith (stripLeadingSlash path) "chat/" = true ∨
            startsWith (stripLeadingSlash path) "blog/" = true ∨
            startsWith (stripLeadingSlash path) "gallery/" = true) →
          s3Key = stripLeadingSlash path) ∧
        (startsWith (stripLeadingSlash path) "profile_" = true →
          s3Key = "profiles/" ++ stripLeadingSlash path) ∧
        (startsWith (stripLeadingSlash path) "chat_" = true →
          s3Key = "chat/" ++ stripLeadingSlash path) ∧
        (startsWith (stripLeadingSlash path) "profiles/" = false →
          startsWith (stripLeadingSlash path) "chat/" = false →
          startsWith (stripLeadingSlash path) "blog/" = false →
          startsWith (stripLeadingSlash path) "gallery/" = false →
          startsWith (stripLeadingSlash path) "profile_" = false →
          startsWith (stripLeadingSlash path) "chat_" = false →
          s3Key = stripLeadingSlash path)) := by
  generalize hkey : stripLeadingSlash path = key
  constructor
  · intro h
    simp [handleS3Redirect, hkey, h]
  · intro h
    refine ⟨s3KeyOf key, by simp [handleS3Redirect, hkey, h], ?_, ?_, ?_, ?_⟩
    · intro hf
      have : hasS3Folder key = true := by
        unfold hasS3Folder
        rcases hf with hf | hf | hf | hf <;> simp [hf]
      simp [s3KeyOf, this]
    · intro hp
      simp [s3KeyOf, legacy_profile_not_folder key hp, hp]
    · intro hc
      obtain ⟨h1, h2⟩ := legacy_chat_not_folder key hc
      simp [s3KeyOf, h1, h2, hc]
    · intro h1 h2 h3 h4 h5 h6
      simp [s3KeyOf, hasS3Folder, h1, h2, h3, h4, h5, h6]

/-- The key mapping on a legacy profile picture name. -/
theorem handleS3Redirect_key_mapping_witness :
    stripLeadingSlash "/profile_7.png" ≠ "" ∧
      ∃ s3Key, handleS3Redirect (fun k => "https://s3/" ++ k) "/profile_7.png" =
          ⟨301, Body.location ("https://s3/" ++ s3Key)⟩ ∧
        (startsWith (stripLeadingSlash "/profile_7.png") "profile_" = true →
          s3Key = "profiles/" ++ stripLeadingSlash "/profile_7.png") :=
  ⟨by decide,
    let ⟨k, h1, _, h3, _⟩ :=
      (handleS3Redirect_key_mapping (fun k => "https://s3/" ++ k) "/profile_7.png").2 (by decide)
    ⟨k, h1, h3⟩⟩

/-- C15: the sliding session.  For every request the middleware calls `next()` exactly
once and never ends the response.  When the request carries a token that verifies,
one fresh token, signed for `48h` from the verified username alone, is set as the
cookie `jwtToken` with `maxAge` 48 hours in milliseconds and as the header
`X-New-Token`, the same token in both.  When the request carries no token or a token
that fails verification, no cookie and no header is set. -/
theorem refreshSession_sliding (env : ProcessEnv) (verify : String → Option (Option String))
    (sign : Option String → String → String) (token : Option String) :
    (refreshSession env verify sign token).nextCalls = 1 ∧
    (refreshSession env verify sign token).ended = false ∧
    (∀ t username, token = some t → t ≠ "" → verify t = some username →
      ∃ options,
        (refreshSession env verify sign token).cookies =
            [⟨"jwtToken", sign username "48h", options⟩] ∧
          options.maxAge = 48 * 60 * 60 * 1000 ∧
          (refreshSession env verify sign token).headers =
            [("X-New-Token", sign username "48h")]) ∧
    ((token = none ∨ token = some "" ∨ ∃ t, token = some t ∧ verify t = none) →
      (refreshSession env verify sign token).cookies = [] ∧
        (refreshSession env verify sign token).headers = []) := by
  refine ⟨?_, ?_, ?_, ?_⟩
  · unfold refreshSession
    cases token with
    | none => rfl
    | some t =>
      by_cases ht : t = ""
      · simp [ht]
      · cases hv : verify t <;> simp [ht, hv]
  · unfold refreshSession
    cases token with
    | none => rfl
    | some t =>
      by_cases ht : t = ""
      · simp [ht]
      · cases hv : verify t <;> simp [ht, hv]
  · intro t username htok ht hv
    subst htok
    refine ⟨{ maxAge := COOKIE_MAX_AGE,
              domain := if env.NODE_ENV = some "production" then some ".prosaurus.com" else none,
              path := "/", httpOnly := false, secure := cookieSecure env, sameSite := "lax" },
      ?_, rfl, ?_⟩
    · simp [refreshSession, ht, hv]
    · simp [refreshSession, ht, hv]
  · intro h
    unfold refreshSession
    rcases h with h | h | ⟨t, h, hv⟩
    · subst h
      exact ⟨rfl, rfl⟩
    · subst h
      exact ⟨rfl, rfl⟩
    · subst h
      by_cases ht : t = ""
      · simp [ht]
      · simp [ht, hv]

theorem substituteFrom_plain (matched before after : List Char) :
    ∀ repl : List Char, (∀ c ∈ repl, c ≠ '$') →
      substituteFrom matched before after false repl = repl := by
  intro repl
  induction repl with
  | nil => intro _; rfl
  | cons c rest ih =>
    intro h
    have hc : c ≠ '$' := h c (List.mem_cons_self _ _)
    have hrest := ih (fun d hd => h d (List.mem_cons_of_mem _ hd))
    simp [substituteFrom, hc, hrest]

theorem injectOgIntoHtml_plain (html ogTags : String) (h : ∀ c ∈ ogTags.data, c ≠ '$') :
    injectOgIntoHtml html ogTags "" = injectVerbatim html ogTags := by
  unfold injectOgIntoHtml injectVerbatim replaceFirst getSubstitution
  have hrepl : ∀ c ∈ ogTags.data ++ "\n  </head>".data, c ≠ '$' := by
    intro c hc
    rcases List.mem_append.mp hc with hc | hc
    · exact h c hc
    · have hlit : ∀ d ∈ "\n  </head>".data, d ≠ '$' := by decide
      exact hlit c hc
  cases hs : splitAtFirst "</head>".data html.data with
  | none => simp
  | some found =>
    obtain ⟨before, after⟩ := found
    simp [substituteFrom_plain _ _ _ _ hrepl]

/-- C18 (failing input): for the Open Graph tags of a post titled `Save $$$ now` the
page built by `injectOgIntoHtml` is not the page with the tags inserted verbatim: the
replacement string of `String.prototype.replace` turns each `$$` into `$`. -/
theorem injectOgIntoHtml_dollar_not_verbatim :
    injectOgIntoHtml "<head></head>" (buildOgTags dollarPost) "" ≠
      injectVerbatim "<head></head>" (buildOgTags dollarPost) := by decide

/-! ## What a handler can return -/

theorem Run.bind_ok {α β : Type} (m : Run α) (f : α → Run β) (o : Oracle) (w : World)
    (b : β) (w'' : World) :
    (m >>= f) o w = (Except.ok b, w'') ↔
      ∃ a w', m o w = (Except.ok a, w') ∧ f a o w' = (Except.ok b, w'') := by
  show Run.bind m f o w = _ ↔ _
  unfold Run.bind
  constructor
  · intro h
    split at h
    · next a w' hm => exact ⟨a, w', hm, h⟩
    · next e w' hm => exact absurd h (by simp)
  · rintro ⟨a, w', hm, hf⟩
    rw [hm]
    exact hf

theorem returns_pure {α : Type} (a : α) (P : α → Prop) (h : P a) :
    Returns (pure a : Run α) P := by
  intro o w b hb
  have : b = a := by
    have h1 : ((pure a : Run α) o w).1 = Except.ok a := rfl
    rw [h1] at hb
    exact (Except.ok.inj hb).symm
  rw [this]
  exact h

theorem returns_throw {α : Type} (e : JsError) (P : α → Prop) :
    Returns (Run.throw e : Run α) P := by
  intro o w b hb
  exact absurd hb (by simp [Run.throw])

theorem returns_bind {α β : Type} (m : Run α) (f : α → Run β) (P : β → Prop)
    (h : ∀ a, Returns (f a) P) : Returns (m >>= f) P := by
  intro o w b hb
  have hb' : (Run.bind m f o w).1 = Except.ok b := hb
  unfold Run.bind at hb'
  split at hb'
  · next a w' _ => exact h a o w' b hb'
  · exact absurd hb' (by simp)

theorem returns_mono {α : Type} (m : Run α) (P Q : α → Prop) (h : Returns m P)
    (hpq : ∀ a, P a → Q a) : Returns m Q :=
  fun o w a ha => hpq a (h o w a ha)

theorem returns_tryCatch {α : Type} (m : Run α) (handler : JsError → Run α) (P : α → Prop)
    (hm : Returns m P) (hh : ∀ e, Returns (handler e) P) :
    Returns (Run.tryCatch m handler) P := by
  intro o w b hb
  unfold Run.tryCatch at hb
  split at hb
  · next a w' hmw =>
    have : (m o w).1 = Except.ok b := by rw [hmw]; exact hb
    exact hm o w b this
  · next e w' _ => exact hh e o w' b hb

theorem returns_tryFinally {α : Type} (m : Run α) (cleanup : Run Unit) (P : α → Prop)
    (hm : Returns m P) : Returns (Run.tryFinally m cleanup) P := by
  intro o w b hb
  unfold Run.tryFinally at hb
  split at hb
  next result w' hmw =>
  split at hb
  · have : (m o w).1 = Except.ok b := by rw [hmw]; exact hb
    exact hm o w b this
  · exact absurd hb (by simp)

theorem returns_withClient (body : Run Response) (onError : JsError → Run Response)
    (P : Response → Prop) (hb : Returns body P) (hh : ∀ e, Returns (onError e) P) :
    Returns (withClient body onError) P := by
  unfold withClient
  exact returns_bind _ _ _ (fun _ => returns_tryFinally _ _ _ (returns_tryCatch _ _ _ hb hh))

theorem returns_authenticate (cfg : Config) (req : Request) :
    Returns (authenticate cfg req)
      (fun result => ∀ response, result = Except.error response → response.status = 401) := by
  unfold authenticate
  apply returns_tryCatch
  · split
    · exact returns_pure _ _ (by intro r h; cases h; rfl)
    · split
      · exact returns_throw _ _
      · apply returns_bind; intro _
        apply returns_bind; intro result
        apply returns_bind; intro _
        split
        · exact returns_pure _ _ (by intro r h; cases h; rfl)
        · exact returns_pure _ _ (by intro r h; cases h)
  · intro e
    exact returns_pure _ _ (by intro r h; cases h; rfl)

theorem returns_authenticated (cfg : Config) (req : Request)
    (handler : UserRow → Run Response) (P : Response → Prop)
    (h401 : ∀ response : Response, response.status = 401 → P response)
    (hh : ∀ user, Returns (handler user) P) :
    Returns (authenticated cfg req handler) P := by
  intro o w b hb
  unfold authenticated at hb
  have hb' : (Run.bind (authenticate cfg req)
      (fun r => match r with
        | Except.error response => pure response
        | Except.ok user => handler user) o w).1 = Except.ok b := hb
  unfold Run.bind at hb'
  split at hb'
  · next a w' hauth =>
    cases a with
    | error response =>
      have h1 : response.status = 401 :=
        returns_authenticate cfg req o w (Except.error response) (by rw [hauth]) response rfl
      have : b = response := by
        have h2 : ((pure response : Run Response) o w').1 = Except.ok response := rfl
        simp only at hb'
        rw [h2] at hb'
        exact (Except.ok.inj hb').symm
      rw [this]
      exact h401 response h1
    | ok user => exact hh user o w' b hb'
  · exact absurd hb' (by simp)

theorem returns_apiKeyAuth (cfg : Config) (req : Request) (handler : Run Response)
    (P : Response → Prop) (h401 : ∀ response : Response, response.status = 401 → P response)
    (hh : Returns handler P) : Returns (apiKeyAuth cfg req handler) P := by
  unfold apiKeyAuth
  split
  · exact returns_pure _ _ (h401 _ rfl)
  · exact hh

/-! ## C13 and C17: clients and failure messages -/

theorem returns_failWith (text : String) (e : JsError) (P : Response → Prop)
    (h : P (sendMessage 500 text)) : Returns (failWith text e) P :=
  returns_pure _ _ h

theorem returns_failUnlessDuplicate (text : String) (e : JsError) (P : Response → Prop)
    (h400 : P (sendMessage 400 "This gallery URL is already taken"))
    (h500 : P (sendMessage 500 text)) : Returns (failUnlessDuplicate text e) P := by
  unfold failUnlessDuplicate
  split
  · exact returns_pure _ _ h400
  · exact returns_pure _ _ h500

theorem returns_authenticated_500 (cfg : Config) (req : Request)
    (handler : UserRow → Run Response) (Q : Response → Prop)
    (hh : ∀ user, Returns (handler user) (fun r => r.status = 500 → Q r)) :
    Returns (authenticated cfg req handler) (fun r => r.status = 500 → Q r) :=
  returns_authenticated cfg req handler _
    (fun r h1 h5 => absurd (h1.symm.trans h5) (by decide)) hh

theorem returns_apiKeyAuth_500 (cfg : Config) (req : Request) (handler : Run Response)
    (Q : Response → Prop) (hh : Returns handler (fun r => r.status = 500 → Q r)) :
    Returns (apiKeyAuth cfg req handler) (fun r => r.status = 500 → Q r) :=
  returns_apiKeyAuth cfg req handler _
    (fun r h1 h5 => absurd (h1.symm.trans h5) (by decide)) hh

theorem shortcuts_failure_message (user : UserRow) (req : Request) (route : ShortcutsRoute) :
    Returns (shortcutsHandler user req route)
      (fun r => r.status = 500 → r.body = Body.message (failureText (Route.shortcuts route))) := by
  cases route <;>
  simp only [shortcutsHandler, failureText, listShortcuts, checkShortcut, createShortcut,
    deleteShortcut, deleteShortcutByUrl] <;>
  repeat' (first
    | (with_reducible apply returns_withClient)
    | (with_reducible apply returns_bind)
    | (with_reducible exact returns_throw _ _)
    | (with_reducible exact returns_failWith _ _ _ (by decide))
    | (with_reducible refine returns_pure _ _ ?_) ; decide
    | (with_reducible intro _)
    | split)

theorem lyrics_failure_message (user : UserRow) (req : Request) (route : LyricsRoute) :
    Returns (lyricsHandler user req route)
      (fun r => r.status = 500 → r.body = Body.message (failureText (Route.lyrics route))) := by
  cases route <;>
  simp only [lyricsHandler, failureText, listSongs, getSong, createSong, putSong, deleteSong,
    addCollaborator, removeCollaborator, listStandalone, getLyric, createLyric, putLyric,
    removeLyric, reorderLyrics, canEditSong, canAccessSong] <;>
  repeat' (first
    | (with_reducible apply returns_withClient)
    | (with_reducible apply returns_bind)
    | (with_reducible exact returns_throw _ _)
    | (with_reducible exact returns_failWith _ _ _ (by decide))
    | (with_reducible refine returns_pure _ _ ?_) ; decide
    | (with_reducible intro _)
    | split)

theorem tests_failure_message (cfg : Config) (req : Request) (route : TestsRoute) :
    Returns (serveTests cfg req route)
      (fun r => r.status = 500 → r.body = Body.message (failureText (Route.tests route))) := by
  cases route <;>
  simp only [serveTests, failureText, createRun, createSuite, createCase, completeSuite,
    completeRun, bulkRun, listRuns, getRun, deleteRun] <;>
  repeat' (first
    | (with_reducible apply returns_authenticated_500)
    | (with_reducible apply returns_apiKeyAuth_500)
    | (with_reducible apply returns_withClient)
    | (with_reducible apply returns_bind)
    | (with_reducible exact returns_throw _ _)
    | (with_reducible exact returns_failWith _ _ _ (by decide))
    | (with_reducible refine returns_pure _ _ ?_) ; decide
    | (with_reducible intro _)
    | split)

theorem createArtwork_failure_message (user : UserRow) (req : Request) :
    Returns (createArtwork user req)
      (fun r => r.status = 500 →
        r.body = Body.message "Failed to create artwork" ∨
          ∃ err, r.body = Body.message ("Failed to upload image: " ++ err)) := by
  unfold createArtwork
  split
  · exact returns_pure _ _ (fun h => absurd h (by decide))
  · apply returns_withClient
    · split
      · exact returns_pure _ _ (fun h => absurd h (by decide))
      · apply returns_bind; intro _
        apply returns_bind; intro uploadResult
        split
        · exact returns_pure _ _ (fun _ => Or.inr ⟨uploadResult.error, rfl⟩)
        · apply returns_bind; intro _
          apply returns_bind; intro _
          exact returns_pure _ _ (fun h => absurd h (by decide))
    · intro e
      exact returns_failWith _ _ _ (fun _ => Or.inl rfl)

theorem gallery_failure_message (cfg : Config) (req : Request) (route : GalleryRoute)
    (hroute : route ≠ GalleryRoute.createArtwork) :
    Returns (serveGallery cfg req route)
      (fun r => r.status = 500 → r.body = Body.message (failureText (Route.gallery route))) := by
  cases route <;>
  first
  | exact absurd rfl hroute
  | (simp only [serveGallery, failureText, publicGallery, publicArtwork, getSettings,
      createSettings, updateSettings, checkGalleryUrl, listArtworks, getArtwork,
      updateArtwork, deleteArtwork, failUnlessDuplicate]
     repeat' (first
      | (with_reducible apply returns_authenticated_500)
      | (with_reducible apply returns_withClient)
      | (with_reducible apply returns_bind)
      | (with_reducible exact returns_throw _ _)
      | (with_reducible exact returns_failWith _ _ _ (by decide))
      | (with_reducible exact returns_failUnlessDuplicate _ _ _ (by decide) (by decide))
      | (with_reducible refine returns_pure _ _ ?_) ; decide
      | (with_reducible intro _)
      | split))

/-- C17 (counterexample): the same upload request of `POST /artworks` is answered with
status 500 under two oracles that differ only in the error text of the failed upload,
and the two messages differ: each ends with the text of the failure. -/
theorem upload_failure_message_depends_on_error :
    (serve sampleConfig uploadRequest (Route.gallery GalleryRoute.createArtwork)
        (uploadFails "AccessDenied") sampleWorld).1 =
      Except.ok ⟨500, Body.message "Failed to upload image: AccessDenied"⟩ ∧
    (serve sampleConfig uploadRequest (Route.gallery GalleryRoute.createArtwork)
        (uploadFails "NoSuchBucket") sampleWorld).1 =
      Except.ok ⟨500, Body.message "Failed to upload image: NoSuchBucket"⟩ := by
  constructor <;> rfl

/-- C17 (amended): every response with status 500 of the shortcuts, test-results,
lyrics and gallery routers carries the fixed message of the `catch` block of its
route, except the response of `POST /artworks` to a failed upload, whose message is
`Failed to upload image: ` followed by the error text of the upload. -/
theorem failure_message_generic (cfg : Config) (req : Request) (route : Route) :
    Returns (serve cfg req route)
      (fun r => r.status = 500 →
        r.body = Body.message (failureText route) ∨
          (route = Route.gallery GalleryRoute.createArtwork ∧
            ∃ err, r.body = Body.message ("Failed to upload image: " ++ err))) := by
  cases route with
  | shortcuts route =>
    exact returns_authenticated_500 cfg req _ _ (fun user =>
      returns_mono _ _ _ (shortcuts_failure_message user req route) (fun r h h5 => Or.inl (h h5)))
  | tests route =>
    exact returns_mono _ _ _ (tests_failure_message cfg req route) (fun r h h5 => Or.inl (h h5))
  | lyrics route =>
    exact returns_authenticated_500 cfg req _ _ (fun user =>
      returns_mono _ _ _ (lyrics_failure_message user req route) (fun r h h5 => Or.inl (h h5)))
  | gallery route =>
    by_cases hroute : route = GalleryRoute.createArtwork
    · subst hroute
      exact returns_authenticated_500 cfg req _ _ (fun user =>
        returns_mono _ _ _ (createArtwork_failure_message user req) (fun r h h5 => by
          rcases h h5 with h | h
          · exact Or.inl h
          · exact Or.inr ⟨rfl, h⟩))
    · exact returns_mono _ _ _ (gallery_failure_message cfg req route hroute)
        (fun r h h5 => Or.inl (h h5))

/-- The 500 response to the upload that fails with `AccessDenied` carries the message of
the failed upload. -/
theorem failure_message_generic_witness :
    (sendMessage 500 "Failed to upload image: AccessDenied").body =
        Body.message (failureText (Route.gallery GalleryRoute.createArtwork)) ∨
      (Route.gallery GalleryRoute.createArtwork = Route.gallery GalleryRoute.createArtwork ∧
        ∃ err, (sendMessage 500 "Failed to upload image: AccessDenied").body =
          Body.message ("Failed to upload image: " ++ err)) :=
  failure_message_generic sampleConfig uploadRequest (Route.gallery GalleryRoute.createArtwork)
    (uploadFails "AccessDenied") sampleWorld
    (sendMessage 500 "Failed to upload image: AccessDenied") rfl rfl

/-- C13 (failing input): a request with a token that verifies, whose `SELECT` on
`users` in `authenticate` rejects.  The middleware answers 401 `Invalid token`; it
has acquired one client and released none. -/
theorem authenticate_leaks_client_on_query_error :
    authenticate sampleConfig bobSongRequest (faultAt 1) sampleWorld =
      (Except.ok (Except.error ⟨401, Body.message "Invalid token"⟩),
        { sampleWorld with calls := 2, acquired := 1, released := 0 }) := by
  rfl

/-! ## C19 and C20: `canAccessSong` and `canEditSong` -/

theorem head?_filter_find? {α : Type} (p : α → Bool) (l : List α) :
    (l.filter p).head? = l.find? p := by
  induction l with
  | nil => rfl
  | cons a rest ih =>
    by_cases h : p a = true
    · simp [List.filter_cons, List.find?_cons, h]
    · simp only [Bool.not_eq_true] at h
      simp [List.filter_cons, List.find?_cons, h, ih]

theorem query_run {α : Type} (statement : Tables → α × Tables) (o : Oracle) (w : World) :
    query statement o w =
      match o.fault w.calls with
      | some e => (Except.error e, { w with calls := w.calls + 1 })
      | none =>
        (Except.ok (statement w.db.tables).1,
          { w with db := { w.db with tables := (statement w.db.tables).2 },
                   calls := w.calls + 1 }) := by
  unfold query Run.call
  cases o.fault w.calls <;> rfl

theorem canAccessSong_run (songId userId : Int) (o : Oracle) (w : World) :
    canAccessSong songId userId o w =
      match o.fault w.calls with
      | some e => (Except.error e, { w with calls := w.calls + 1 })
      | none => (Except.ok (accessOn w.db.tables songId userId), { w with calls := w.calls + 1 }) := by
  show Run.bind (query (selectSongAccess songId userId)) _ o w = _
  unfold Run.bind
  rw [query_run]
  cases o.fault w.calls <;> rfl

theorem canEditSong_run (songId userId : Int) (o : Oracle) (w : World) :
    canEditSong songId userId o w =
      match o.fault w.calls with
      | some e => (Except.error e, { w with calls := w.calls + 1 })
      | none => (Except.ok (editOn w.db.tables songId userId), { w with calls := w.calls + 1 }) := by
  show Run.bind (canAccessSong songId userId) _ o w = _
  unfold Run.bind
  rw [canAccessSong_run]
  cases o.fault w.calls with
  | some e => rfl
  | none =>
    simp only [editOn]
    split <;> rfl

theorem accessOn_rows (t : Tables) (songId userId : Int) :
    accessOn t songId userId =
      match firstSong t songId with
      | none => { access := false, song := none, role := none }
      | some s =>
        if s.user_id = userId then
          { access := true, song := some (accessRow t s userId), role := some "owner" }
        else if truthy (collabRole t s.id userId) then
          { access := true, song := some (accessRow t s userId),
            role := collabRole t s.id userId }
        else if s.visibility = "public" then
          { access := true, song := some (accessRow t s userId), role := some "viewer" }
        else { access := false, song := none, role := none } := by
  unfold accessOn selectSongAccess firstSong
  have h := head?_filter_find? (fun s : SongRow => decide (s.id = songId)) t.songs
  cases hf : t.songs.filter (fun s => decide (s.id = songId)) with
  | nil =>
    rw [hf] at h
    simp only [List.head?_nil] at h
    rw [← h]
    rfl
  | cons s rest =>
    rw [hf] at h
    simp only [List.head?_cons] at h
    rw [← h]
    rfl

theorem collabRole_eq (t : Tables) (songId userId : Int) :
    collabRole t songId userId = (collaboratorRow t songId userId).map (fun c => c.role) := rfl

theorem truthy_collabRole (t : Tables) (songId userId : Int) :
    truthy (collabRole t songId userId) = true ↔
      ∃ c, collaboratorRow t songId userId = some c ∧ c.role ≠ "" := by
  rw [collabRole_eq]
  cases h : collaboratorRow t songId userId with
  | none => simp [truthy]
  | some c => simp [truthy]

theorem accessOn_access_iff (t : Tables) (songId userId : Int) :
    (accessOn t songId userId).access = true ↔ hasAccess t songId userId := by
  rw [accessOn_rows]
  unfold hasAccess
  cases hs : firstSong t songId with
  | none => simp
  | some s =>
    simp only [Option.some.injEq, exists_eq_left']
    by_cases h1 : s.user_id = userId
    · simp [h1]
    · by_cases h2 : truthy (collabRole t s.id userId) = true
      · have := (truthy_collabRole t s.id userId).mp h2
        simp [h1, h2, this]
      · have h2' : ¬ ∃ c, collaboratorRow t s.id userId = some c ∧ c.role ≠ "" :=
          fun hc => h2 ((truthy_collabRole t s.id userId).mpr hc)
        by_cases h3 : s.visibility = "public"
        · simp [h1, h2, h3]
        · simp only [h1, h2, h3, if_false, false_or, or_false]
          constructor
          · intro h; exact absurd h (by simp)
          · intro h; exact absurd h h2'

theorem editOn_iff (t : Tables) (songId userId : Int) :
    editOn t songId userId = true ↔ mayEdit t songId userId := by
  unfold editOn mayEdit
  rw [accessOn_rows]
  cases hs : firstSong t songId with
  | none => simp
  | some s =>
    simp only [Option.some.injEq, exists_eq_left']
    by_cases h1 : s.user_id = userId
    · simp [h1]
    · rw [collabRole_eq]
      cases hc : collaboratorRow t s.id userId with
      | none =>
        by_cases h3 : s.visibility = "public" <;> simp [h1, h3, truthy]
      | some c =>
        by_cases h2 : c.role = ""
        · by_cases h3 : s.visibility = "public" <;> simp [h1, h2, h3, truthy]
        · simp [h1, h2, truthy]

theorem firstSong_none_iff (t : Tables) (songId : Int) :
    firstSong t songId = none ↔ ∀ s ∈ t.songs, s.id ≠ songId := by
  unfold firstSong
  rw [List.find?_eq_none]
  simp

theorem upsertCollaborator_roles (songId userId invitedBy : Int) (role : String) (t : Tables)
    (hrole : role ≠ "") (h : ∀ c ∈ t.collaborators, c.role ≠ "") :
    ∀ c ∈ (upsertCollaborator songId userId role invitedBy t).2.collaborators, c.role ≠ "" := by
  unfold upsertCollaborator
  split
  · intro c hc
    simp only [List.mem_map] at hc
    obtain ⟨d, hd, rfl⟩ := hc
    split
    · exact hrole
    · exact h d hd
  · intro c hc
    simp only [List.mem_append, List.mem_singleton] at hc
    rcases hc with hc | rfl
    · exact h c hc
    · exact hrole

theorem orElse_ne_empty (value : Option String) (fallback : String) (h : fallback ≠ "") :
    orElse value fallback ≠ "" := by
  cases value with
  | none => simpa [orElse, truthy] using h
  | some v =>
    by_cases hv : v = ""
    · simpa [orElse, truthy, hv] using h
    · simp [orElse, hv]

/-- C19: when its query answers, `canAccessSong` returns a result that follows the
resolution order of the claim. On a database whose collaborator rows carry a role that
is not the empty string (the router writes `role || 'editor'`): without a song of that
id access is false; for the owner access is true with role `owner`, whatever the
collaborator rows and the visibility; otherwise a collaborator row gives access with the
role of the row; otherwise a public song gives access with role `viewer`; otherwise
access is false and no song is returned. -/
theorem canAccessSong_resolution (songId userId : Int) (o : Oracle) (w : World)
    (hquery : o.fault w.calls = none)
    (hroles : ∀ c ∈ w.db.tables.collaborators, c.role ≠ "") :
    ∃ result, (canAccessSong songId userId o w).1 = Except.ok result ∧
      ((∀ s ∈ w.db.tables.songs, s.id ≠ songId) → result.access = false ∧ result.song = none) ∧
      ∀ s, firstSong w.db.tables songId = some s →
        (s.user_id = userId → result.access = true ∧ result.role = some "owner") ∧
        (∀ c, s.user_id ≠ userId → collaboratorRow w.db.tables s.id userId = some c →
          result.access = true ∧ result.role = some c.role) ∧
        (s.user_id ≠ userId → collaboratorRow w.db.tables s.id userId = none →
          s.visibility = "public" → result.access = true ∧ result.role = some "viewer") ∧
        (s.user_id ≠ userId → collaboratorRow w.db.tables s.id userId = none →
          s.visibility ≠ "public" → result.access = false ∧ result.song = none) ∧
        (result.access = true → result.song = some (accessRow w.db.tables s userId)) := by
  refine ⟨accessOn w.db.tables songId userId, ?_, ?_, ?_⟩
  · rw [canAccessSong_run, hquery]
  · intro h
    rw [accessOn_rows, (firstSong_none_iff _ _).mpr h]
    exact ⟨rfl, rfl⟩
  · intro s hs
    rw [accessOn_rows, hs]
    refine ⟨?_, ?_, ?_, ?_, ?_⟩
    · intro h1
      simp [h1]
    · intro c h1 hc
      have hne : c.role ≠ "" :=
        hroles c (List.mem_of_find?_eq_some hc)
      have h2 : truthy (collabRole w.db.tables s.id userId) = true :=
        (truthy_collabRole _ _ _).mpr ⟨c, hc, hne⟩
      rw [collabRole_eq, hc] at h2
      simp only [collabRole_eq, hc, Option.map_some'] at h2 ⊢
      simp [h1, h2]
    · intro h1 hc h3
      have h2 : truthy (collabRole w.db.tables s.id userId) = false := by
        rw [collabRole_eq, hc]; rfl
      simp [h1, h2, h3]
    · intro h1 hc h3
      have h2 : truthy (collabRole w.db.tables s.id userId) = false := by
        rw [collabRole_eq, hc]; rfl
      simp [h1, h2, h3]
    · intro h
      by_cases h1 : s.user_id = userId
      · simp [h1]
      · by_cases h2 : truthy (collabRole w.db.tables s.id userId) = true
        · simp [h1, h2]
        · by_cases h3 : s.visibility = "public"
          · simp [h1, h2, h3]
          · simp [h1, h2, h3] at h

theorem canAccessSong_resolution_witness :
    ∃ result, (canAccessSong 10 2 calmOracle viewerRoleWorld).1 = Except.ok result ∧
      ((∀ s ∈ viewerRoleWorld.db.tables.songs, s.id ≠ 10) →
        result.access = false ∧ result.song = none) ∧
      ∀ s, firstSong viewerRoleWorld.db.tables 10 = some s →
        (s.user_id = 2 → result.access = true ∧ result.role = some "owner") ∧
        (∀ c, s.user_id ≠ 2 → collaboratorRow viewerRoleWorld.db.tables s.id 2 = some c →
          result.access = true ∧ result.role = some c.role) ∧
        (s.user_id ≠ 2 → collaboratorRow viewerRoleWorld.db.tables s.id 2 = none →
          s.visibility = "public" → result.access = true ∧ result.role = some "viewer") ∧
        (s.user_id ≠ 2 → collaboratorRow viewerRoleWorld.db.tables s.id 2 = none →
          s.visibility ≠ "public" → result.access = false ∧ result.song = none) ∧
        (result.access = true →
          result.song = some (accessRow viewerRoleWorld.db.tables s 2)) :=
  canAccessSong_resolution 10 2 calmOracle viewerRoleWorld rfl (by decide)

/-- The invitation of `bob` by `alice` with the role `owner` is stored as it is sent, and
`canEditSong` then answers `true` for `bob`, who neither owns the song nor has a
collaborator row with the role `editor`. -/
theorem canEditSong_owner_role_row :
    (authenticated sampleConfig inviteAsOwnerRequest
        (fun user => addCollaborator user inviteAsOwnerRequest) calmOracle sampleWorld).2.db.tables
      = ownerRoleTables ∧
    (canEditSong 10 2 calmOracle ownerRoleWorld).1 = Except.ok true ∧
    ¬ ∃ s, firstSong ownerRoleTables 10 = some s ∧
        (s.user_id = 2 ∨
          ∃ c, collaboratorRow ownerRoleTables s.id 2 = some c ∧ c.role = "editor") := by
  refine ⟨rfl, rfl, ?_⟩
  rintro ⟨s, hs, h⟩
  simp only [firstSong, ownerRoleTables, sampleTables, List.find?_cons, List.find?_nil,
    decide_True, Option.some.injEq] at hs
  subst hs
  simp [collaboratorRow, ownerRoleTables] at h

/-- C20, amended: when its query answers, `canEditSong` returns `true` exactly when the
song exists and the user is its owner or has a collaborator row whose role is `owner` or
`editor`. Then `canAccessSong` grants access on the same database; and a user who is not
the owner and whose collaborator row, if any, has a role other than `owner` and `editor`
gets `false`, whatever the visibility of the song. -/
theorem canEditSong_iff (songId userId : Int) (o : Oracle) (w : World)
    (hquery : o.fault w.calls = none) :
    ∃ answer, (canEditSong songId userId o w).1 = Except.ok answer ∧
      (answer = true ↔ mayEdit w.db.tables songId userId) ∧
      (answer = true →
        ∃ result, (canAccessSong songId userId o w).1 = Except.ok result ∧
          result.access = true) ∧
      (∀ s, firstSong w.db.tables songId = some s → s.user_id ≠ userId →
        (∀ c, collaboratorRow w.db.tables s.id userId = some c →
          c.role ≠ "owner" ∧ c.role ≠ "editor") →
        answer = false) := by
  refine ⟨editOn w.db.tables songId userId, ?_, editOn_iff _ _ _, ?_, ?_⟩
  · rw [canEditSong_run, hquery]
  · intro h
    refine ⟨accessOn w.db.tables songId userId, ?_, ?_⟩
    · rw [canAccessSong_run, hquery]
    · unfold editOn at h
      by_contra hacc
      simp only [Bool.not_eq_true] at hacc
      simp [hacc] at h
  · intro s hs hown hrow
    by_contra hne
    simp only [Bool.not_eq_false] at hne
    obtain ⟨s', hs', h⟩ := (editOn_iff _ _ _).mp hne
    rw [hs] at hs'
    cases hs'
    rcases h with h | ⟨c, hc, hrole⟩
    · exact hown h
    · have := hrow c hc
      rcases hrole with hrole | hrole
      · exact this.1 hrole
      · exact this.2 hrole

theorem canEditSong_iff_witness :
    ∃ answer, (canEditSong 10 2 calmOracle viewerRoleWorld).1 = Except.ok answer ∧
      (answer = true ↔ mayEdit viewerRoleWorld.db.tables 10 2) ∧
      (answer = true →
        ∃ result, (canAccessSong 10 2 calmOracle viewerRoleWorld).1 = Except.ok result ∧
          result.access = true) ∧
      (∀ s, firstSong viewerRoleWorld.db.tables 10 = some s → s.user_id ≠ 2 →
        (∀ c, collaboratorRow viewerRoleWorld.db.tables s.id 2 = some c →
          c.role ≠ "owner" ∧ c.role ≠ "editor") →
        answer = false) :=
  canEditSong_iff 10 2 calmOracle viewerRoleWorld rfl

/-! ## C16: the statuses of the lyrics router -/

theorem returnsAt_of_returns {α : Type} (t : Tables) (m : Run α) (P : α → Prop)
    (h : Returns m P) : ReturnsAt t m P :=
  fun o w a _ ha => h o w a ha

theorem returnsAt_pure {α : Type} (t : Tables) (a : α) (P : α → Prop) (h : P a) :
    ReturnsAt t (pure a : Run α) P :=
  returnsAt_of_returns t _ P (returns_pure a P h)

theorem returnsAt_bind_pure {α β : Type} (t : Tables) (a : α) (f : α → Run β) (P : β → Prop)
    (h : ReturnsAt t (f a) P) : ReturnsAt t ((pure a : Run α) >>= f) P :=
  fun o w b hw hb => h o w b hw hb

theorem returnsAt_bind_query {α β : Type} (t : Tables) (statement : Tables → α × Tables)
    (f : α → Run β) (P : β → Prop) (hread : (statement t).2 = t)
    (h : ReturnsAt t (f (statement t).1) P) : ReturnsAt t (query statement >>= f) P := by
  intro o w b hw hb
  have hb' : (Run.bind (query statement) f o w).1 = Except.ok b := hb
  unfold Run.bind at hb'
  rw [query_run] at hb'
  cases hf : o.fault w.calls with
  | some e =>
    rw [hf] at hb'
    exact absurd hb' (by simp)
  | none =>
    rw [hf] at hb'
    simp only at hb'
    subst hw
    exact h o _ b (by simp [hread]) hb'

theorem returnsAt_bind_write {α β : Type} (t : Tables) (statement : Tables → α × Tables)
    (f : α → Run β) (P : β → Prop)
    (h : Returns (f (statement t).1) P) : ReturnsAt t (query statement >>= f) P := by
  intro o w b hw hb
  have hb' : (Run.bind (query statement) f o w).1 = Except.ok b := hb
  unfold Run.bind at hb'
  rw [query_run] at hb'
  cases hf : o.fault w.calls with
  | some e =>
    rw [hf] at hb'
    exact absurd hb' (by simp)
  | none =>
    rw [hf] at hb'
    simp only at hb'
    subst hw
    exact h o _ b hb'

theorem returnsAt_bind_canAccessSong {β : Type} (t : Tables) (songId userId : Int)
    (f : SongAccess → Run β) (P : β → Prop)
    (h : ReturnsAt t (f (accessOn t songId userId)) P) :
    ReturnsAt t (canAccessSong songId userId >>= f) P := by
  intro o w b hw hb
  have hb' : (Run.bind (canAccessSong songId userId) f o w).1 = Except.ok b := hb
  unfold Run.bind at hb'
  rw [canAccessSong_run] at hb'
  cases hf : o.fault w.calls with
  | some e =>
    rw [hf] at hb'
    exact absurd hb' (by simp)
  | none =>
    rw [hf] at hb'
    simp only at hb'
    subst hw
    refine h o _ b ?_ hb'
    rfl

theorem returnsAt_bind_canEditSong {β : Type} (t : Tables) (songId userId : Int)
    (f : Bool → Run β) (P : β → Prop)
    (h : ReturnsAt t (f (editOn t songId userId)) P) :
    ReturnsAt t (canEditSong songId userId >>= f) P := by
  intro o w b hw hb
  have hb' : (Run.bind (canEditSong songId userId) f o w).1 = Except.ok b := hb
  unfold Run.bind at hb'
  rw [canEditSong_run] at hb'
  cases hf : o.fault w.calls with
  | some e =>
    rw [hf] at hb'
    exact absurd hb' (by simp)
  | none =>
    rw [hf] at hb'
    simp only at hb'
    subst hw
    refine h o _ b ?_ hb'
    rfl

theorem returnsAt_withClient (t : Tables) (body : Run Response)
    (onError : JsError → Run Response) (P : Response → Prop)
    (hb : ReturnsAt t body P) (hh : ∀ e, Returns (onError e) P) :
    ReturnsAt t (withClient body onError) P := by
  intro o w b hw hr
  unfold withClient at hr
  have hr' : (Run.bind getClient
      (fun _ => Run.tryFinally (Run.tryCatch body onError) release) o w).1 = Except.ok b := hr
  unfold Run.bind getClient Run.call at hr'
  cases hf : o.fault w.calls with
  | some e =>
    rw [hf] at hr'
    exact absurd hr' (by simp)
  | none =>
    rw [hf] at hr'
    simp only at hr'
    unfold Run.tryFinally at hr'
    split at hr'
    next result w' hmw =>
    split at hr'
    · unfold Run.tryCatch at hmw
      split at hmw
      · next a w'' hbody =>
        have hres : result = Except.ok a := by
          have := congrArg Prod.fst hmw
          exact this.symm
        rw [hres] at hr'
        have hab : a = b := Except.ok.inj hr'
        subst hab
        refine hb o _ a ?_ (congrArg Prod.fst hbody)
        exact hw
      · next e w'' hbody =>
        have hres : (onError e o w'').1 = result := congrArg Prod.fst hmw
        exact hh e o w'' b (by rw [hres]; exact hr')
    · exact absurd hr' (by simp)

theorem post_500 (t : Tables) (user : UserRow) (req : Request) (route : LyricsRoute)
    (text : String) : LyricsPost t user req route (sendMessage 500 text) :=
  ⟨fun _ => Or.inr (Or.inl rfl), fun h => absurd h (by simp [sendMessage]),
    by simp [sendMessage]⟩

theorem post_403 (t : Tables) (user : UserRow) (req : Request) (route : LyricsRoute)
    (text : String) : LyricsPost t user req route (sendMessage 403 text) :=
  ⟨fun _ => Or.inl rfl, fun h => absurd h (by simp [sendMessage]), by simp [sendMessage]⟩

theorem post_permitted (t : Tables) (user : UserRow) (req : Request) (route : LyricsRoute)
    (response : Response) (hp : permitted t user req route) (h404 : response.status ≠ 404)
    (h401 : response.status ≠ 401) : LyricsPost t user req route response :=
  ⟨fun h => absurd hp h, fun h => absurd h h404, h401⟩

theorem returns_failWith_post (t : Tables) (user : UserRow) (req : Request)
    (route : LyricsRoute) (text : String) (e : JsError) :
    Returns (failWith text e) (LyricsPost t user req route) :=
  returns_pure _ _ (post_500 t user req route text)

theorem find?_of_filter_nil {α : Type} (p : α → Bool) (l : List α) (h : l.filter p = []) :
    l.find? p = none := by
  rw [← head?_filter_find?, h]; rfl

theorem find?_of_filter_cons {α : Type} (p : α → Bool) (l : List α) (a : α) (rest : List α)
    (h : l.filter p = a :: rest) : l.find? p = some a := by
  rw [← head?_filter_find?, h]; rfl

theorem ownCount_zero_iff (t : Tables) (songId userId : Int) :
    (t.songs.filter (fun s => s.id = songId ∧ s.user_id = userId)).length = 0 ↔
      ¬ ownsSong t songId userId := by
  rw [List.length_eq_zero, List.filter_eq_nil_iff]
  unfold ownsSong
  simp

theorem returnsAt_bind_ite {α β : Type} (t : Tables) (c : Prop) [Decidable c]
    (m₁ m₂ : Run α) (f : α → Run β) (P : β → Prop)
    (h₁ : c → ReturnsAt t (m₁ >>= f) P) (h₂ : ¬ c → ReturnsAt t (m₂ >>= f) P) :
    ReturnsAt t ((if c then m₁ else m₂) >>= f) P := by
  by_cases h : c
  · rw [if_pos h]; exact h₁ h
  · rw [if_neg h]; exact h₂ h

theorem getSong_post (t : Tables) (user : UserRow) (req : Request) :
    ReturnsAt t (getSong user req) (LyricsPost t user req LyricsRoute.getSong) := by
  unfold getSong
  refine returnsAt_withClient _ _ _ _ ?_ (returns_failWith_post _ _ _ _ _)
  with_reducible apply returnsAt_bind_canAccessSong
  by_cases hacc : (accessOn t req.id user.id).access = true
  · have hp : permitted t user req LyricsRoute.getSong := (accessOn_access_iff _ _ _).mp hacc
    simp only [hacc, Bool.not_true, Bool.false_eq_true, if_false]
    apply returnsAt_of_returns
    repeat' (first
      | (with_reducible apply returns_bind)
      | (with_reducible exact returns_pure _ _ (post_permitted _ _ _ _ _ hp (by decide) (by decide)))
      | (with_reducible intro _))
  · have hn : ¬ hasAccess t req.id user.id := fun h => hacc ((accessOn_access_iff _ _ _).mpr h)
    simp only [Bool.not_eq_true] at hacc
    simp only [hacc, Bool.not_false, if_true]
    exact returnsAt_pure _ _ _
      ⟨fun _ => Or.inr (Or.inr (Or.inl ⟨rfl, trivial⟩)), fun _ => hn, by simp [sendMessage]⟩

theorem putSong_post (t : Tables) (user : UserRow) (req : Request) :
    ReturnsAt t (putSong user req) (LyricsPost t user req LyricsRoute.putSong) := by
  unfold putSong
  refine returnsAt_withClient _ _ _ _ ?_ (returns_failWith_post _ _ _ _ _)
  with_reducible apply returnsAt_bind_canEditSong
  by_cases hedit : editOn t req.id user.id = true
  · have hp : permitted t user req LyricsRoute.putSong := (editOn_iff _ _ _).mp hedit
    simp only [hedit, Bool.not_true, Bool.false_eq_true, if_false]
    apply returnsAt_of_returns
    repeat' (first
      | (with_reducible apply returns_bind)
      | (with_reducible exact returns_pure _ _ (post_permitted _ _ _ _ _ hp (by decide) (by decide)))
      | (with_reducible intro _)
      | split)
  · simp only [Bool.not_eq_true] at hedit
    simp only [hedit, Bool.not_false, if_true]
    exact returnsAt_pure _ _ _ (post_403 _ _ _ _ _)

theorem listSongs_post (t : Tables) (user : UserRow) (req : Request) :
    ReturnsAt t (listSongs user req) (LyricsPost t user req LyricsRoute.listSongs) := by
  unfold listSongs
  have hp : permitted t user req LyricsRoute.listSongs := trivial
  refine returnsAt_withClient _ _ _ _ ?_ (returns_failWith_post _ _ _ _ _)
  apply returnsAt_of_returns
  repeat' (first
    | (with_reducible apply returns_bind)
    | (with_reducible exact returns_pure _ _ (post_permitted _ _ _ _ _ hp (by decide) (by decide)))
    | (with_reducible intro _))

theorem listStandalone_post (t : Tables) (user : UserRow) (req : Request) :
    ReturnsAt t (listStandalone user req)
      (LyricsPost t user req LyricsRoute.listStandalone) := by
  unfold listStandalone
  have hp : permitted t user req LyricsRoute.listStandalone := trivial
  refine returnsAt_withClient _ _ _ _ ?_ (returns_failWith_post _ _ _ _ _)
  apply returnsAt_of_returns
  repeat' (first
    | (with_reducible apply returns_bind)
    | (with_reducible exact returns_pure _ _ (post_permitted _ _ _ _ _ hp (by decide) (by decide)))
    | (with_reducible intro _))

theorem createSong_post (t : Tables) (user : UserRow) (req : Request) :
    ReturnsAt t (createSong user req) (LyricsPost t user req LyricsRoute.createSong) := by
  unfold createSong
  have hp : permitted t user req LyricsRoute.createSong := trivial
  refine returnsAt_withClient _ _ _ _ ?_ (returns_failWith_post _ _ _ _ _)
  apply returnsAt_of_returns
  repeat' (first
    | (with_reducible apply returns_bind)
    | (with_reducible exact returns_pure _ _ (post_permitted _ _ _ _ _ hp (by decide) (by decide)))
    | (with_reducible intro _)
    | split)

theorem deleteSong_post (t : Tables) (user : UserRow) (req : Request) :
    ReturnsAt t (deleteSong user req) (LyricsPost t user req LyricsRoute.deleteSong) := by
  unfold deleteSong
  refine returnsAt_withClient _ _ _ _ ?_ (returns_failWith_post _ _ _ _ _)
  with_reducible apply returnsAt_bind_write
  by_cases hcount : (deleteOwnSong req.id user.id t).1 = 0
  · have hn : ¬ ownsSong t req.id user.id := (ownCount_zero_iff _ _ _).mp hcount
    rw [if_pos hcount]
    exact returns_pure _ _
      ⟨fun _ => Or.inr (Or.inr (Or.inl ⟨rfl, trivial⟩)), fun _ => hn, by decide⟩
  · have hp : permitted t user req LyricsRoute.deleteSong := by
      by_contra hn
      exact hcount ((ownCount_zero_iff _ _ _).mpr hn)
    rw [if_neg hcount]
    exact returns_pure _ _ (post_permitted _ _ _ _ _ hp (by decide) (by decide))

theorem addCollaborator_post (t : Tables) (user : UserRow) (req : Request) :
    ReturnsAt t (addCollaborator user req)
      (LyricsPost t user req LyricsRoute.addCollaborator) := by
  unfold addCollaborator
  refine returnsAt_withClient _ _ _ _ ?_ (returns_failWith_post _ _ _ _ _)
  with_reducible apply returnsAt_bind_query _ _ _ _ rfl
  by_cases hcount : (selectOwnSong req.id user.id t).1 = 0
  · rw [if_pos hcount]
    exact returnsAt_pure _ _ _ (post_403 _ _ _ _ _)
  · have hp : permitted t user req LyricsRoute.addCollaborator := by
      by_contra hn
      exact hcount ((ownCount_zero_iff _ _ _).mpr hn)
    rw [if_neg hcount]
    have hread : (selectUserByBodyHandle req.handle t).2 = t := by
      unfold selectUserByBodyHandle
      split <;> rfl
    with_reducible apply returnsAt_bind_query _ _ _ _ hread
    split
    · next hrows =>
      refine returnsAt_pure _ _ _ ⟨fun h => absurd hp h, fun _ => ?_, by decide⟩
      intro u hu heq
      unfold selectUserByBodyHandle at hrows
      rw [← heq] at hrows
      simp only [selectUserByHandle] at hrows
      have := List.filter_eq_nil_iff.mp hrows u hu
      simp at this
    · apply returnsAt_of_returns
      repeat' (first
        | (with_reducible apply returns_bind)
        | (with_reducible exact returns_pure _ _ (post_permitted _ _ _ _ _ hp (by decide) (by decide)))
        | (with_reducible intro _)
        | split)

theorem removeCollaborator_post (t : Tables) (user : UserRow) (req : Request) :
    ReturnsAt t (removeCollaborator user req)
      (LyricsPost t user req LyricsRoute.removeCollaborator) := by
  unfold removeCollaborator
  refine returnsAt_withClient _ _ _ _ ?_ (returns_failWith_post _ _ _ _ _)
  with_reducible apply returnsAt_bind_query _ _ _ _ rfl
  by_cases hcount : (selectOwnSong req.id user.id t).1 = 0
  · rw [if_pos hcount]
    exact returnsAt_pure _ _ _ (post_403 _ _ _ _ _)
  · have hp : permitted t user req LyricsRoute.removeCollaborator := by
      by_contra hn
      exact hcount ((ownCount_zero_iff _ _ _).mpr hn)
    rw [if_neg hcount]
    apply returnsAt_of_returns
    repeat' (first
      | (with_reducible apply returns_bind)
      | (with_reducible exact returns_pure _ _ (post_permitted _ _ _ _ _ hp (by decide) (by decide)))
      | (with_reducible intro _))

theorem reorderLyrics_post (t : Tables) (user : UserRow) (req : Request) :
    ReturnsAt t (reorderLyrics user req)
      (LyricsPost t user req LyricsRoute.reorderLyrics) := by
  unfold reorderLyrics
  refine returnsAt_withClient _ _ _ _ ?_ (returns_failWith_post _ _ _ _ _)
  with_reducible apply returnsAt_bind_canEditSong
  by_cases hedit : editOn t req.id user.id = true
  · have hp : permitted t user req LyricsRoute.reorderLyrics := (editOn_iff _ _ _).mp hedit
    simp only [hedit, Bool.not_true, Bool.false_eq_true, if_false]
    apply returnsAt_of_returns
    repeat' (first
      | (with_reducible apply returns_bind)
      | (with_reducible exact returns_throw _ _)
      | (with_reducible exact returns_pure _ _ (post_permitted _ _ _ _ _ hp (by decide) (by decide)))
      | (with_reducible intro _)
      | split)
  · simp only [Bool.not_eq_true] at hedit
    simp only [hedit, Bool.not_false, if_true]
    exact returnsAt_pure _ _ _ (post_403 _ _ _ _ _)

theorem createLyric_post (t : Tables) (user : UserRow) (req : Request) :
    ReturnsAt t (createLyric user req) (LyricsPost t user req LyricsRoute.createLyric) := by
  unfold createLyric
  refine returnsAt_withClient _ _ _ _ ?_ (returns_failWith_post _ _ _ _ _)
  by_cases hblank : blank req.content = true
  · rw [if_pos hblank]
    exact returnsAt_pure _ _ _
      ⟨fun _ => Or.inr (Or.inr (Or.inr ⟨rfl, rfl, hblank⟩)), fun h => absurd h (by decide),
        by decide⟩
  · rw [if_neg hblank]
    have hrest : ∀ allowed : Bool,
        (allowed = true → permitted t user req LyricsRoute.createLyric) →
        Returns
          (if (!allowed) = true then
            pure (sendMessage 403 "Not authorized to add lyrics to this song")
          else do
            query (insertLyric user req)
            queryRows
            pure (sendJson 201))
          (LyricsPost t user req LyricsRoute.createLyric) := by
      intro allowed hallowed
      cases allowed with
      | false => exact returns_pure _ _ (post_403 _ _ _ _ _)
      | true =>
        have hp := hallowed rfl
        simp only [Bool.not_true, Bool.false_eq_true, if_false]
        repeat' (first
          | (with_reducible apply returns_bind)
          | (with_reducible exact returns_pure _ _ (post_permitted _ _ _ _ _ hp (by decide) (by decide)))
          | (with_reducible intro _))
    by_cases hsong : req.song_id.truthyInt = true
    · simp only [hsong, if_true]
      with_reducible apply returnsAt_bind_canEditSong
      apply returnsAt_of_returns
      exact hrest _ (fun h _ => (editOn_iff _ _ _).mp h)
    · simp only [hsong, if_false]
      apply returnsAt_bind_pure
      apply returnsAt_of_returns
      exact hrest _ (fun _ h => absurd h hsong)

theorem getLyric_post (t : Tables) (user : UserRow) (req : Request) :
    ReturnsAt t (getLyric user req) (LyricsPost t user req LyricsRoute.getLyric) := by
  unfold getLyric
  refine returnsAt_withClient _ _ _ _ ?_ (returns_failWith_post _ _ _ _ _)
  with_reducible apply returnsAt_bind_query _ _ _ _ rfl
  cases hrows : (selectLyricWithAuthor req.id t).1 with
  | nil =>
    have hnone : firstLyricWithAuthor t req.id = none := find?_of_filter_nil _ _ hrows
    refine returnsAt_pure _ _ _ ⟨fun hn => ?_, fun _ => hnone, by decide⟩
    exact absurd (fun l hl => by rw [hnone] at hl; cases hl) hn
  | cons lyric rest =>
    have hfirst : firstLyricWithAuthor t req.id = some lyric :=
      find?_of_filter_cons _ _ _ _ hrows
    have hperm : (lyric.user_id = user.id ∨
        (truthyId lyric.song_id = true ∧ hasAccess t (lyric.song_id.getD 0) user.id)) →
        permitted t user req LyricsRoute.getLyric := by
      intro h l hl
      rw [hfirst] at hl
      cases hl
      exact h
    simp only []
    by_cases hown : lyric.user_id = user.id
    · have hp := hperm (Or.inl hown)
      simp only [hown, ne_eq, not_true_eq_false, if_false]
      exact returnsAt_pure _ _ _ (post_permitted _ _ _ _ _ hp (by decide) (by decide))
    · simp only [hown, ne_eq, not_false_eq_true, if_true]
      by_cases hsong : truthyId lyric.song_id = true
      · simp only [hsong, if_true]
        with_reducible apply returnsAt_bind_canAccessSong
        by_cases hacc : (accessOn t (lyric.song_id.getD 0) user.id).access = true
        · have hp := hperm (Or.inr ⟨hsong, (accessOn_access_iff _ _ _).mp hacc⟩)
          simp only [hacc, Bool.not_true, Bool.false_eq_true, if_false]
          exact returnsAt_pure _ _ _ (post_permitted _ _ _ _ _ hp (by decide) (by decide))
        · simp only [Bool.not_eq_true] at hacc
          simp only [hacc, Bool.not_false, if_true]
          exact returnsAt_pure _ _ _ (post_403 _ _ _ _ _)
      · simp only [hsong, Bool.false_eq_true, if_false]
        exact returnsAt_pure _ _ _ (post_403 _ _ _ _ _)

theorem lyricCheck_returnsAt (t : Tables) (user : UserRow) (lyric : LyricRow)
    (f : Bool → Run Response) (P : Response → Prop)
    (h : ∀ allowed : Bool, (allowed = true → mayEditLyric t user lyric) →
      ReturnsAt t (f allowed) P) :
    ReturnsAt t
      (if lyric.user_id = user.id then (pure true : Run Bool) >>= f
        else if truthyId lyric.song_id = true then
          canEditSong (lyric.song_id.getD 0) user.id >>= f
        else (pure false : Run Bool) >>= f) P := by
  by_cases hown : lyric.user_id = user.id
  · rw [if_pos hown]
    exact returnsAt_bind_pure _ _ _ _ (h true (fun _ => Or.inl hown))
  · rw [if_neg hown]
    by_cases hsong : truthyId lyric.song_id = true
    · rw [if_pos hsong]
      with_reducible apply returnsAt_bind_canEditSong
      exact h _ (fun he => Or.inr ⟨hsong, (editOn_iff _ _ _).mp he⟩)
    · rw [if_neg hsong]
      exact returnsAt_bind_pure _ _ _ _ (h false (fun he => by cases he))

theorem removeLyric_post (t : Tables) (user : UserRow) (req : Request) :
    ReturnsAt t (removeLyric user req) (LyricsPost t user req LyricsRoute.removeLyric) := by
  unfold removeLyric
  refine returnsAt_withClient _ _ _ _ ?_ (returns_failWith_post _ _ _ _ _)
  with_reducible apply returnsAt_bind_query _ _ _ _ rfl
  cases hrows : (selectLyric req.id t).1 with
  | nil =>
    have hnone : firstLyric t req.id = none := find?_of_filter_nil _ _ hrows
    refine returnsAt_pure _ _ _ ⟨fun hn => ?_, fun _ => hnone, by decide⟩
    exact absurd (fun l hl => by rw [hnone] at hl; cases hl) hn
  | cons lyric rest =>
    have hfirst : firstLyric t req.id = some lyric := find?_of_filter_cons _ _ _ _ hrows
    have hperm : mayEditLyric t user lyric → permitted t user req LyricsRoute.removeLyric := by
      intro h l hl
      rw [hfirst] at hl
      cases hl
      exact h
    simp only []
    refine lyricCheck_returnsAt t user lyric _ _ ?_
    intro allowed hallowed
    cases allowed with
    | false => exact returnsAt_pure _ _ _ (post_403 _ _ _ _ _)
    | true =>
      have hp := hperm (hallowed rfl)
      simp only [Bool.not_true, Bool.false_eq_true, if_false]
      apply returnsAt_of_returns
      repeat' (first
        | (with_reducible apply returns_bind)
        | (with_reducible exact returns_pure _ _ (post_permitted _ _ _ _ _ hp (by decide) (by decide)))
        | (with_reducible intro _))

theorem putLyric_post (t : Tables) (user : UserRow) (req : Request) :
    ReturnsAt t (putLyric user req) (LyricsPost t user req LyricsRoute.putLyric) := by
  unfold putLyric
  refine returnsAt_withClient _ _ _ _ ?_ (returns_failWith_post _ _ _ _ _)
  with_reducible apply returnsAt_bind_query _ _ _ _ rfl
  cases hrows : (selectLyric req.id t).1 with
  | nil =>
    have hnone : firstLyric t req.id = none := find?_of_filter_nil _ _ hrows
    refine returnsAt_pure _ _ _ ⟨fun hn => ?_, fun _ => hnone, by decide⟩
    exact absurd (fun l hl => by rw [hnone] at hl; cases hl) hn
  | cons lyric rest =>
    have hfirst : firstLyric t req.id = some lyric := find?_of_filter_cons _ _ _ _ hrows
    have hperm : mayEditLyric t user lyric →
        (movesToOtherSong req.song_id lyric.song_id = true →
          mayEdit t (req.song_id.toOption.getD 0) user.id) →
        permitted t user req LyricsRoute.putLyric := by
      intro h h' l hl
      rw [hfirst] at hl
      cases hl
      exact ⟨h, h'⟩
    have hrest : ∀ allowed : Bool,
        (allowed = true → permitted t user req LyricsRoute.putLyric) →
        Returns
          (if (!allowed) = true then
            pure (sendMessage 403 "Not authorized to add lyrics to that song")
          else if blank req.content = true then pure (sendMessage 400 "Content is required")
          else do
            query (updateLyric req lyric)
            queryRows
            pure (sendJson 200))
          (LyricsPost t user req LyricsRoute.putLyric) := by
      intro allowed hallowed
      cases allowed with
      | false => exact returns_pure _ _ (post_403 _ _ _ _ _)
      | true =>
        have hp := hallowed rfl
        simp only [Bool.not_true, Bool.false_eq_true, if_false]
        repeat' (first
          | (with_reducible apply returns_bind)
          | (with_reducible exact returns_pure _ _ (post_permitted _ _ _ _ _ hp (by decide) (by decide)))
          | (with_reducible intro _)
          | split)
    simp only []
    refine lyricCheck_returnsAt t user lyric _ _ ?_
    intro allowed hallowed
    cases allowed with
    | false => exact returnsAt_pure _ _ _ (post_403 _ _ _ _ _)
    | true =>
      have hlyric := hallowed rfl
      simp only [Bool.not_true, Bool.false_eq_true, if_false]
      by_cases hmove : movesToOtherSong req.song_id lyric.song_id = true
      · simp only [hmove, if_true]
        with_reducible apply returnsAt_bind_canEditSong
        apply returnsAt_of_returns
        exact hrest _ (fun he => hperm hlyric (fun _ => (editOn_iff _ _ _).mp he))
      · simp only [hmove, if_false]
        apply returnsAt_bind_pure
        apply returnsAt_of_returns
        exact hrest _ (fun _ => hperm hlyric (fun h => absurd h hmove))

theorem lyricsHandler_post (t : Tables) (user : UserRow) (req : Request)
    (route : LyricsRoute) :
    ReturnsAt t (lyricsHandler user req route) (LyricsPost t user req route) := by
  cases route
  · exact listSongs_post t user req
  · exact getSong_post t user req
  · exact createSong_post t user req
  · exact putSong_post t user req
  · exact deleteSong_post t user req
  · exact addCollaborator_post t user req
  · exact removeCollaborator_post t user req
  · exact listStandalone_post t user req
  · exact getLyric_post t user req
  · exact createLyric_post t user req
  · exact putLyric_post t user req
  · exact removeLyric_post t user req
  · exact reorderLyrics_post t user req

/-- The request of `bob`, who is authenticated, for the private song 10 of `alice` is
answered 404 although the song exists and `bob` has no access to it. -/
theorem getSong_private_song_404 :
    (serve sampleConfig bobSongRequest (Route.lyrics LyricsRoute.getSong) calmOracle
        sampleWorld).1 = Except.ok (sendMessage 404 "Song not found") ∧
      songExists sampleTables 10 ∧ ¬ hasAccess sampleTables 10 2 := by
  refine ⟨rfl, ⟨_, List.mem_singleton.mpr rfl, rfl⟩, ?_⟩
  intro h
  have := (accessOn_access_iff sampleTables 10 2).mpr h
  exact absurd this (by decide)

/-- C16, amended: whatever a route of the lyrics router returns to a user who lacks the
ownership or role the route requires, its status is 403, or 500 when a query failed, or
404 in `GET /songs/:id` and `DELETE /songs/:id`, or 400 in `POST /` when the content is
blank; a status 404 is returned only when the addressed lyric or the invited user does
not exist or, in `GET /songs/:id` and `DELETE /songs/:id`, when the user has no access
to the song or does not own it (the song may exist); and no handler answers 401. -/
theorem lyrics_refusal_statuses (user : UserRow) (req : Request) (route : LyricsRoute)
    (o : Oracle) (w : World) (response : Response)
    (hreturn : (lyricsHandler user req route o w).1 = Except.ok response) :
    (¬ permitted w.db.tables user req route →
      response.status = 403 ∨ response.status = 500 ∨
        (response.status = 404 ∧ hidesSong route) ∨
        (response.status = 400 ∧ route = LyricsRoute.createLyric ∧
          blank req.content = true)) ∧
    (response.status = 404 → notFoundCause w.db.tables user req route) ∧
    response.status ≠ 401 :=
  lyricsHandler_post w.db.tables user req route o w response rfl hreturn

theorem lyrics_refusal_statuses_witness :
    (¬ permitted sampleWorld.db.tables { id := 2, handle := "bob" } bobSongRequest
        LyricsRoute.getSong →
      (sendMessage 404 "Song not found").status = 403 ∨
        (sendMessage 404 "Song not found").status = 500 ∨
        ((sendMessage 404 "Song not found").status = 404 ∧ hidesSong LyricsRoute.getSong) ∨
        ((sendMessage 404 "Song not found").status = 400 ∧
          LyricsRoute.getSong = LyricsRoute.createLyric ∧
          blank bobSongRequest.content = true)) ∧
    ((sendMessage 404 "Song not found").status = 404 →
      notFoundCause sampleWorld.db.tables { id := 2, handle := "bob" } bobSongRequest
        LyricsRoute.getSong) ∧
    (sendMessage 404 "Song not found").status ≠ 401 :=
  lyrics_refusal_statuses { id := 2, handle := "bob" } bobSongRequest LyricsRoute.getSong
    calmOracle sampleWorld (sendMessage 404 "Song not found") rfl

/-! ## C12: the bulk route is all or nothing -/

theorem triple_pure {α : Type} (pre : Db → Prop) (a : α) (post : α → Db → Prop)
    (fail : Db → Prop) (h : ∀ db, pre db → post a db) :
    Triple pre (pure a : Run α) post fail := by
  intro o w hpre
  constructor
  · intro b hb
    have hab : a = b := Except.ok.inj hb
    subst hab
    exact h _ hpre
  · intro e he
    exact absurd he (by simp [pure, Run.pure])

theorem triple_throw {α : Type} (pre : Db → Prop) (e : JsError) (post : α → Db → Prop)
    (fail : Db → Prop) (h : ∀ db, pre db → fail db) :
    Triple pre (Run.throw e : Run α) post fail := by
  intro o w hpre
  constructor
  · intro b hb
    exact absurd hb (by simp [Run.throw])
  · intro _ _
    exact h _ hpre

theorem triple_bind {α β : Type} (pre : Db → Prop) (m : Run α) (f : α → Run β)
    (mid : α → Db → Prop) (post : β → Db → Prop) (fail : Db → Prop)
    (hm : Triple pre m mid fail) (hf : ∀ a, Triple (mid a) (f a) post fail) :
    Triple pre (m >>= f) post fail := by
  intro o w hpre
  have h := hm o w hpre
  show (∀ b, (Run.bind m f o w).1 = Except.ok b → post b (Run.bind m f o w).2.db) ∧
    (∀ e, (Run.bind m f o w).1 = Except.error e → fail (Run.bind m f o w).2.db)
  unfold Run.bind
  rcases hmw : m o w with ⟨result, w'⟩
  rw [hmw] at h
  cases result with
  | ok a => exact hf a o w' (h.1 a rfl)
  | error e =>
    constructor
    · intro b hb
      exact absurd hb (by simp)
    · intro e' _
      exact h.2 e rfl

theorem triple_call {α : Type} (pre : Db → Prop) (act : Oracle → World → α × World)
    (post : α → Db → Prop) (fail : Db → Prop) (hfail : ∀ db, pre db → fail db)
    (hpost : ∀ o w, pre w.db → post (act o w).1 (act o w).2.db) :
    Triple pre (Run.call act) post fail := by
  intro o w hpre
  unfold Run.call
  cases o.fault w.calls with
  | some e =>
    constructor
    · intro b hb
      exact absurd hb (by simp)
    · intro _ _
      exact hfail _ hpre
  | none =>
    constructor
    · intro b hb
      have hab : (act o w).1 = b := Except.ok.inj hb
      subst hab
      exact hpost o w hpre
    · intro e he
      exact absurd he (by simp)

theorem triple_query {α : Type} (pre : Db → Prop) (statement : Tables → α × Tables)
    (post : α → Db → Prop) (fail : Db → Prop) (hfail : ∀ db, pre db → fail db)
    (hpost : ∀ db, pre db →
      post (statement db.tables).1 { db with tables := (statement db.tables).2 }) :
    Triple pre (query statement) post fail :=
  triple_call pre _ post fail hfail (fun _ w hpre => hpost w.db hpre)

theorem triple_tryCatch {α : Type} (pre : Db → Prop) (m : Run α)
    (handler : JsError → Run α) (post : α → Db → Prop) (caught fail : Db → Prop)
    (hm : Triple pre m post caught) (hh : ∀ e, Triple caught (handler e) post fail) :
    Triple pre (Run.tryCatch m handler) post fail := by
  intro o w hpre
  have h := hm o w hpre
  unfold Run.tryCatch
  rcases hmw : m o w with ⟨result, w'⟩
  rw [hmw] at h
  cases result with
  | ok a =>
    constructor
    · intro b hb
      have hab : a = b := Except.ok.inj hb
      subst hab
      exact h.1 a rfl
    · intro e he
      exact absurd he (by simp)
  | error e => exact hh e o w' (h.2 e rfl)

theorem triple_tryFinally_release {α : Type} (pre : Db → Prop) (m : Run α)
    (post : α → Db → Prop) (fail : Db → Prop) (hm : Triple pre m post fail) :
    Triple pre (Run.tryFinally m release) post fail := by
  intro o w hpre
  have h := hm o w hpre
  unfold Run.tryFinally release
  rcases hmw : m o w with ⟨result, w'⟩
  rw [hmw] at h
  exact h

theorem triple_withClient (pre : Db → Prop) (body : Run Response)
    (onError : JsError → Run Response) (post : Response → Db → Prop)
    (caught fail : Db → Prop) (hpre : ∀ db, pre db → fail db)
    (hb : Triple pre body post caught) (hh : ∀ e, Triple caught (onError e) post fail) :
    Triple pre (withClient body onError) post fail := by
  unfold withClient
  refine triple_bind pre _ _ (fun _ => pre) post fail ?_ ?_
  · exact triple_call pre _ _ fail hpre (fun _ _ h => h)
  · intro _
    exact triple_tryFinally_release pre _ post fail (triple_tryCatch pre _ _ post caught fail hb hh)

theorem triple_conseq {α : Type} (pre pre' : Db → Prop) (m : Run α)
    (post post' : α → Db → Prop) (fail fail' : Db → Prop)
    (h : Triple pre' m post' fail') (hpre : ∀ db, pre db → pre' db)
    (hpost : ∀ a db, post' a db → post a db) (hfail : ∀ db, fail' db → fail db) :
    Triple pre m post fail := by
  intro o w hw
  have := h o w (hpre _ hw)
  exact ⟨fun a ha => hpost _ _ (this.1 a ha), fun e he => hfail _ (this.2 e he)⟩

theorem triple_exists {α ι : Type} (pre : ι → Db → Prop) (m : Run α)
    (post : α → Db → Prop) (fail : Db → Prop) (h : ∀ i, Triple (pre i) m post fail) :
    Triple (fun db => ∃ i, pre i db) m post fail := by
  intro o w hw
  obtain ⟨i, hi⟩ := hw
  exact h i o w hi

theorem triple_firstId (pre : Db → Prop) (id : Option Int) (fail : Db → Prop)
    (h : ∀ db, pre db → fail db) : Triple pre (firstId id) (fun _ => pre) fail := by
  unfold firstId
  cases id with
  | none => exact triple_throw pre _ _ fail h
  | some n => exact triple_pure pre n _ fail (fun _ hdb => hdb)

theorem openAt_snapshot (start now : Tables) (db : Db) (h : OpenAt start now db) :
    db.snapshot = some start := h.1

theorem insertCases_triple (start : Tables) (suiteId : Int) (tests : List TestInput) :
    ∀ now : Tables,
      Triple (OpenAt start now) (insertCases suiteId tests)
        (fun _ db => ∃ crows : List TestCaseRow,
          crows.map (fun c => c.name) = tests.map (fun test => test.name) ∧
          OpenAt start { now with cases := now.cases ++ crows } db)
        (fun db => db.snapshot = some start) := by
  induction tests with
  | nil =>
    intro now
    exact triple_pure _ _ _ _ (fun db hdb => ⟨[], rfl, by simpa using hdb⟩)
  | cons test rest ih =>
    intro now
    unfold insertCases
    refine triple_bind _ _ _
      (fun _ => OpenAt start (insertBulkCase suiteId test now).2) _ _ ?_ ?_
    · refine triple_query _ _ _ _ (fun db hdb => hdb.1) ?_
      intro db hdb
      exact ⟨hdb.1, by rw [hdb.2]⟩
    · intro _
      refine triple_conseq _ _ _ _ _ _ _ (ih _) (fun _ h => h) ?_ (fun _ h => h)
      rintro _ db ⟨crows, hnames, hopen⟩
      obtain ⟨row, hrow, hname⟩ : ∃ row : TestCaseRow,
          (insertBulkCase suiteId test now).2 = { now with cases := now.cases ++ [row] } ∧
          row.name = test.name := ⟨_, rfl, rfl⟩
      rw [hrow] at hopen
      refine ⟨row :: crows, ?_, ?_⟩
      · simp only [List.map_cons, hnames, hname]
      · simpa [List.append_assoc] using hopen

theorem insertSuites_triple (start : Tables) (runId : Int) (suites : List SuiteInput) :
    ∀ now : Tables,
      Triple (OpenAt start now) (insertSuites runId suites)
        (fun _ db => ∃ (srows : List TestSuiteRow) (crows : List TestCaseRow),
          srows.map (fun s => s.name) = suites.map (fun s => s.name) ∧
          crows.map (fun c => c.name) = (submittedTests suites).map (fun test => test.name) ∧
          OpenAt start
            { now with suites := now.suites ++ srows, cases := now.cases ++ crows } db)
        (fun db => db.snapshot = some start) := by
  induction suites with
  | nil =>
    intro now
    exact triple_pure _ _ _ _ (fun db hdb => ⟨[], [], rfl, rfl, by simpa using hdb⟩)
  | cons suite rest ih =>
    intro now
    unfold insertSuites
    refine triple_bind _ _ _
      (fun _ => OpenAt start (insertBulkSuite runId suite now).2) _ _ ?_ ?_
    · refine triple_query _ _ _ _ (fun db hdb => hdb.1) ?_
      intro db hdb
      exact ⟨hdb.1, by rw [hdb.2]⟩
    intro _
    refine triple_bind _ _ _
      (fun _ => OpenAt start (insertBulkSuite runId suite now).2) _ _ ?_ ?_
    · refine triple_query _ _ _ _ (fun db hdb => hdb.1) ?_
      intro db hdb
      exact hdb
    intro id
    refine triple_bind _ _ _
      (fun _ => OpenAt start (insertBulkSuite runId suite now).2) _ _ ?_ ?_
    · exact triple_firstId _ _ _ (fun db hdb => hdb.1)
    intro suiteId
    refine triple_bind _ _ _ _ _ _
      (insertCases_triple start suiteId (suite.tests.getD []) _) ?_
    intro _
    refine triple_exists _ _ _ _ ?_
    intro crows
    intro o w hw
    obtain ⟨hnames, hopen⟩ := hw
    have h := ih _ o w hopen
    refine ⟨fun a ha => ?_, h.2⟩
    obtain ⟨srows, crows', hs, hc, hfinal⟩ := h.1 a ha
    obtain ⟨row, hrow, hname⟩ : ∃ row : TestSuiteRow,
        (insertBulkSuite runId suite now).2 = { now with suites := now.suites ++ [row] } ∧
        row.name = suite.name := ⟨_, rfl, rfl⟩
    rw [hrow] at hfinal
    refine ⟨row :: srows, crows ++ crows', ?_, ?_, ?_⟩
    · simp only [List.map_cons, hs, hname]
    · have hsub : submittedTests (suite :: rest) =
          suite.tests.getD [] ++ submittedTests rest := by
        simp [submittedTests, List.flatMap_cons]
      rw [hsub, List.map_append, List.map_append, hnames, hc]
    · simpa [List.append_assoc] using hfinal

theorem bulkTransaction_triple (start : Tables) (req : Request) (suites : List SuiteInput) :
    Triple (ClosedAt start) (bulkTransaction req suites)
      (fun _ db => db.snapshot = none ∧ Inserted start suites db.tables)
      (Recoverable start req.suites) := by
  have hopen : ∀ now db, OpenAt start now db → Recoverable start req.suites db :=
    fun _ _ h => Or.inl h.1
  unfold bulkTransaction
  refine triple_bind _ _ _ (fun _ => OpenAt start start) _ _ ?_ ?_
  · refine triple_call _ _ _ _ (fun db h => Or.inr (Or.inl h)) ?_
    intro _ w h
    exact ⟨by simp [h.2], h.2⟩
  intro _
  refine triple_bind _ _ _ (fun _ => OpenAt start (insertBulkRun req suites start).2) _ _ ?_ ?_
  · refine triple_query _ _ _ _ (hopen _) ?_
    intro db hdb
    exact ⟨hdb.1, by rw [hdb.2]⟩
  intro _
  refine triple_bind _ _ _ (fun _ => OpenAt start (insertBulkRun req suites start).2) _ _ ?_ ?_
  · exact triple_query _ _ _ _ (hopen _) (fun db hdb => hdb)
  intro id
  refine triple_bind _ _ _ (fun _ => OpenAt start (insertBulkRun req suites start).2) _ _ ?_ ?_
  · exact triple_firstId _ _ _ (hopen _)
  intro runId
  refine triple_bind _ _ _ _ _ _
    (triple_conseq _ _ _ _ _ _ _ (insertSuites_triple start runId suites _)
      (fun _ h => h) (fun _ _ h => h) (fun _ h => Or.inl h)) ?_
  intro _
  refine triple_bind _ _ _
    (fun _ db => db.snapshot = none ∧ Inserted start suites db.tables) _ _ ?_ ?_
  · refine triple_call _ _ _ _ ?_ ?_
    · rintro db ⟨srows, crows, _, _, h⟩
      exact Or.inl h.1
    · rintro _ w ⟨srows, crows, hs, hc, h⟩
      obtain ⟨run, hrun⟩ : ∃ run : TestRunRow,
          (insertBulkRun req suites start).2 = { start with runs := start.runs ++ [run] } :=
        ⟨_, rfl⟩
      rw [hrun] at h
      exact ⟨rfl, run, srows, crows, hs, hc, h.2⟩
  · intro _
    exact triple_pure _ _ _ _ (fun _ h => h)

theorem allOrNothing_of_recoverable (start : Tables) (suites : Option (List SuiteInput))
    (db : Db) (h : Recoverable start suites db) : AllOrNothing start suites db := by
  rcases h with h | h | ⟨h, list, hl, hins⟩
  · exact Or.inl (by simp [Db.committed, h])
  · exact Or.inl (by simp [Db.committed, h.1, h.2])
  · exact Or.inr ⟨list, hl, by simpa [Db.committed, h] using hins⟩

theorem bulkRun_triple (start : Tables) (req : Request) :
    Triple (ClosedAt start) (bulkRun req) (fun _ => AllOrNothing start req.suites)
      (AllOrNothing start req.suites) := by
  have hclosed : ∀ db, ClosedAt start db → AllOrNothing start req.suites db :=
    fun db h => allOrNothing_of_recoverable _ _ _ (Or.inr (Or.inl h))
  unfold bulkRun
  refine triple_withClient _ _ _ _ (Recoverable start req.suites) _ hclosed ?_ ?_
  · split
    · exact triple_pure _ _ _ _ hclosed
    · split
      · exact triple_pure _ _ _ _ hclosed
      · next suites hsuites =>
        refine triple_bind _ _ _ _ _ _ (bulkTransaction_triple start req suites) ?_
        intro _
        refine triple_bind _ _ _
          (fun _ db => db.snapshot = none ∧ Inserted start suites db.tables) _ _ ?_ ?_
        · refine triple_query _ _ _ _ ?_ (fun db h => h)
          intro db h
          exact Or.inr (Or.inr ⟨h.1, suites, hsuites, h.2⟩)
        · intro _
          refine triple_pure _ _ _ _ ?_
          intro db h
          exact allOrNothing_of_recoverable _ _ _ (Or.inr (Or.inr ⟨h.1, suites, hsuites, h.2⟩))
  · intro e
    refine triple_bind _ _ _ (fun _ => AllOrNothing start req.suites) _ _ ?_ ?_
    · refine triple_call _ _ _ _ (allOrNothing_of_recoverable _ _) ?_
      intro _ w h
      have := allOrNothing_of_recoverable _ _ _ h
      simpa [AllOrNothing, Db.committed] using this
    · intro _
      exact triple_pure _ _ _ _ (fun _ h => h)

theorem serveBulk_triple (start : Tables) (cfg : Config) (req : Request) :
    Triple (ClosedAt start) (serveTests cfg req TestsRoute.bulk)
      (fun _ => AllOrNothing start req.suites) (AllOrNothing start req.suites) := by
  show Triple _ (apiKeyAuth cfg req (bulkRun req)) _ _
  unfold apiKeyAuth
  split
  · exact triple_pure _ _ _ _
      (fun db h => allOrNothing_of_recoverable _ _ _ (Or.inr (Or.inl h)))
  · exact bulkRun_triple start req

/-- C12: `POST /runs/bulk` is all or nothing. From a connection without an open
transaction, whatever the request and wherever an awaited call fails (acquiring the
client, beginning, a statement, the commit, the rollback), when the handler has finished
the committed tables are the tables it found, or those tables with the run row, one suite
row for each submitted suite and one case row for each submitted test appended. -/
theorem bulk_all_or_nothing (cfg : Config) (req : Request) (o : Oracle) (w : World)
    (hfresh : w.db.snapshot = none) :
    (serveTests cfg req TestsRoute.bulk o w).2.db.committed = w.db.tables ∨
      ∃ suites, req.suites = some suites ∧
        Inserted w.db.tables suites (serveTests cfg req TestsRoute.bulk o w).2.db.committed := by
  have h := serveBulk_triple w.db.tables cfg req o w ⟨hfresh, rfl⟩
  cases hres : (serveTests cfg req TestsRoute.bulk o w).1 with
  | ok response => exact h.1 response hres
  | error e => exact h.2 e hres

theorem bulk_all_or_nothing_witness :
    (serveTests sampleConfig bulkRequest TestsRoute.bulk (faultAt 6) sampleWorld).2.db.committed
        = sampleWorld.db.tables ∨
      ∃ suites, bulkRequest.suites = some suites ∧
        Inserted sampleWorld.db.tables suites
          (serveTests sampleConfig bulkRequest TestsRoute.bulk (faultAt 6)
            sampleWorld).2.db.committed :=
  bulk_all_or_nothing sampleConfig bulkRequest (faultAt 6) sampleWorld rfl


theorem bulk_sample_rolls_back :
    (serveTests sampleConfig bulkRequest TestsRoute.bulk (faultAt 6) sampleWorld).2.db.committed
      = sampleWorld.db.tables := by
  decide!

theorem bulk_sample_inserts :
    (serveTests sampleConfig bulkRequest TestsRoute.bulk calmOracle sampleWorld).1.toOption
        = some (sendJson 201) ∧
      (serveTests sampleConfig bulkRequest TestsRoute.bulk calmOracle
          sampleWorld).2.db.committed.runs.length = 1 ∧
      (serveTests sampleConfig bulkRequest TestsRoute.bulk calmOracle
          sampleWorld).2.db.committed.suites.length = 2 ∧
      (serveTests sampleConfig bulkRequest TestsRoute.bulk calmOracle
          sampleWorld).2.db.committed.cases.length = 2 := by
  decide!

/-! ## C11: what is saved is what is read -/

theorem lookup_updateCache_last (c : Nat) (pre post : List (Key × Pos)) (e : Key × Pos)
    (ps : Key → Option (Nat → Option Pos)) (hpost : ∀ e' ∈ post, e'.1 ≠ e.1) :
    ((updateCache ps c (pre ++ e :: post)) e.1).bind (fun byCol => byCol c) = some e.2 := by
  have hsplit : updateCache ps c (pre ++ e :: post) =
      updateCache (setPosition (updateCache ps c pre) e.1 c e.2) c post := by
    unfold updateCache
    rw [List.foldl_append, List.foldl_cons]
  rw [hsplit, lookup_updateCache c post _ e.1 c (Or.inr hpost), lookup_setPosition]
  simp

theorem savedAt_after_save (parseInt : String → Key) (c : Nat) (st : State) (b : Block)
    (pre post : List Item) (it : Item) (hkey : parseInt it.i = some b.id)
    (hpost : ∀ later ∈ post, parseInt later.i ≠ some b.id) :
    savedAt (saveLayoutForColCount parseInt (FetchOutcome.resolved true) c
        (pre ++ it :: post) st).2 b c = some ⟨it.x, it.y, it.w, it.h⟩ := by
  show ((updateCache st.positions c (saveItems parseInt (pre ++ it :: post)))
    (some b.id)).bind (fun byCol => byCol c) = _
  have hitems : saveItems parseInt (pre ++ it :: post) =
      saveItems parseInt pre ++
        (parseInt it.i, ({ x := it.x, y := it.y, w := it.w, h := it.h } : Pos)) ::
          saveItems parseInt post := by
    simp [saveItems]
  rw [hitems, ← hkey]
  refine lookup_updateCache_last c _ _ _ _ ?_
  intro e' he'
  unfold saveItems at he'
  obtain ⟨later, hlater, rfl⟩ := List.mem_map.mp he'
  rw [hkey]
  exact hpost later hlater

theorem nodup_i_of_nodup_id (parseInt : String → Key) (blocks : List Block)
    (hids : ∀ b ∈ blocks, parseInt b.i = some b.id) (hnd : (blocks.map Block.id).Nodup) :
    (blocks.map Block.i).Nodup := by
  have h1 : ((blocks.map Block.i).map parseInt) = (blocks.map Block.id).map some := by
    rw [List.map_map, List.map_map]
    exact List.map_congr_left (fun b hb => hids b hb)
  have h2 : ((blocks.map Block.id).map some).Nodup :=
    hnd.map (fun _ _ h => Option.some.inj h)
  rw [← h1] at h2
  exact List.Nodup.of_map parseInt h2

theorem item_eq_savedItem (b : Block) (it : Item) (h : it.i = b.i) :
    savedItem b ⟨it.x, it.y, it.w, it.h⟩ = it := by
  cases it
  simp only [savedItem] at h ⊢
  simp [h]

theorem layout_entry_unique (st : State) (c : Nat) (hnd : (st.blocks.map Block.i).Nodup)
    (a b : Item) (ha : a ∈ getLayoutForColCount st c) (hb : b ∈ getLayoutForColCount st c)
    (h : a.i = b.i) : a = b :=
  List.inj_on_of_nodup_map ((layout_ids_perm st c).nodup_iff.mpr hnd) ha hb h

theorem layout_entry_block (st : State) (c : Nat) (it : Item)
    (h : it ∈ getLayoutForColCount st c) : ∃ b ∈ st.blocks, b.i = it.i := by
  have h1 : it.i ∈ (getLayoutForColCount st c).map Item.i := List.mem_map_of_mem _ h
  have h2 := (layout_ids_perm st c).mem_iff.mp h1
  obtain ⟨b, hb, hbi⟩ := List.mem_map.mp h2
  exact ⟨b, hb, hbi⟩

theorem saved_entry_after_save (parseInt : String → Key) (c : Nat) (st : State) (b : Block)
    (hb : b ∈ st.blocks) (pre post : List Item) (it : Item) (hi : it.i = b.i)
    (hkey : parseInt b.i = some b.id)
    (hpost : ∀ later ∈ post, parseInt later.i ≠ some b.id) :
    savedAt (saveLayoutForColCount parseInt (FetchOutcome.resolved true) c
        (pre ++ it :: post) st).2 b c = some ⟨it.x, it.y, it.w, it.h⟩ ∧
    it ∈ getLayoutForColCount (saveLayoutForColCount parseInt (FetchOutcome.resolved true) c
        (pre ++ it :: post) st).2 c := by
  have hsaved := savedAt_after_save parseInt c st b pre post it (by rw [hi]; exact hkey) hpost
  refine ⟨hsaved, ?_⟩
  rw [layout_eq_append]
  refine List.mem_append_left _ (mem_savedItems.mpr ⟨b, hb, _, hsaved, ?_⟩)
  exact (item_eq_savedItem b it hi).symm

theorem round_trip_mem (parseInt : String → Key) (c : Nat) (st : State)
    (hids : ∀ b ∈ st.blocks, parseInt b.i = some b.id)
    (hnd : (st.blocks.map Block.id).Nodup) (it : Item)
    (hit : it ∈ getLayoutForColCount st c) :
    ∃ b ∈ st.blocks, b.i = it.i ∧
      savedAt (saveLayoutForColCount parseInt (FetchOutcome.resolved true) c
        (getLayoutForColCount st c) st).2 b c = some ⟨it.x, it.y, it.w, it.h⟩ ∧
      it ∈ getLayoutForColCount (saveLayoutForColCount parseInt (FetchOutcome.resolved true) c
        (getLayoutForColCount st c) st).2 c := by
  have hndi := nodup_i_of_nodup_id parseInt st.blocks hids hnd
  obtain ⟨b, hb, hbi⟩ := layout_entry_block st c it hit
  obtain ⟨pre, post, hsplit⟩ := List.append_of_mem hit
  have hlnd : ((getLayoutForColCount st c).map Item.i).Nodup :=
    (layout_ids_perm st c).nodup_iff.mpr hndi
  have hpost : ∀ later ∈ post, parseInt later.i ≠ some b.id := by
    intro later hlater hparse
    have hlmem : later ∈ getLayoutForColCount st c := by
      rw [hsplit]
      exact List.mem_append_right _ (List.mem_cons_of_mem _ hlater)
    obtain ⟨b', hb', hb'i⟩ := layout_entry_block st c later hlmem
    have hid : b'.id = b.id := by
      have := hids b' hb'
      rw [hb'i, hparse] at this
      exact (Option.some.inj this).symm
    have hbb : b' = b := List.inj_on_of_nodup_map hnd hb' hb hid
    have hii : later.i = it.i := by rw [← hb'i, hbb, hbi]
    rw [hsplit, List.map_append, List.map_cons] at hlnd
    have h1 := (List.nodup_append.mp hlnd).2.1
    have h2 := (List.nodup_cons.mp h1).1
    exact h2 (by rw [← hii]; exact List.mem_map_of_mem _ hlater)
  have := saved_entry_after_save parseInt c st b hb pre post it hbi.symm (hids b hb) hpost
  rw [← hsplit] at this
  exact ⟨b, hb, hbi, this⟩

/-- C11: what a successful `saveLayoutForColCount(c, items)` saves is what
`getLayoutForColCount(c)` returns afterwards. For every block of the store, with
`parseInt(block.i)` being `block.id`, and every item of `items` with the identifier of
the block that no later item overwrites (every item, when the identifiers in `items` are
distinct), the item itself, with its `x`, `y`, `w`, `h`, is an entry of the layout, and
the only one with that identifier when the block ids are distinct. In particular, with
distinct block ids, after saving the layout that `getLayoutForColCount(c)` returned no
block is left without a saved position and the layout returned next has the same
entries, each block with the same coordinates. -/
theorem save_read_round_trip (parseInt : String → Key) (outcome : FetchOutcome) (c : Nat)
    (items : List Item) (st : State)
    (hok : (saveLayoutForColCount parseInt outcome c items st).1 = Except.ok ())
    (hids : ∀ b ∈ st.blocks, parseInt b.i = some b.id) :
    (∀ b ∈ st.blocks, ∀ pre it post, items = pre ++ it :: post → it.i = b.i →
      (∀ later ∈ post, parseInt later.i ≠ some b.id) →
      it ∈ getLayoutForColCount (saveLayoutForColCount parseInt outcome c items st).2 c ∧
      ((st.blocks.map Block.id).Nodup →
        ∀ entry ∈ getLayoutForColCount (saveLayoutForColCount parseInt outcome c items st).2 c,
          entry.i = b.i → entry = it)) ∧
    (items = getLayoutForColCount st c → (st.blocks.map Block.id).Nodup →
      unsavedBlocks (saveLayoutForColCount parseInt outcome c items st).2 c = [] ∧
      (getLayoutForColCount (saveLayoutForColCount parseInt outcome c items st).2 c).Perm
        (getLayoutForColCount st c)) := by
  cases outcome with
  | rejected message => exact absurd hok (by simp [saveLayoutForColCount])
  | resolved ok =>
    cases ok with
    | false => exact absurd hok (by simp [saveLayoutForColCount])
    | true =>
      constructor
      · intro b hb pre it post hitems hi hpost
        subst hitems
        have h := saved_entry_after_save parseInt c st b hb pre post it hi (hids b hb) hpost
        refine ⟨h.2, ?_⟩
        intro hnd entry hentry hei
        have hndi := nodup_i_of_nodup_id parseInt st.blocks hids hnd
        exact layout_entry_unique (saveLayoutForColCount parseInt (FetchOutcome.resolved true) c
          (pre ++ it :: post) st).2 c hndi entry it hentry h.2 (by rw [hei, hi])
      · intro hitems hnd
        subst hitems
        have hndi := nodup_i_of_nodup_id parseInt st.blocks hids hnd
        have hall : ∀ b ∈ st.blocks,
            savedAt (saveLayoutForColCount parseInt (FetchOutcome.resolved true) c
              (getLayoutForColCount st c) st).2 b c ≠ none := by
          intro b hb
          have hbi : b.i ∈ (getLayoutForColCount st c).map Item.i :=
            (layout_ids_perm st c).mem_iff.mpr (List.mem_map_of_mem _ hb)
          obtain ⟨it, hit, hiti⟩ := List.mem_map.mp hbi
          obtain ⟨b', hb', hb'i, hsaved, _⟩ := round_trip_mem parseInt c st hids hnd it hit
          have hbb : b' = b :=
            List.inj_on_of_nodup_map hndi hb' hb (by rw [hb'i, hiti])
          rw [hbb] at hsaved
          rw [hsaved]
          exact Option.some_ne_none _
        have hsub : ∀ it ∈ getLayoutForColCount st c,
            it ∈ getLayoutForColCount (saveLayoutForColCount parseInt
              (FetchOutcome.resolved true) c (getLayoutForColCount st c) st).2 c :=
          fun it hit => (round_trip_mem parseInt c st hids hnd it hit).choose_spec.2.2.2
        constructor
        · unfold unsavedBlocks
          rw [List.filter_eq_nil_iff]
          intro b hb
          have := hall b hb
          cases hs : savedAt (saveLayoutForColCount parseInt (FetchOutcome.resolved true) c
              (getLayoutForColCount st c) st).2 b c with
          | none => exact absurd hs this
          | some p => simp
        · have hnd₁ : (getLayoutForColCount st c).Nodup :=
            List.Nodup.of_map Item.i ((layout_ids_perm st c).nodup_iff.mpr hndi)
          have hnd₂ : (getLayoutForColCount (saveLayoutForColCount parseInt
              (FetchOutcome.resolved true) c (getLayoutForColCount st c) st).2 c).Nodup :=
            List.Nodup.of_map Item.i ((layout_ids_perm _ c).nodup_iff.mpr hndi)
          refine (List.perm_ext_iff_of_nodup hnd₂ hnd₁).mpr ?_
          intro entry
          constructor
          · intro hentry
            obtain ⟨b, hb, hbi⟩ := layout_entry_block _ c entry hentry
            have hbi' : b.i ∈ (getLayoutForColCount st c).map Item.i :=
              (layout_ids_perm st c).mem_iff.mpr (List.mem_map_of_mem _ hb)
            obtain ⟨it, hit, hiti⟩ := List.mem_map.mp hbi'
            have heq : entry = it :=
              layout_entry_unique (saveLayoutForColCount parseInt (FetchOutcome.resolved true) c
                (getLayoutForColCount st c) st).2 c hndi entry it hentry (hsub it hit)
                (by rw [← hbi, hiti])
            rw [heq]
            exact hit
          · exact hsub entry

/-- Saving at three columns the layout the sample store returns for three columns
leaves no block without a saved position, and the layout returned next has the same
entries. -/
theorem save_read_round_trip_witness :
    unsavedBlocks (saveLayoutForColCount decimalKey (FetchOutcome.resolved true) 3
        (getLayoutForColCount sampleStore 3) sampleStore).2 3 = [] ∧
      (getLayoutForColCount (saveLayoutForColCount decimalKey (FetchOutcome.resolved true) 3
        (getLayoutForColCount sampleStore 3) sampleStore).2 3).Perm
        (getLayoutForColCount sampleStore 3) :=
  (save_read_round_trip decimalKey (FetchOutcome.resolved true) 3
    (getLayoutForColCount sampleStore 3) sampleStore rfl (by decide)).2 rfl (by decide)

theorem round_trip_sample_layouts :
    getLayoutForColCount sampleStore 3 =
        [⟨"1", 1, JSNum.fin 0, 2, 2⟩, ⟨"2", 0, JSNum.fin 2, 2, 1⟩,
          ⟨"3", 0, JSNum.fin 3, 3, 1⟩, ⟨"4", 0, JSNum.fin 4, 1, 1⟩] ∧
      getLayoutForColCount (saveLayoutForColCount decimalKey (FetchOutcome.resolved true) 3
        (getLayoutForColCount sampleStore 3) sampleStore).2 3 =
        getLayoutForColCount sampleStore 3 := by
  decide


/-! ## C27: `escapeHtml` and its inverse -/

theorem escapeHtml_data (str : String) :
    (escapeHtml str).data = str.data.flatMap escapeChar := by
  unfold escapeHtml replaceAllChar
  simp only [List.flatMap_assoc]
  congr 1
  funext c
  unfold escapeChar
  by_cases h1 : c = '&'
  · subst h1; decide
  by_cases h2 : c = '"'
  · subst h2; decide
  by_cases h3 : c = '<'
  · subst h3; decide
  by_cases h4 : c = '>'
  · subst h4; decide
  simp [h1, h2, h3, h4]

theorem escapeChar_cases (c : Char) :
    (c = '&' ∧ escapeChar c = ['&', 'a', 'm', 'p', ';']) ∨
    (c = '"' ∧ escapeChar c = ['&', 'q', 'u', 'o', 't', ';']) ∨
    (c = '<' ∧ escapeChar c = ['&', 'l', 't', ';']) ∨
    (c = '>' ∧ escapeChar c = ['&', 'g', 't', ';']) ∨
    (c ≠ '&' ∧ c ≠ '"' ∧ c ≠ '<' ∧ c ≠ '>' ∧ escapeChar c = [c]) := by
  by_cases h1 : c = '&'
  · subst h1; exact Or.inl ⟨rfl, rfl⟩
  by_cases h2 : c = '"'
  · subst h2; exact Or.inr (Or.inl ⟨rfl, rfl⟩)
  by_cases h3 : c = '<'
  · subst h3; exact Or.inr (Or.inr (Or.inl ⟨rfl, rfl⟩))
  by_cases h4 : c = '>'
  · subst h4; exact Or.inr (Or.inr (Or.inr (Or.inl ⟨rfl, rfl⟩)))
  exact Or.inr (Or.inr (Or.inr (Or.inr ⟨h1, h2, h3, h4, by simp [escapeChar, h1, h2, h3, h4]⟩)))

theorem escaped_chars (l : List Char) :
    ∀ c ∈ l.flatMap escapeChar, c ≠ '"' ∧ c ≠ '<' ∧ c ≠ '>' := by
  intro c hc
  rw [List.mem_flatMap] at hc
  obtain ⟨a, _, hca⟩ := hc
  rcases escapeChar_cases a with h | h | h | h | h
  · rw [h.2] at hca
    revert c; decide
  · rw [h.2] at hca
    revert c; decide
  · rw [h.2] at hca
    revert c; decide
  · rw [h.2] at hca
    revert c; decide
  · rw [h.2.2.2.2, List.mem_singleton] at hca
    subst hca
    exact ⟨h.2.1, h.2.2.1, h.2.2.2.1⟩

theorem amp_data : "&amp;".data = ['&', 'a', 'm', 'p', ';'] := rfl

theorem quot_data : "&quot;".data = ['&', 'q', 'u', 'o', 't', ';'] := rfl

theorem lt_data : "&lt;".data = ['&', 'l', 't', ';'] := rfl

theorem gt_data : "&gt;".data = ['&', 'g', 't', ';'] := rfl

theorem split_after_other (c : Char) (l pre post : List Char) (h : c :: l = pre ++ '&' :: post)
    (hc : c ≠ '&') : ∃ pre', pre = c :: pre' ∧ l = pre' ++ '&' :: post := by
  cases pre with
  | nil =>
    simp only [List.nil_append, List.cons.injEq] at h
    exact absurd h.1 hc
  | cons x pre' =>
    simp only [List.cons_append, List.cons.injEq] at h
    exact ⟨pre', by rw [h.1], h.2⟩

/-- The text after an ampersand starts with the rest of one of the four entities. -/
theorem entity_follows (l : List Char) :
    ∀ pre post, l.flatMap escapeChar = pre ++ '&' :: post →
      "amp;".data <+: post ∨ "quot;".data <+: post ∨ "lt;".data <+: post ∨
        "gt;".data <+: post := by
  induction l with
  | nil =>
    intro pre post h
    simp at h
  | cons a rest ih =>
    intro pre post h
    rw [List.flatMap_cons] at h
    rcases escapeChar_cases a with ha | ha | ha | ha | ha
    · rw [ha.2] at h
      cases pre with
      | nil =>
        simp only [List.cons_append, List.nil_append, List.cons.injEq, true_and] at h
        exact Or.inl ⟨_, h⟩
      | cons x pre₁ =>
        simp only [List.cons_append, List.nil_append, List.cons.injEq] at h
        obtain ⟨p₂, _, h₂⟩ := split_after_other _ _ _ _ h.2 (by decide)
        obtain ⟨p₃, _, h₃⟩ := split_after_other _ _ _ _ h₂ (by decide)
        obtain ⟨p₄, _, h₄⟩ := split_after_other _ _ _ _ h₃ (by decide)
        obtain ⟨p₅, _, h₅⟩ := split_after_other _ _ _ _ h₄ (by decide)
        exact ih p₅ post h₅
    · rw [ha.2] at h
      cases pre with
      | nil =>
        simp only [List.cons_append, List.nil_append, List.cons.injEq, true_and] at h
        exact Or.inr (Or.inl ⟨_, h⟩)
      | cons x pre₁ =>
        simp only [List.cons_append, List.nil_append, List.cons.injEq] at h
        obtain ⟨p₂, _, h₂⟩ := split_after_other _ _ _ _ h.2 (by decide)
        obtain ⟨p₃, _, h₃⟩ := split_after_other _ _ _ _ h₂ (by decide)
        obtain ⟨p₄, _, h₄⟩ := split_after_other _ _ _ _ h₃ (by decide)
        obtain ⟨p₅, _, h₅⟩ := split_after_other _ _ _ _ h₄ (by decide)
        obtain ⟨p₆, _, h₆⟩ := split_after_other _ _ _ _ h₅ (by decide)
        exact ih p₆ post h₆
    · rw [ha.2] at h
      cases pre with
      | nil =>
        simp only [List.cons_append, List.nil_append, List.cons.injEq, true_and] at h
        exact Or.inr (Or.inr (Or.inl ⟨_, h⟩))
      | cons x pre₁ =>
        simp only [List.cons_append, List.nil_append, List.cons.injEq] at h
        obtain ⟨p₂, _, h₂⟩ := split_after_other _ _ _ _ h.2 (by decide)
        obtain ⟨p₃, _, h₃⟩ := split_after_other _ _ _ _ h₂ (by decide)
        obtain ⟨p₄, _, h₄⟩ := split_after_other _ _ _ _ h₃ (by decide)
        exact ih p₄ post h₄
    · rw [ha.2] at h
      cases pre with
      | nil =>
        simp only [List.cons_append, List.nil_append, List.cons.injEq, true_and] at h
        exact Or.inr (Or.inr (Or.inr ⟨_, h⟩))
      | cons x pre₁ =>
        simp only [List.cons_append, List.nil_append, List.cons.injEq] at h
        obtain ⟨p₂, _, h₂⟩ := split_after_other _ _ _ _ h.2 (by decide)
        obtain ⟨p₃, _, h₃⟩ := split_after_other _ _ _ _ h₂ (by decide)
        obtain ⟨p₄, _, h₄⟩ := split_after_other _ _ _ _ h₃ (by decide)
        exact ih p₄ post h₄
    · rw [ha.2.2.2.2] at h
      obtain ⟨p₂, _, h₂⟩ := split_after_other _ _ _ _ h ha.1
      exact ih p₂ post h₂

theorem unescapeFrom_skip (pre rest : List Char) :
    unescapeFrom pre.length (pre ++ rest) = unescapeFrom 0 rest := by
  induction pre with
  | nil => rfl
  | cons x pre ih =>
    simp only [List.length_cons, List.cons_append]
    rw [unescapeFrom]
    exact ih

theorem unescapeFrom_escaped (l : List Char) :
    unescapeFrom 0 (l.flatMap escapeChar) = l := by
  induction l with
  | nil => rfl
  | cons a rest ih =>
    rw [List.flatMap_cons]
    rcases escapeChar_cases a with ha | ha | ha | ha | ha
    · rw [ha.2, ha.1]
      simp only [List.cons_append, List.nil_append]
      rw [unescapeFrom, if_pos (by rw [amp_data]; simp)]
      have := unescapeFrom_skip ['a', 'm', 'p', ';'] (rest.flatMap escapeChar)
      simp only [List.length_cons, List.length_nil, List.cons_append, List.nil_append] at this
      rw [this, ih]
    · rw [ha.2, ha.1]
      simp only [List.cons_append, List.nil_append]
      rw [unescapeFrom, if_neg (by rw [amp_data]; simp), if_pos (by rw [quot_data]; simp)]
      have := unescapeFrom_skip ['q', 'u', 'o', 't', ';'] (rest.flatMap escapeChar)
      simp only [List.length_cons, List.length_nil, List.cons_append, List.nil_append] at this
      rw [this, ih]
    · rw [ha.2, ha.1]
      simp only [List.cons_append, List.nil_append]
      rw [unescapeFrom, if_neg (by rw [amp_data]; simp), if_neg (by rw [quot_data]; simp),
        if_pos (by rw [lt_data]; simp)]
      have := unescapeFrom_skip ['l', 't', ';'] (rest.flatMap escapeChar)
      simp only [List.length_cons, List.length_nil, List.cons_append, List.nil_append] at this
      rw [this, ih]
    · rw [ha.2, ha.1]
      simp only [List.cons_append, List.nil_append]
      rw [unescapeFrom, if_neg (by rw [amp_data]; simp), if_neg (by rw [quot_data]; simp),
        if_neg (by rw [lt_data]; simp), if_pos (by rw [gt_data]; simp)]
      have := unescapeFrom_skip ['g', 't', ';'] (rest.flatMap escapeChar)
      simp only [List.length_cons, List.length_nil, List.cons_append, List.nil_append] at this
      rw [this, ih]
    · rw [ha.2.2.2.2]
      simp only [List.cons_append, List.nil_append]
      have hne : ¬ '&' = a := fun h => ha.1 h.symm
      rw [unescapeFrom, if_neg (by rw [amp_data]; simp [hne]),
        if_neg (by rw [quot_data]; simp [hne]), if_neg (by rw [lt_data]; simp [hne]),
        if_neg (by rw [gt_data]; simp [hne]), ih]

/-- C27: for every string `s`, `escapeHtml(s)` holds no `"`, `<` or `>`; every `&` in it
is followed by the rest of `&amp;`, `&quot;`, `&lt;` or `&gt;`; and reading the four
entities back, in one pass from left to right, gives `s` again. -/
theorem escapeHtml_neutralises (s : String) :
    (∀ c ∈ (escapeHtml s).data, c ≠ '"' ∧ c ≠ '<' ∧ c ≠ '>') ∧
    (∀ pre post, (escapeHtml s).data = pre ++ '&' :: post →
      "amp;".data <+: post ∨ "quot;".data <+: post ∨ "lt;".data <+: post ∨
        "gt;".data <+: post) ∧
    unescapeHtml (escapeHtml s) = s := by
  refine ⟨?_, ?_, ?_⟩
  · rw [escapeHtml_data]
    exact escaped_chars s.data
  · rw [escapeHtml_data]
    exact entity_follows s.data
  · unfold unescapeHtml
    rw [escapeHtml_data, unescapeFrom_escaped]

/-! ## C28: `stripHtml` -/

theorem removeTagsFrom_sublist (l : List Char) : ∀ b, (removeTagsFrom b l).Sublist l := by
  induction l with
  | nil => intro b; cases b <;> exact List.Sublist.refl _
  | cons c rest ih =>
    intro b
    cases b with
    | true =>
      rw [removeTagsFrom]
      split
      · exact List.Sublist.cons _ (ih false)
      · exact List.Sublist.cons _ (ih true)
    | false =>
      rw [removeTagsFrom]
      split
      · exact List.Sublist.cons _ (ih true)
      · exact List.Sublist.cons₂ _ (ih false)

theorem noTag_removeTagsFrom (l : List Char) : ∀ b, NoTag (removeTagsFrom b l) := by
  induction l with
  | nil => intro b; cases b <;> exact List.Pairwise.nil
  | cons c rest ih =>
    intro b
    cases b with
    | true =>
      rw [removeTagsFrom]
      split
      · exact ih false
      · exact ih true
    | false =>
      rw [removeTagsFrom]
      split
      · exact ih true
      · next hno =>
        refine List.Pairwise.cons ?_ (ih false)
        intro x hx hcx
        have hmem : x ∈ rest := (removeTagsFrom_sublist rest false).subset hx
        exact hno ⟨hcx.1, hcx.2 ▸ hmem⟩

theorem removeTagsFrom_of_noTag (l : List Char) (h : NoTag l) : removeTagsFrom false l = l := by
  induction l with
  | nil => rfl
  | cons c rest ih =>
    have hp := List.pairwise_cons.mp h
    rw [removeTagsFrom, if_neg, ih hp.2]
    rintro ⟨hc, hmem⟩
    exact hp.1 _ hmem ⟨hc, rfl⟩

theorem mem_replaceTextFrom (pattern : List Char) (w : Char) (l : List Char) :
    ∀ k x, x ∈ replaceTextFrom pattern w k l → x = w ∨ x ∈ l := by
  induction l with
  | nil =>
    intro k x hx
    cases k <;> simp [replaceTextFrom] at hx
  | cons c rest ih =>
    intro k x hx
    cases k with
    | succ k =>
      rw [replaceTextFrom] at hx
      rcases ih k x hx with h | h
      · exact Or.inl h
      · exact Or.inr (List.mem_cons_of_mem _ h)
    | zero =>
      rw [replaceTextFrom] at hx
      split at hx
      · rcases List.mem_cons.mp hx with h | h
        · exact Or.inl h
        · rcases ih _ x h with h | h
          · exact Or.inl h
          · exact Or.inr (List.mem_cons_of_mem _ h)
      · rcases List.mem_cons.mp hx with h | h
        · exact Or.inr (h ▸ List.mem_cons_self _ _)
        · rcases ih _ x h with h | h
          · exact Or.inl h
          · exact Or.inr (List.mem_cons_of_mem _ h)

theorem pairwise_replaceTextFrom (R : Char → Char → Prop) (pattern : List Char) (w : Char)
    (hw : ∀ x, R w x ∧ R x w) (l : List Char) :
    ∀ k, l.Pairwise R → (replaceTextFrom pattern w k l).Pairwise R := by
  induction l with
  | nil =>
    intro k _
    cases k <;> simp [replaceTextFrom]
  | cons c rest ih =>
    intro k h
    have hp := List.pairwise_cons.mp h
    cases k with
    | succ k =>
      rw [replaceTextFrom]
      exact ih k hp.2
    | zero =>
      rw [replaceTextFrom]
      split
      · exact List.Pairwise.cons (fun x _ => (hw x).1) (ih _ hp.2)
      · refine List.Pairwise.cons ?_ (ih _ hp.2)
        intro x hx
        rcases mem_replaceTextFrom pattern w rest _ x hx with hxw | hxm
        · rw [hxw]; exact (hw c).2
        · exact hp.1 x hxm

theorem mem_collapseFrom (l : List Char) :
    ∀ b x, x ∈ collapseFrom b l → x = ' ' ∨ (x ∈ l ∧ isJsSpace x = false) := by
  induction l with
  | nil =>
    intro b x hx
    simp [collapseFrom] at hx
  | cons c rest ih =>
    intro b x hx
    rw [collapseFrom] at hx
    split at hx
    · split at hx
      · rcases ih _ x hx with h | h
        · exact Or.inl h
        · exact Or.inr ⟨List.mem_cons_of_mem _ h.1, h.2⟩
      · rcases List.mem_cons.mp hx with h | h
        · exact Or.inl h
        · rcases ih _ x h with h | h
          · exact Or.inl h
          · exact Or.inr ⟨List.mem_cons_of_mem _ h.1, h.2⟩
    · next hc =>
      rcases List.mem_cons.mp hx with h | h
      · exact Or.inr ⟨h ▸ List.mem_cons_self _ _, by rw [h]; simpa using hc⟩
      · rcases ih _ x h with h | h
        · exact Or.inl h
        · exact Or.inr ⟨List.mem_cons_of_mem _ h.1, h.2⟩

theorem pairwise_collapseFrom (R : Char → Char → Prop) (hw : ∀ x, R ' ' x ∧ R x ' ')
    (l : List Char) : ∀ b, l.Pairwise R → (collapseFrom b l).Pairwise R := by
  induction l with
  | nil =>
    intro b _
    simp [collapseFrom]
  | cons c rest ih =>
    intro b h
    have hp := List.pairwise_cons.mp h
    rw [collapseFrom]
    split
    · split
      · exact ih _ hp.2
      · exact List.Pairwise.cons (fun x _ => (hw x).1) (ih _ hp.2)
    · refine List.Pairwise.cons ?_ (ih _ hp.2)
      intro x hx
      rcases mem_collapseFrom rest _ x hx with hxw | hxm
      · rw [hxw]; exact (hw c).2
      · exact hp.1 x hxm.1

theorem jsTrim_data (s : String) :
    (jsTrim s).data = (s.data.dropWhile isJsSpace).rdropWhile isJsSpace := rfl

theorem jsTrim_within (s : String) : (jsTrim s).data <:+: s.data := by
  rw [jsTrim_data]
  exact (List.rdropWhile_prefix isJsSpace _).isInfix.trans (List.dropWhile_suffix isJsSpace).isInfix

theorem noTag_stripHtml (s : String) : NoTag (stripHtml s).data := by
  unfold stripHtml
  refine List.Pairwise.sublist (jsTrim_within _).sublist ?_
  refine pairwise_collapseFrom _ (fun x => ⟨fun h => by simp at h, fun h => by simp at h⟩) _ _ ?_
  refine pairwise_replaceTextFrom _ _ _ (fun x => ⟨fun h => by simp at h, fun h => by simp at h⟩) _ _ ?_
  exact noTag_removeTagsFrom _ _

theorem replaceTextFrom_drop (pattern : List Char) (w : Char) (l : List Char) :
    ∀ k, replaceTextFrom pattern w k l = replaceTextFrom pattern w 0 (l.drop k) := by
  induction l with
  | nil =>
    intro k
    cases k <;> simp [replaceTextFrom]
  | cons c rest ih =>
    intro k
    cases k with
    | zero => rfl
    | succ k =>
      rw [replaceTextFrom, List.drop_succ_cons]
      exact ih k

theorem prefix_of_prefix_replaceText (pattern : List Char) (w : Char) (l : List Char) :
    ∀ q : List Char, w ∉ q → q <+: replaceTextFrom pattern w 0 l → q <+: l := by
  induction l with
  | nil =>
    intro q _ h
    simpa [replaceTextFrom] using h
  | cons c rest ih =>
    intro q hw h
    cases q with
    | nil => exact List.nil_prefix
    | cons a q' =>
      rw [replaceTextFrom] at h
      split at h
      · rw [List.cons_prefix_cons] at h
        exact absurd (h.1 ▸ List.mem_cons_self _ _) hw
      · rw [List.cons_prefix_cons] at h
        rw [List.cons_prefix_cons]
        have hq' : q' <+: replaceTextFrom pattern w 0 rest := h.2
        exact ⟨h.1, ih q' (fun hm => hw (List.mem_cons_of_mem _ hm)) hq'⟩

theorem not_prefix_replaceText (pattern : List Char) (w : Char) (hw : w ∉ pattern)
    (hne : pattern ≠ []) (l : List Char) (k : Nat) :
    ¬ pattern <+: replaceTextFrom pattern w k l := by
  rw [replaceTextFrom_drop]
  intro h
  have hl := prefix_of_prefix_replaceText pattern w _ pattern hw h
  cases hd : l.drop k with
  | nil =>
    rw [hd] at hl
    exact hne (List.prefix_nil.mp hl)
  | cons c rest =>
    rw [hd] at h hl
    rw [replaceTextFrom, if_pos hl] at h
    cases pattern with
    | nil => exact hne rfl
    | cons a p' =>
      rw [List.cons_prefix_cons] at h
      exact hw (h.1 ▸ List.mem_cons_self _ _)

theorem not_infix_replaceText (pattern : List Char) (w : Char) (hw : w ∉ pattern)
    (hne : pattern ≠ []) (l : List Char) :
    ∀ k, ¬ pattern <:+: replaceTextFrom pattern w k l := by
  induction l with
  | nil =>
    intro k h
    have : replaceTextFrom pattern w k [] = [] := by cases k <;> rfl
    rw [this] at h
    exact hne (List.infix_nil.mp h)
  | cons c rest ih =>
    intro k h
    cases k with
    | succ k =>
      rw [replaceTextFrom] at h
      exact ih k h
    | zero =>
      have hpre := not_prefix_replaceText pattern w hw hne (c :: rest) 0
      rw [replaceTextFrom] at h hpre
      split at h
      · next hp =>
        rw [if_pos hp] at hpre
        rcases List.infix_cons_iff.mp h with h | h
        · exact hpre h
        · exact ih _ h
      · next hp =>
        rw [if_neg hp] at hpre
        rcases List.infix_cons_iff.mp h with h | h
        · exact hpre h
        · exact ih _ h

theorem replaceTextFrom_unchanged (pattern : List Char) (w : Char) (l : List Char)
    (h : ¬ pattern <:+: l) : replaceTextFrom pattern w 0 l = l := by
  induction l with
  | nil => rfl
  | cons c rest ih =>
    have hp : ¬ pattern <+: c :: rest := fun hp => h hp.isInfix
    have hrest : ¬ pattern <:+: rest := fun hr => h (List.infix_cons_iff.mpr (Or.inr hr))
    rw [replaceTextFrom, if_neg hp, ih hrest]

theorem prefix_of_prefix_collapse (q : List Char) (hq : ∀ x ∈ q, isJsSpace x = false) :
    ∀ (l : List Char) (b : Bool) (c : Char), isJsSpace c = false →
      q <+: collapseFrom b (c :: l) → q <+: c :: l := by
  induction q with
  | nil => intro l b c _ _; exact List.nil_prefix
  | cons a q' ih =>
    intro l b c hc h
    rw [collapseFrom, if_neg (by simp [hc])] at h
    rw [List.cons_prefix_cons] at h ⊢
    refine ⟨h.1, ?_⟩
    cases q' with
    | nil => exact List.nil_prefix
    | cons a' q'' =>
      have ha' : isJsSpace a' = false := hq a' (by simp)
      cases l with
      | nil =>
        have h2 := h.2
        simp [collapseFrom] at h2
      | cons c' l' =>
        by_cases hc' : isJsSpace c' = true
        · have h2 := h.2
          rw [collapseFrom, if_pos hc'] at h2
          simp only [Bool.false_eq_true, if_false, List.cons_prefix_cons] at h2
          rw [h2.1] at ha'
          exact absurd ha' (by decide)
        · simp only [Bool.not_eq_true] at hc'
          exact ih (fun x hx => hq x (List.mem_cons_of_mem _ hx)) l' false c' hc' h.2

theorem infix_of_infix_collapse (q : List Char) (hq : ∀ x ∈ q, isJsSpace x = false)
    (hne : q ≠ []) (l : List Char) :
    ∀ b, q <:+: collapseFrom b l → q <:+: l := by
  induction l with
  | nil =>
    intro b h
    simpa [collapseFrom] using h
  | cons c rest ih =>
    intro b h
    by_cases hc : isJsSpace c = true
    · rw [collapseFrom, if_pos hc] at h
      split at h
      · exact List.infix_cons_iff.mpr (Or.inr (ih _ h))
      · rcases List.infix_cons_iff.mp h with hp | hi
        · cases q with
          | nil => exact absurd rfl hne
          | cons a q' =>
            rw [List.cons_prefix_cons] at hp
            have := hq a (by simp)
            rw [hp.1] at this
            exact absurd this (by decide)
        · exact List.infix_cons_iff.mpr (Or.inr (ih _ hi))
    · simp only [Bool.not_eq_true] at hc
      have hfull := h
      rw [collapseFrom, if_neg (by simp [hc])] at h
      rcases List.infix_cons_iff.mp h with hp | hi
      · have hp' : q <+: collapseFrom b (c :: rest) := by
          rw [collapseFrom, if_neg (by simp [hc])]
          exact hp
        exact (prefix_of_prefix_collapse q hq rest b c hc hp').isInfix
      · exact List.infix_cons_iff.mpr (Or.inr (ih _ hi))

theorem no_nbsp_stripHtml (s : String) : ¬ "&nbsp;".data <:+: (stripHtml s).data := by
  intro h
  have h1 : "&nbsp;".data <:+: collapseFrom false
      (replaceTextFrom "&nbsp;".data ' ' 0 (removeTagsFrom false s.data)) :=
    h.trans (jsTrim_within _)
  have h2 := infix_of_infix_collapse "&nbsp;".data (by decide) (by decide) _ _ h1
  exact not_infix_replaceText "&nbsp;".data ' ' (by decide) (by decide) _ _ h2

theorem collapseFrom_chain (l : List Char) :
    ∀ b, NoDoubleSpace (collapseFrom b l) ∧
      ∀ x, (collapseFrom true l).head? = some x → isJsSpace x = false := by
  induction l with
  | nil =>
    intro b
    exact ⟨by simp [collapseFrom, NoDoubleSpace], by simp [collapseFrom]⟩
  | cons c rest ih =>
    intro b
    by_cases hc : isJsSpace c = true
    · constructor
      · rw [collapseFrom, if_pos hc]
        split
        · exact (ih true).1
        · refine List.Chain'.cons' (ih true).1 ?_
          intro y hy hboth
          have := (ih true).2 y hy
          rw [hboth.2] at this
          exact absurd this (by decide)
      · intro x hx
        rw [collapseFrom, if_pos hc] at hx
        simp only [if_true] at hx
        exact (ih true).2 x hx
    · simp only [Bool.not_eq_true] at hc
      constructor
      · rw [collapseFrom, if_neg (by simp [hc])]
        refine List.Chain'.cons' (ih false).1 ?_
        intro y _ hboth
        rw [hc] at hboth
        exact absurd hboth.1 (by decide)
      · intro x hx
        rw [collapseFrom, if_neg (by simp [hc])] at hx
        simp only [List.head?_cons, Option.some.injEq] at hx
        rw [← hx]
        exact hc

theorem collapseFrom_fixed (l : List Char) :
    NoDoubleSpace l → (∀ x ∈ l, isJsSpace x = true → x = ' ') →
      collapseFrom false l = l ∧
        ((∀ c, l.head? = some c → isJsSpace c = false) → collapseFrom true l = l) := by
  induction l with
  | nil => intro _ _; exact ⟨rfl, fun _ => rfl⟩
  | cons c rest ih =>
    intro hchain hblank
    have hrest := ih (List.Chain'.tail hchain)
      (fun x hx => hblank x (List.mem_cons_of_mem _ hx))
    by_cases hc : isJsSpace c = true
    · have hcb : c = ' ' := hblank c (List.mem_cons_self _ _) hc
      constructor
      · rw [collapseFrom, if_pos hc]
        simp only [Bool.false_eq_true, if_false]
        have hhead : ∀ y, rest.head? = some y → isJsSpace y = false := by
          intro y hy
          have := (List.chain'_cons'.mp hchain).1 y hy
          by_contra hys
          simp only [Bool.not_eq_false] at hys
          exact this ⟨hc, hys⟩
        rw [hrest.2 hhead, hcb]
      · intro hhead
        have := hhead c rfl
        rw [hc] at this
        exact absurd this (by decide)
    · simp only [Bool.not_eq_true] at hc
      constructor
      · rw [collapseFrom, if_neg (by simp [hc]), hrest.1]
      · intro _
        rw [collapseFrom, if_neg (by simp [hc]), hrest.1]

theorem jsTrim_head (s : String) :
    ∀ c, (jsTrim s).data.head? = some c → isJsSpace c = false := by
  intro c hc
  rw [jsTrim_data] at hc
  obtain ⟨ys, hys⟩ := List.head?_eq_some_iff.mp hc
  obtain ⟨t, ht⟩ := List.rdropWhile_prefix isJsSpace (s.data.dropWhile isJsSpace)
  have h := List.head?_dropWhile_not isJsSpace s.data
  rw [← ht, hys] at h
  simpa using h

theorem jsTrim_last (s : String) :
    ∀ c, (jsTrim s).data.getLast? = some c → isJsSpace c = false := by
  intro c hc
  rw [jsTrim_data] at hc
  have hne : (s.data.dropWhile isJsSpace).rdropWhile isJsSpace ≠ [] := by
    intro h
    rw [h] at hc
    simp at hc
  have h := List.rdropWhile_last_not isJsSpace (s.data.dropWhile isJsSpace) hne
  rw [List.getLast?_eq_getLast _ hne] at hc
  rw [← Option.some.inj hc]
  simpa using h

theorem jsTrim_fixed (l : List Char) (hhead : ∀ c, l.head? = some c → isJsSpace c = false)
    (hlast : ∀ c, l.getLast? = some c → isJsSpace c = false) :
    jsTrim (String.mk l) = String.mk l := by
  have h1 : l.dropWhile isJsSpace = l := by
    cases l with
    | nil => rfl
    | cons c rest =>
      exact List.dropWhile_cons_of_neg (by simp [hhead c rfl])
  have h2 : l.rdropWhile isJsSpace = l := by
    rw [List.rdropWhile_eq_self_iff]
    intro hl
    have := hlast _ (List.getLast?_eq_getLast l hl)
    simp [this]
  show String.mk ((l.dropWhile isJsSpace).rdropWhile isJsSpace) = String.mk l
  rw [h1, h2]

theorem noDoubleSpace_stripHtml (s : String) : NoDoubleSpace (stripHtml s).data :=
  List.Chain'.infix (collapseFrom_chain _ false).1 (jsTrim_within _)

theorem blank_only_stripHtml (s : String) :
    ∀ x ∈ (stripHtml s).data, isJsSpace x = true → x = ' ' := by
  intro x hx hs
  have hmem := (jsTrim_within _).subset hx
  rcases mem_collapseFrom _ _ x hmem with h | h
  · exact h
  · rw [h.2] at hs
    exact absurd hs (by decide)

/-- C28: for every string `s`, in `stripHtml(s)` no `<` has a `>` anywhere after it,
`&nbsp;` does not occur, the first and the last character are not white space, no two
neighbours are both white space, and `stripHtml` applied once more changes nothing. -/
theorem stripHtml_normalises (s : String) :
    NoTag (stripHtml s).data ∧
    ¬ "&nbsp;".data <:+: (stripHtml s).data ∧
    (∀ c, (stripHtml s).data.head? = some c → isJsSpace c = false) ∧
    (∀ c, (stripHtml s).data.getLast? = some c → isJsSpace c = false) ∧
    NoDoubleSpace (stripHtml s).data ∧
    stripHtml (stripHtml s) = stripHtml s := by
  refine ⟨noTag_stripHtml s, no_nbsp_stripHtml s, jsTrim_head _, jsTrim_last _,
    noDoubleSpace_stripHtml s, ?_⟩
  have h1 := removeTagsFrom_of_noTag _ (noTag_stripHtml s)
  have h2 := replaceTextFrom_unchanged "&nbsp;".data ' ' _ (no_nbsp_stripHtml s)
  have h3 := (collapseFrom_fixed _ (noDoubleSpace_stripHtml s) (blank_only_stripHtml s)).1
  have h4 : jsTrim (String.mk (stripHtml s).data) = String.mk (stripHtml s).data :=
    jsTrim_fixed _ (jsTrim_head _) (jsTrim_last _)
  show jsTrim (String.mk (collapseFrom false (replaceTextFrom "&nbsp;".data ' ' 0
    (removeTagsFrom false (stripHtml s).data)))) = stripHtml s
  rw [h1, h2, h3, h4]

/-! ## C29: the counts of the bulk route -/

theorem countStatus_append (status : String) (a b : List TestInput) :
    countStatus status (a ++ b) = countStatus status a + countStatus status b := by
  simp [countStatus, List.filter_append]

theorem countStatus_submitted (status : String) (suites : List SuiteInput) :
    countStatus status (suites.flatMap (fun suite => suite.tests.getD [])) =
      (suites.map (fun suite => countStatus status (suite.tests.getD []))).sum := by
  induction suites with
  | nil => rfl
  | cons suite rest ih =>
    rw [List.flatMap_cons, countStatus_append, ih, List.map_cons, List.sum_cons]

theorem length_submitted (suites : List SuiteInput) :
    (suites.flatMap (fun suite => suite.tests.getD [])).length =
      (suites.map (fun suite => (suite.tests.getD []).length)).sum := by
  induction suites with
  | nil => rfl
  | cons suite rest ih =>
    rw [List.flatMap_cons, List.length_append, ih, List.map_cons, List.sum_cons]

theorem counts_le_length (tests : List TestInput) :
    countStatus "passed" tests + countStatus "failed" tests + countStatus "skipped" tests ≤
      tests.length := by
  induction tests with
  | nil => simp [countStatus]
  | cons test rest ih =>
    have h : ∀ status, countStatus status (test :: rest) =
        (if test.status = some status then 1 else 0) + countStatus status rest := by
      intro status
      unfold countStatus
      by_cases hs : test.status = some status
      · simp [List.filter_cons, hs]; omega
      · simp [List.filter_cons, hs]
    rw [h, h, h, List.length_cons]
    by_cases h1 : test.status = some "passed"
    · have h2 : test.status ≠ some "failed" := by rw [h1]; decide
      have h3 : test.status ≠ some "skipped" := by rw [h1]; decide
      rw [if_pos h1, if_neg h2, if_neg h3]
      omega
    · by_cases h2 : test.status = some "failed"
      · have h3 : test.status ≠ some "skipped" := by rw [h2]; decide
        rw [if_neg h1, if_pos h2, if_neg h3]
        omega
      · by_cases h3 : test.status = some "skipped"
        · rw [if_neg h1, if_neg h2, if_pos h3]
          omega
        · rw [if_neg h1, if_neg h2, if_neg h3]
          omega

theorem countStatus_pos_iff (status : String) (tests : List TestInput) :
    0 < countStatus status tests ↔ ∃ test ∈ tests, test.status = some status := by
  unfold countStatus
  rw [List.length_pos_iff_exists_mem]
  constructor
  · rintro ⟨test, h⟩
    rw [List.mem_filter] at h
    exact ⟨test, h.1, by simpa using h.2⟩
  · rintro ⟨test, hm, hs⟩
    exact ⟨test, List.mem_filter.mpr ⟨hm, by simpa using hs⟩⟩

theorem insertedRun_eq (req : Request) (suites : List SuiteInput) (t : Tables) :
    (insertedRun req suites t).total_tests = (submittedTests suites).length ∧
    (insertedRun req suites t).passed_tests = countStatus "passed" (submittedTests suites) ∧
    (insertedRun req suites t).failed_tests = countStatus "failed" (submittedTests suites) ∧
    (insertedRun req suites t).skipped_tests = countStatus "skipped" (submittedTests suites) ∧
    (insertedRun req suites t).status =
      if countStatus "failed" (submittedTests suites) > 0 then "failed" else "completed" := by
  simp [insertedRun, insertBulkRun, submittedTests]

theorem insertedSuite_eq (runId : Int) (suite : SuiteInput) (t : Tables) :
    (insertedSuite runId suite t).total_tests = (suite.tests.getD []).length ∧
    (insertedSuite runId suite t).passed_tests = countStatus "passed" (suite.tests.getD []) ∧
    (insertedSuite runId suite t).failed_tests = countStatus "failed" (suite.tests.getD []) ∧
    (insertedSuite runId suite t).skipped_tests =
      countStatus "skipped" (suite.tests.getD []) ∧
    (insertedSuite runId suite t).status =
      if countStatus "failed" (suite.tests.getD []) > 0 then "failed" else "passed" := by
  simp [insertedSuite, insertBulkSuite]

/-- C29: the counts of the bulk route are consistent, for every `suites` array.  With
`run` the row inserted into `test_runs` and, for each suite, the row inserted into
`test_suites` (whatever the tables are at that moment): the total, passed, failed and
skipped counts of the run are the sums of those of the suites; passed + failed + skipped
is at most the total, for the run and for each suite; the status of the run is `failed`
exactly when the status of some suite is `failed`, and `completed` otherwise; the status
of a suite is `failed` exactly when one of its tests has the status `failed`, and
`passed` otherwise. -/
theorem bulk_counts_consistent (req : Request) (suites : List SuiteInput) (t : Tables)
    (runId : Int) (ts : SuiteInput → Tables) :
    (insertedRun req suites t).total_tests =
      (suites.map (fun s => (insertedSuite runId s (ts s)).total_tests)).sum ∧
    (insertedRun req suites t).passed_tests =
      (suites.map (fun s => (insertedSuite runId s (ts s)).passed_tests)).sum ∧
    (insertedRun req suites t).failed_tests =
      (suites.map (fun s => (insertedSuite runId s (ts s)).failed_tests)).sum ∧
    (insertedRun req suites t).skipped_tests =
      (suites.map (fun s => (insertedSuite runId s (ts s)).skipped_tests)).sum ∧
    (insertedRun req suites t).passed_tests + (insertedRun req suites t).failed_tests +
        (insertedRun req suites t).skipped_tests ≤ (insertedRun req suites t).total_tests ∧
    (∀ s, (insertedSuite runId s (ts s)).passed_tests +
        (insertedSuite runId s (ts s)).failed_tests +
        (insertedSuite runId s (ts s)).skipped_tests ≤
          (insertedSuite runId s (ts s)).total_tests) ∧
    ((insertedRun req suites t).status = "failed" ↔
      ∃ s ∈ suites, (insertedSuite runId s (ts s)).status = "failed") ∧
    ((insertedRun req suites t).status ≠ "failed" →
      (insertedRun req suites t).status = "completed") ∧
    (∀ s, ((insertedSuite runId s (ts s)).status = "failed" ↔
        ∃ test ∈ s.tests.getD [], test.status = some "failed") ∧
      ((insertedSuite runId s (ts s)).status ≠ "failed" →
        (insertedSuite runId s (ts s)).status = "passed")) := by
  obtain ⟨r1, r2, r3, r4, r5⟩ := insertedRun_eq req suites t
  have hs := fun s => insertedSuite_eq runId s (ts s)
  have hsuite : ∀ s, ((insertedSuite runId s (ts s)).status = "failed" ↔
      ∃ test ∈ s.tests.getD [], test.status = some "failed") := by
    intro s
    rw [(hs s).2.2.2.2, ← countStatus_pos_iff]
    by_cases hpos : countStatus "failed" (s.tests.getD []) > 0
    · simp [hpos]
    · simp only [hpos, if_false, gt_iff_lt] at hpos ⊢
      constructor
      · intro h; exact absurd h (by decide)
      · intro h; exact absurd h hpos
  refine ⟨?_, ?_, ?_, ?_, ?_, ?_, ?_, ?_, ?_⟩
  · rw [r1]
    simp only [(hs _).1]
    exact length_submitted suites
  · rw [r2]
    simp only [(hs _).2.1]
    exact countStatus_submitted _ suites
  · rw [r3]
    simp only [(hs _).2.2.1]
    exact countStatus_submitted _ suites
  · rw [r4]
    simp only [(hs _).2.2.2.1]
    exact countStatus_submitted _ suites
  · rw [r1, r2, r3, r4]
    exact counts_le_length _
  · intro s
    rw [(hs s).1, (hs s).2.1, (hs s).2.2.1, (hs s).2.2.2.1]
    exact counts_le_length _
  · rw [r5]
    have hiff : 0 < countStatus "failed" (submittedTests suites) ↔
        ∃ s ∈ suites, (insertedSuite runId s (ts s)).status = "failed" := by
      rw [countStatus_pos_iff]
      constructor
      · rintro ⟨test, hm, hst⟩
        unfold submittedTests at hm
        rw [List.mem_flatMap] at hm
        obtain ⟨s, hsm, htm⟩ := hm
        exact ⟨s, hsm, (hsuite s).mpr ⟨test, htm, hst⟩⟩
      · rintro ⟨s, hsm, hst⟩
        obtain ⟨test, htm, hts⟩ := (hsuite s).mp hst
        exact ⟨test, List.mem_flatMap.mpr ⟨s, hsm, htm⟩, hts⟩
    rw [← hiff]
    by_cases hpos : countStatus "failed" (submittedTests suites) > 0
    · simp [hpos]
    · simp only [hpos, if_false, gt_iff_lt] at hpos ⊢
      constructor
      · intro h; exact absurd h (by decide)
      · intro h; exact absurd h hpos
  · rw [r5]
    by_cases hpos : countStatus "failed" (submittedTests suites) > 0
    · simp [hpos]
    · simp [hpos]
  · intro s
    refine ⟨hsuite s, ?_⟩
    rw [(hs s).2.2.2.2]
    by_cases hpos : countStatus "failed" (s.tests.getD []) > 0
    · simp [hpos]
    · simp [hpos]
/-! ## C23 and C26: the packed entries -/

/-- C23 (failing input): at one column the first block is saved at row `2^53` with
height 1.  The sum `2^53 + 1` of the two doubles is `2^53`, the column is seeded with
it, and the entry of the second block is packed at `y = 2^53`: the packed entry and the
saved entry both occupy the cell `(0, 2^53)`. -/
theorem packed_entry_on_saved_entry :
    savedItems edgeStore 1 = [⟨"1", 0, JSNum.fin 9007199254740992, 1, 1⟩] ∧
    unsavedItems edgeStore 1 = [⟨"2", 0, JSNum.fin 9007199254740992, 1, 1⟩] ∧
    ¬ (∀ u ∈ unsavedItems edgeStore 1, ∀ a ∈ savedItems edgeStore 1, NoOverlap u a) := by
  have hs : savedItems edgeStore 1 = [⟨"1", 0, JSNum.fin 9007199254740992, 1, 1⟩] := by
    decide
  have hu : unsavedItems edgeStore 1 = [⟨"2", 0, JSNum.fin 9007199254740992, 1, 1⟩] := by
    decide!
  refine ⟨hs, hu, ?_⟩
  intro h
  rw [hs, hu] at h
  exact h _ (List.mem_singleton_self _) _ (List.mem_singleton_self _) 0 9007199254740992
    (by decide)

/-- Where the sums are exact, the greedy packing keeps the packed entries clear of
everything else.  When the rows stay among the integers that a double holds exactly (the
bottom edge of every saved entry lies between `-2^53` and `top`, and `top` plus the
heights of the blocks without a saved position is at most `2^53`), the layout is the
saved entries followed by the packed entries; each packed entry shares no grid cell with
any saved entry, and no two packed entries share a grid cell. -/
theorem packed_entries_disjoint (st : State) (colCount : Nat) (top : Nat)
    (hrows : ExactRows st colCount top) :
    getLayoutForColCount st colCount =
      savedItems st colCount ++ unsavedItems st colCount ∧
    (∀ u ∈ unsavedItems st colCount, ∀ a ∈ savedItems st colCount,
      NoOverlap u a ∧ NoOverlap a u) ∧
    (unsavedItems st colCount).Pairwise (fun u v => NoOverlap u v ∧ NoOverlap v u) := by
  refine ⟨layout_eq_append st colCount, ?_, ?_⟩
  · intro u hu a ha
    have h := stacked_noOverlap ((layout_stacked st colCount top hrows).1 a ha u hu)
    exact ⟨noOverlap_symm h, h⟩
  · refine (layout_stacked st colCount top hrows).2.imp ?_
    intro u v h
    exact ⟨stacked_noOverlap h, noOverlap_symm (stacked_noOverlap h)⟩

/-- The packed entries of the sample store at three columns, whose saved entry ends at
row 2 and whose three other blocks are 3 rows high together, are clear of the saved
entry and of each other. -/
theorem packed_entries_disjoint_witness :
    ExactRows sampleStore 3 2 ∧
    getLayoutForColCount sampleStore 3 =
      savedItems sampleStore 3 ++ unsavedItems sampleStore 3 ∧
    (∀ u ∈ unsavedItems sampleStore 3, ∀ a ∈ savedItems sampleStore 3,
      NoOverlap u a ∧ NoOverlap a u) ∧
    (unsavedItems sampleStore 3).Pairwise (fun u v => NoOverlap u v ∧ NoOverlap v u) :=
  ⟨by decide, packed_entries_disjoint sampleStore 3 2 (by decide)⟩

theorem finiteNonneg_iff (v : JSNum) : v.FiniteNonneg ↔ ∃ n : Int, 0 ≤ n ∧ v = JSNum.fin n := by
  cases v with
  | negInf => simp [JSNum.FiniteNonneg]
  | fin n => simp [JSNum.FiniteNonneg]
  | posInf => simp [JSNum.FiniteNonneg]

theorem finiteNonneg_addExact (v : JSNum) (h : Nat) (hv : v.FiniteNonneg) :
    (JSNum.addExact v h).FiniteNonneg := by
  cases v with
  | negInf => exact hv
  | fin n =>
    simp only [JSNum.addExact, JSNum.FiniteNonneg] at hv ⊢
    omega
  | posInf => exact hv

theorem finiteNonneg_max (a b : JSNum) (ha : a.FiniteNonneg) (hb : b.FiniteNonneg) :
    (max a b).FiniteNonneg := by
  rcases max_choice a b with h | h <;> rw [h] <;> assumption

theorem allFinite_seedItem (hs : List JSNum) (item : Item) (hfin : AllFinite hs)
    (hy : item.y.FiniteNonneg)
    (hexact : JSNum.addNat item.y item.h = JSNum.addExact item.y item.h) :
    AllFinite (seedItem hs item) := by
  intro j v hv
  rw [getElem?_seedItem, hexact] at hv
  split at hv
  · cases hj : hs[j]? with
    | none => rw [hj] at hv; simp at hv
    | some old =>
      rw [hj] at hv
      simp only [Option.map_some', Option.some.injEq] at hv
      rw [← hv]
      exact finiteNonneg_max _ _ (hfin j old hj) (finiteNonneg_addExact _ _ hy)
  · exact hfin j v hv

theorem allFinite_seedHeights (colCount : Nat) (saved : List Item)
    (hsaved : ∀ it ∈ saved, it.y.FiniteNonneg)
    (hexact : ∀ it ∈ saved, JSNum.addNat it.y it.h = JSNum.addExact it.y it.h) :
    AllFinite (seedHeights colCount saved) := by
  unfold seedHeights
  have hgen : ∀ (l : List Item) (hs : List JSNum), AllFinite hs →
      (∀ it ∈ l, it.y.FiniteNonneg) →
      (∀ it ∈ l, JSNum.addNat it.y it.h = JSNum.addExact it.y it.h) →
      AllFinite (l.foldl seedItem hs) := by
    intro l
    induction l with
    | nil => intro hs h _ _; exact h
    | cons it rest ih =>
      intro hs h hl he
      rw [List.foldl_cons]
      exact ih _
        (allFinite_seedItem hs it h (hl it (List.mem_cons_self _ _))
          (he it (List.mem_cons_self _ _)))
        (fun it' h' => hl it' (List.mem_cons_of_mem _ h'))
        (fun it' h' => he it' (List.mem_cons_of_mem _ h'))
  refine hgen saved _ ?_ hsaved hexact
  intro j v hv
  rw [List.getElem?_replicate] at hv
  split at hv
  · rw [← Option.some.inj hv]
    exact le_refl (0 : Int)
  · exact absurd hv (by simp)

theorem finiteNonneg_windowMax (hs : List JSNum) (x w : Nat) (hfin : AllFinite hs)
    (hx : x + w ≤ hs.length) (hw : 1 ≤ w) : (windowMax hs x w).FiniteNonneg := by
  have hxl : x < hs.length := by omega
  have hmem : hs[x] ∈ (hs.drop x).take w :=
    (mem_window hs x w _).mpr ⟨x, le_refl x, by omega, List.getElem?_eq_getElem hxl⟩
  have hfx : (hs[x]).FiniteNonneg := hfin x _ (List.getElem?_eq_getElem hxl)
  have hle : hs[x] ≤ windowMax hs x w := (foldl_max_bounds _ JSNum.negInf).2 _ hmem
  rcases foldl_max_mem ((hs.drop x).take w) JSNum.negInf with h | h
  · have hneg : windowMax hs x w = JSNum.negInf := h
    rw [hneg] at hle
    cases hv : hs[x] with
    | negInf => rw [hv] at hfx; exact absurd hfx not_false
    | fin n => rw [hv] at hle; exact absurd hle not_false
    | posInf => rw [hv] at hfx; exact absurd hfx not_false
  · obtain ⟨col, _, _, hcol⟩ := (mem_window hs x w _).mp h
    exact hfin col _ hcol

theorem placeBlock_finite (colCount : Nat) (hs : List JSNum) (b : Block)
    (hfin : AllFinite hs) (hlen : hs.length = colCount) (hc : 1 ≤ colCount) (hw : 1 ≤ b.w)
    (hexact : JSNum.addNat (placeBlock colCount hs b).1.y (placeBlock colCount hs b).1.h =
      JSNum.addExact (placeBlock colCount hs b).1.y (placeBlock colCount hs b).1.h) :
    (placeBlock colCount hs b).1.x + (placeBlock colCount hs b).1.w ≤ colCount ∧
    1 ≤ (placeBlock colCount hs b).1.w ∧
    (placeBlock colCount hs b).1.y.FiniteNonneg ∧
    AllFinite (placeBlock colCount hs b).2 := by
  have hin := placeBlock_inside colCount hs b
  have hw' : 1 ≤ (placeBlock colCount hs b).1.w := by
    rw [placeBlock_fst]
    exact le_min hw hc
  have hy : (placeBlock colCount hs b).1.y.FiniteNonneg := by
    rw [placeBlock_y]
    exact finiteNonneg_windowMax hs _ _ hfin (by rw [hlen]; exact hin) hw'
  refine ⟨hin, hw', hy, ?_⟩
  intro j v hv
  rw [placeBlock_snd, hexact, getElem?_setRange] at hv
  split at hv
  · cases hj : hs[j]? with
    | none => rw [hj] at hv; simp at hv
    | some old =>
      rw [hj] at hv
      simp only [Option.map_some', Option.some.injEq] at hv
      rw [← hv]
      exact finiteNonneg_addExact _ _ hy
  · exact hfin j v hv

theorem packAll_finite (colCount : Nat) (hc : 1 ≤ colCount) (bs : List Block) :
    ∀ (hs : List JSNum) (top : Int), AllFinite hs → hs.length = colCount →
      HeightsUpTo top hs → top + ((bs.map Block.h).sum : Nat) ≤ 2 ^ 53 →
      (∀ b ∈ bs, 1 ≤ b.w) →
      ∀ u ∈ (packAll colCount hs bs).1,
        u.x + u.w ≤ colCount ∧ 1 ≤ u.w ∧ u.y.FiniteNonneg := by
  induction bs with
  | nil =>
    intro hs _ _ _ _ _ _ u hu
    simp [packAll] at hu
  | cons b rest ih =>
    intro hs top hfin hlen hh htop hw u hu
    simp only [List.map_cons, List.sum_cons, Nat.cast_add] at htop
    have hrest : (0 : Int) ≤ ((rest.map Block.h).sum : Nat) := Int.ofNat_nonneg _
    obtain ⟨hexact, hh'⟩ := placeBlock_exact colCount hs b top hh (by omega)
    have hp := placeBlock_finite colCount hs b hfin hlen hc (hw b (List.mem_cons_self _ _))
      hexact
    simp only [packAll, List.mem_cons] at hu
    rcases hu with hu | hu
    · rw [hu]
      exact ⟨hp.1, hp.2.1, hp.2.2.1⟩
    · exact ih _ (top + b.h) hp.2.2.2 (by rw [length_placeBlock, hlen]) hh' (by omega)
        (fun b' hb' => hw b' (List.mem_cons_of_mem _ hb')) u hu

/-- C26 (counterexample): at one column the first block is saved at row `maxDouble`, the
largest double, with height `maxDouble`.  The `y` of the saved entry is a finite integer
that is not negative and both blocks are one column wide, but the sum of the two doubles
is `Infinity`, the column is seeded with it, and the entry of the second block is packed
at `y = Infinity`. -/
theorem packed_entry_at_infinity :
    (1 ≤ 1 ∧ ∀ b ∈ overflowStore.blocks, 1 ≤ b.w) ∧
    savedItems overflowStore 1 = [⟨"1", 0, JSNum.fin maxDouble, 1, maxDouble⟩] ∧
    (JSNum.fin maxDouble).FiniteNonneg ∧
    unsavedItems overflowStore 1 = [⟨"2", 0, JSNum.posInf, 1, 1⟩] ∧
    ¬ (∀ u ∈ unsavedItems overflowStore 1, ∃ n : Int, 0 ≤ n ∧ u.y = JSNum.fin n) := by
  have hu : unsavedItems overflowStore 1 = [⟨"2", 0, JSNum.posInf, 1, 1⟩] := by decide!
  refine ⟨⟨le_refl _, by decide⟩, by decide!, by decide!, hu, ?_⟩
  intro h
  rw [hu] at h
  obtain ⟨n, _, hn⟩ := h _ (List.mem_singleton_self _)
  exact absurd hn (by simp)

/-- C26 (amended): packed entries stay inside the grid.  For every column count `c` of
at least one, when every block without a saved position at `c` is at least one column
wide, the `y` of every saved entry at `c` is a finite integer that is not negative, and
the rows stay among the integers that a double holds exactly (the bottom edge of every
saved entry is at most `top`, and `top` plus the heights of the blocks without a saved
position is at most `2^53`), every packed entry has `0 <= x`, `x + w <= c`, a width of at
least one, and a `y` that is a finite integer and not negative. -/
theorem packed_entries_inside (st : State) (colCount : Nat) (top : Nat) (hc : 1 ≤ colCount)
    (hw : ∀ b ∈ st.blocks, savedAt st b colCount = none → 1 ≤ b.w)
    (hsaved : ∀ it ∈ savedItems st colCount, it.y.FiniteNonneg)
    (hrows : ExactRows st colCount top) :
    ∀ u ∈ unsavedItems st colCount,
      0 ≤ u.x ∧ u.x + u.w ≤ colCount ∧ 1 ≤ u.w ∧ ∃ n : Int, 0 ≤ n ∧ u.y = JSNum.fin n := by
  intro u hu
  have hexact := (exactRows_saved st colCount top hrows).2
  have h := packAll_finite colCount hc (sortBlocks (unsavedBlocks st colCount))
    (seedHeights colCount (savedItems st colCount)) (top : Int)
    (allFinite_seedHeights colCount _ hsaved hexact) (length_seedHeights colCount _)
    (heightsUpTo_seedHeights colCount _ top (Int.ofNat_nonneg _) hrows.1 hexact)
    (exactRows_sorted st colCount top hrows)
    (fun b hb => hw b (mem_sorted_unsaved.mp hb).1 (mem_sorted_unsaved.mp hb).2) u hu
  exact ⟨Nat.zero_le _, h.1, h.2.1, (finiteNonneg_iff _).mp h.2.2⟩

/-- The sample store at three columns satisfies the four conditions, and its packed
entry of block 3 lies inside the grid. -/
theorem packed_entries_inside_witness :
    1 ≤ 3 ∧
    (∀ b ∈ sampleStore.blocks, savedAt sampleStore b 3 = none → 1 ≤ b.w) ∧
    (∀ it ∈ savedItems sampleStore 3, it.y.FiniteNonneg) ∧
    ExactRows sampleStore 3 2 ∧
    ({ i := "3", x := 0, y := JSNum.fin 3, w := 3, h := 1 } : Item) ∈
      unsavedItems sampleStore 3 ∧
    (0 ≤ 0 ∧ 0 + 3 ≤ 3 ∧ 1 ≤ 3 ∧ ∃ n : Int, 0 ≤ n ∧ JSNum.fin 3 = JSNum.fin n) :=
  ⟨by decide, by decide, by decide, by decide, by decide,
    packed_entries_inside sampleStore 3 2 (by decide) (by decide) (by decide) (by decide)
      { i := "3", x := 0, y := JSNum.fin 3, w := 3, h := 1 } (by decide)⟩

/-! ## Triples on the tables -/

theorem faultsOnlyIf_true (o : Oracle) : FaultsOnlyIf True o := fun _ _ _ => trivial

theorem faultsOnlyIf_false (o : Oracle) (h : ∀ k, o.fault k = none) : FaultsOnlyIf False o := by
  intro k e he
  rw [h k] at he
  exact absurd he (by simp)

theorem tripleOn_pure {α : Type} (faulty : Prop) (pre : Tables → Prop) (a : α)
    (post : α → Tables → Prop) (fail : Tables → Prop) (h : ∀ t, pre t → post a t) :
    TripleOn faulty pre (pure a : Run α) post fail := by
  intro o w _ hpre
  constructor
  · intro b hb
    have hab : a = b := Except.ok.inj hb
    subst hab
    exact h _ hpre
  · intro e he
    exact absurd he (by simp [pure, Run.pure])

theorem tripleOn_bind {α β : Type} (faulty : Prop) (pre : Tables → Prop) (m : Run α)
    (f : α → Run β) (mid : α → Tables → Prop) (post : β → Tables → Prop)
    (fail : Tables → Prop) (hm : TripleOn faulty pre m mid fail)
    (hf : ∀ a, TripleOn faulty (mid a) (f a) post fail) :
    TripleOn faulty pre (m >>= f) post fail := by
  intro o w ho hpre
  have h := hm o w ho hpre
  show (∀ b, (Run.bind m f o w).1 = Except.ok b → post b (Run.bind m f o w).2.db.tables) ∧
    (∀ e, (Run.bind m f o w).1 = Except.error e → fail (Run.bind m f o w).2.db.tables)
  unfold Run.bind
  rcases hmw : m o w with ⟨result, w'⟩
  rw [hmw] at h
  cases result with
  | ok a => exact hf a o w' ho (h.1 a rfl)
  | error e =>
    constructor
    · intro b hb
      exact absurd hb (by simp)
    · intro e' _
      exact h.2 e rfl

theorem tripleOn_call {α : Type} (faulty : Prop) (pre : Tables → Prop)
    (act : Oracle → World → α × World) (post : α → Tables → Prop) (fail : Tables → Prop)
    (hfail : faulty → ∀ t, pre t → fail t)
    (hpost : ∀ o w, pre w.db.tables → post (act o w).1 (act o w).2.db.tables) :
    TripleOn faulty pre (Run.call act) post fail := by
  intro o w ho hpre
  unfold Run.call
  cases hf : o.fault w.calls with
  | some e =>
    constructor
    · intro b hb
      exact absurd hb (by simp)
    · intro _ _
      exact hfail (ho _ _ hf) _ hpre
  | none =>
    constructor
    · intro b hb
      have hab : (act o w).1 = b := Except.ok.inj hb
      subst hab
      exact hpost o w hpre
    · intro e he
      exact absurd he (by simp)

theorem tripleOn_query {α : Type} (faulty : Prop) (pre : Tables → Prop)
    (statement : Tables → α × Tables) (post : α → Tables → Prop) (fail : Tables → Prop)
    (hfail : faulty → ∀ t, pre t → fail t)
    (hpost : ∀ t, pre t → post (statement t).1 (statement t).2) :
    TripleOn faulty pre (query statement) post fail :=
  tripleOn_call faulty pre _ post fail hfail (fun _ w hpre => hpost w.db.tables hpre)

theorem tripleOn_tryCatch {α : Type} (faulty : Prop) (pre : Tables → Prop) (m : Run α)
    (handler : JsError → Run α) (post : α → Tables → Prop) (caught fail : Tables → Prop)
    (hm : TripleOn faulty pre m post caught)
    (hh : ∀ e, TripleOn faulty caught (handler e) post fail) :
    TripleOn faulty pre (Run.tryCatch m handler) post fail := by
  intro o w ho hpre
  have h := hm o w ho hpre
  unfold Run.tryCatch
  rcases hmw : m o w with ⟨result, w'⟩
  rw [hmw] at h
  cases result with
  | ok a =>
    constructor
    · intro b hb
      have hab : a = b := Except.ok.inj hb
      subst hab
      exact h.1 a rfl
    · intro e he
      exact absurd he (by simp)
  | error e => exact hh e o w' ho (h.2 e rfl)

theorem tripleOn_tryFinally_release {α : Type} (faulty : Prop) (pre : Tables → Prop)
    (m : Run α) (post : α → Tables → Prop) (fail : Tables → Prop)
    (hm : TripleOn faulty pre m post fail) :
    TripleOn faulty pre (Run.tryFinally m release) post fail := by
  intro o w ho hpre
  have h := hm o w ho hpre
  unfold Run.tryFinally release
  rcases hmw : m o w with ⟨result, w'⟩
  rw [hmw] at h
  exact h

theorem tripleOn_withClient (faulty : Prop) (pre : Tables → Prop) (body : Run Response)
    (onError : JsError → Run Response) (post : Response → Tables → Prop)
    (caught fail : Tables → Prop) (hpre : faulty → ∀ t, pre t → fail t)
    (hb : TripleOn faulty pre body post caught)
    (hh : ∀ e, TripleOn faulty caught (onError e) post fail) :
    TripleOn faulty pre (withClient body onError) post fail := by
  unfold withClient
  refine tripleOn_bind faulty pre _ _ (fun _ => pre) post fail ?_ ?_
  · exact tripleOn_call faulty pre _ _ fail hpre (fun _ _ h => h)
  · intro _
    exact tripleOn_tryFinally_release faulty pre _ post fail
      (tripleOn_tryCatch faulty pre _ _ post caught fail hb hh)

theorem tripleOn_conseq {α : Type} (faulty : Prop) (pre pre' : Tables → Prop) (m : Run α)
    (post post' : α → Tables → Prop) (fail fail' : Tables → Prop)
    (h : TripleOn faulty pre' m post' fail') (hpre : ∀ t, pre t → pre' t)
    (hpost : ∀ a t, post' a t → post a t) (hfail : ∀ t, fail' t → fail t) :
    TripleOn faulty pre m post fail := by
  intro o w ho hw
  have := h o w ho (hpre _ hw)
  exact ⟨fun a ha => hpost _ _ (this.1 a ha), fun e he => hfail _ (this.2 e he)⟩

theorem tripleOn_canEditSong (faulty : Prop) (t : Tables) (songId userId : Int)
    (fail : Tables → Prop) (hfail : faulty → fail t) :
    TripleOn faulty (fun t' => t' = t) (canEditSong songId userId)
      (fun answer t' => t' = t ∧ answer = editOn t songId userId) fail := by
  intro o w ho hw
  rw [canEditSong_run]
  cases hf : o.fault w.calls with
  | some e =>
    constructor
    · intro b hb
      exact absurd hb (by simp)
    · intro _ _
      show fail w.db.tables
      rw [hw]
      exact hfail (ho _ _ hf)
  | none =>
    constructor
    · intro b hb
      have hab : editOn w.db.tables songId userId = b := Except.ok.inj hb
      subst hab
      exact ⟨hw, by rw [hw]⟩
    · intro e he
      exact absurd he (by simp)

/-- What a triple says about one run: the tables left satisfy `post a` when `a` is
returned and `fail` when the call rejects. -/
theorem tripleOn_run {α : Type} (faulty : Prop) (pre : Tables → Prop) (m : Run α)
    (post : α → Tables → Prop) (fail : Tables → Prop) (h : TripleOn faulty pre m post fail)
    (o : Oracle) (w : World) (ho : FaultsOnlyIf faulty o) (hpre : pre w.db.tables) :
    (∃ a, (m o w).1 = Except.ok a ∧ post a (m o w).2.db.tables) ∨
      ((∃ e, (m o w).1 = Except.error e) ∧ fail (m o w).2.db.tables) := by
  have := h o w ho hpre
  cases hres : (m o w).1 with
  | ok a => exact Or.inl ⟨a, rfl, this.1 a hres⟩
  | error e => exact Or.inr ⟨⟨e, rfl⟩, this.2 e hres⟩

/-! ## C21: the urls of the shortcuts of a user stay distinct -/

theorem urlCount_pos_iff (t : Tables) (userId : Int) (url : String) :
    (selectShortcutByUrl userId url t).1 > 0 ↔ HasUrl t userId url := by
  unfold selectShortcutByUrl HasUrl
  simp only [gt_iff_lt, List.length_pos_iff_exists_mem, List.mem_filter]
  constructor
  · rintro ⟨s, hs, h⟩
    exact ⟨s, hs, by simpa using h⟩
  · rintro ⟨s, hs, h⟩
    exact ⟨s, hs, by simpa using h⟩

theorem createShortcut_tripleOn (faulty : Prop) (t : Tables) (user : UserRow) (req : Request) :
    TripleOn faulty (fun t' => t' = t) (createShortcut user req)
      (fun r t' =>
        (RefusedShortcut t user req →
          t' = t ∧ (r.status = 400 ∨ (faulty ∧ r.status = 500))) ∧
        (t' = t ∨
          (¬ HasUrl t user.id (jsTrim (req.url.getD "")) ∧
            ∃ n, t' = (insertShortcut user req n t).2)))
      (fun t' => faulty ∧ t' = t) := by
  unfold createShortcut
  refine tripleOn_withClient faulty _ _ _ _
    (fun t' => faulty ∧ (RefusedShortcut t user req → t' = t) ∧
      (t' = t ∨ (¬ HasUrl t user.id (jsTrim (req.url.getD "")) ∧
        ∃ n, t' = (insertShortcut user req n t).2)))
    _ (fun hf _ h => ⟨hf, h⟩) ?_ ?_
  · by_cases hname : blank req.name = true
    · rw [if_pos hname]
      exact tripleOn_pure _ _ _ _ _ (fun t' ht => ⟨fun _ => ⟨ht, Or.inl rfl⟩, Or.inl ht⟩)
    rw [if_neg hname]
    by_cases hurl : blank req.url = true
    · rw [if_pos hurl]
      exact tripleOn_pure _ _ _ _ _ (fun t' ht => ⟨fun _ => ⟨ht, Or.inl rfl⟩, Or.inl ht⟩)
    rw [if_neg hurl]
    refine tripleOn_bind faulty _ _ _
      (fun existing t' => t' = t ∧
        existing = (selectShortcutByUrl user.id (jsTrim (req.url.getD "")) t).1) _ _ ?_ ?_
    · refine tripleOn_query faulty _ _ _ _ ?_ ?_
      · intro hf t' ht
        exact ⟨hf, fun _ => ht, Or.inl ht⟩
      · intro t' ht
        rw [ht]
        exact ⟨rfl, rfl⟩
    intro existing
    by_cases hex : existing > 0
    · rw [if_pos hex]
      exact tripleOn_pure _ _ _ _ _
        (fun t' ht => ⟨fun _ => ⟨ht.1, Or.inl rfl⟩, Or.inl ht.1⟩)
    rw [if_neg hex]
    by_cases hcount : existing = (selectShortcutByUrl user.id (jsTrim (req.url.getD "")) t).1
    swap
    · intro o w _ hpre
      exact absurd hpre.2 hcount
    have hno : ¬ HasUrl t user.id (jsTrim (req.url.getD "")) := by
      intro h
      exact hex (by rw [hcount]; exact (urlCount_pos_iff _ _ _).mpr h)
    have hnot : ¬ RefusedShortcut t user req := by
      rintro (h | h | h)
      · exact hname h
      · exact hurl h
      · exact hno h
    refine tripleOn_bind faulty _ _ _ (fun _ t' => t' = t) _ _ ?_ ?_
    · refine tripleOn_query faulty _ _ _ _ ?_ ?_
      · intro hf t' ht
        exact ⟨hf, fun _ => ht.1, Or.inl ht.1⟩
      · intro t' ht
        rw [ht.1]
        rfl
    intro nextOrder
    refine tripleOn_bind faulty _ _ _
      (fun _ t' => t' = (insertShortcut user req nextOrder t).2) _ _ ?_ ?_
    · refine tripleOn_query faulty _ _ _ _ ?_ ?_
      · intro hf t' ht
        exact ⟨hf, fun _ => ht, Or.inl ht⟩
      · intro t' ht
        rw [ht]
    intro _
    refine tripleOn_bind faulty _ _ _
      (fun _ t' => t' = (insertShortcut user req nextOrder t).2) _ _ ?_ ?_
    · refine tripleOn_query faulty _ _ _ _ ?_ ?_
      · intro hf t' ht
        exact ⟨hf, fun h => absurd h hnot, Or.inr ⟨hno, nextOrder, ht⟩⟩
      · intro t' ht
        exact ht
    intro _
    exact tripleOn_pure _ _ _ _ _
      (fun t' ht => ⟨fun h => absurd h hnot, Or.inr ⟨hno, nextOrder, ht⟩⟩)
  · intro e
    refine tripleOn_pure _ _ _ _ _ ?_
    intro t' ht
    exact ⟨fun h => ⟨ht.2.1 h, Or.inr ⟨ht.1, rfl⟩⟩, ht.2.2⟩

theorem uniqueUrls_insert (t : Tables) (user : UserRow) (req : Request) (n : Int)
    (hu : UniqueUrls t) (hno : ¬ HasUrl t user.id (jsTrim (req.url.getD ""))) :
    UniqueUrls (insertShortcut user req n t).2 := by
  unfold UniqueUrls insertShortcut
  simp only
  rw [List.pairwise_append]
  refine ⟨hu, List.pairwise_singleton _ _, ?_⟩
  intro a ha b hb
  rw [List.mem_singleton] at hb
  subst hb
  rintro ⟨h1, h2⟩
  exact hno ⟨a, ha, h1, h2⟩

/-- C21: the urls of the shortcuts of a user stay distinct.  Whatever the request of
`POST /` and whichever awaited calls fail: if no user has two shortcuts with the same url
before, none has afterwards.  A request whose name or url is missing or blank, or whose
trimmed url is the url of a shortcut the user already has, leaves the tables as they
are; its response, if there is one, has status 400 or, after a failed call, 500; and
when no call fails the response is there and has status 400. -/
theorem createShortcut_unique_urls (user : UserRow) (req : Request) (o : Oracle) (w : World) :
    (UniqueUrls w.db.tables → UniqueUrls (createShortcut user req o w).2.db.tables) ∧
    ((blank req.name = true ∨ blank req.url = true ∨
        ∃ s ∈ w.db.tables.shortcuts,
          s.user_id = user.id ∧ s.url = jsTrim (req.url.getD "")) →
      (createShortcut user req o w).2.db.tables = w.db.tables ∧
      (∀ r, (createShortcut user req o w).1 = Except.ok r → r.status = 400 ∨ r.status = 500) ∧
      ((∀ k, o.fault k = none) →
        ∃ r, (createShortcut user req o w).1 = Except.ok r ∧ r.status = 400)) := by
  have hall := tripleOn_run True _ _ _ _ (createShortcut_tripleOn True w.db.tables user req)
    o w (faultsOnlyIf_true o) rfl
  constructor
  · intro hu
    rcases hall with ⟨r, _, h⟩ | ⟨_, h⟩
    · rcases h.2 with h | ⟨hno, n, h⟩
      · rw [h]; exact hu
      · rw [h]; exact uniqueUrls_insert _ _ _ _ hu hno
    · rw [h.2]; exact hu
  · intro href
    have href' : RefusedShortcut w.db.tables user req := href
    refine ⟨?_, ?_, ?_⟩
    · rcases hall with ⟨r, _, h⟩ | ⟨_, h⟩
      · exact (h.1 href').1
      · exact h.2
    · intro r hr
      rcases hall with ⟨r', hr', h⟩ | ⟨⟨e, he⟩, _⟩
      · rw [hr] at hr'
        cases hr'
        rcases (h.1 href').2 with h4 | h5
        · exact Or.inl h4
        · exact Or.inr h5.2
      · rw [hr] at he
        exact absurd he (by simp)
    · intro hcalm
      rcases tripleOn_run False _ _ _ _ (createShortcut_tripleOn False w.db.tables user req)
        o w (faultsOnlyIf_false o hcalm) rfl with ⟨r, hr, h⟩ | ⟨_, h⟩
      · refine ⟨r, hr, ?_⟩
        rcases (h.1 href').2 with h4 | h5
        · exact h4
        · exact absurd h5.1 not_false
      · exact absurd h.1 not_false

/-! ## C24: collaborators are managed by the owner -/

theorem addCollaborator_tripleOn (faulty : Prop) (t : Tables) (user : UserRow)
    (req : Request) :
    TripleOn faulty (fun t' => t' = t) (addCollaborator user req)
      (fun r t' =>
        (¬ ownsSong t req.id user.id →
          t' = t ∧ (r.status = 403 ∨ (faulty ∧ r.status = 500))) ∧
        (ownsSong t req.id user.id →
          (∃ u rest, (selectUserByBodyHandle req.handle t).1 = u :: rest ∧ u.id = user.id) →
          t' = t ∧ (r.status = 400 ∨ (faulty ∧ r.status = 500))) ∧
        (t' = t ∨
          (ownsSong t req.id user.id ∧ ∃ invitee : UserRow, invitee.id ≠ user.id ∧
            t' = (upsertCollaborator req.id invitee.id (orElse req.role "editor")
              user.id t).2)))
      (fun t' => faulty ∧ t' = t) := by
  unfold addCollaborator
  refine tripleOn_withClient faulty _ _ _ _ (fun t' => faulty ∧ t' = t) _
    (fun hf _ h => ⟨hf, h⟩) ?_ ?_
  · refine tripleOn_bind faulty _ _ _
      (fun count t' => t' = t ∧ count = (selectOwnSong req.id user.id t).1) _ _ ?_ ?_
    · refine tripleOn_query faulty _ _ _ _ (fun hf _ ht => ⟨hf, ht⟩) ?_
      intro t' ht
      rw [ht]
      exact ⟨rfl, rfl⟩
    intro count
    by_cases hcount : count = (selectOwnSong req.id user.id t).1
    swap
    · intro o w _ hpre
      exact absurd hpre.2 hcount
    by_cases hzero : count = 0
    · have hnot : ¬ ownsSong t req.id user.id :=
        (ownCount_zero_iff _ _ _).mp (by rw [← hzero, hcount]; rfl)
      rw [if_pos hzero]
      exact tripleOn_pure _ _ _ _ _
        (fun t' ht => ⟨fun _ => ⟨ht.1, Or.inl rfl⟩, fun h => absurd h hnot, Or.inl ht.1⟩)
    have howns : ownsSong t req.id user.id := by
      by_contra hn
      exact hzero (by rw [hcount]; exact (ownCount_zero_iff _ _ _).mpr hn)
    rw [if_neg hzero]
    have hread : (selectUserByBodyHandle req.handle t).2 = t := by
      unfold selectUserByBodyHandle
      split <;> rfl
    refine tripleOn_bind faulty _ _ _
      (fun rows t' => t' = t ∧ rows = (selectUserByBodyHandle req.handle t).1) _ _ ?_ ?_
    · refine tripleOn_query faulty _ _ _ _ (fun hf _ ht => ⟨hf, ht.1⟩) ?_
      intro t' ht
      rw [ht.1]
      exact ⟨hread, rfl⟩
    intro rows
    by_cases hrows : rows = (selectUserByBodyHandle req.handle t).1
    swap
    · intro o w _ hpre
      exact absurd hpre.2 hrows
    cases rows with
    | nil =>
      refine tripleOn_pure _ _ _ _ _ ?_
      intro t' ht
      refine ⟨fun h => absurd howns h, ?_, Or.inl ht.1⟩
      rintro _ ⟨u, rest, hu, _⟩
      rw [← hrows] at hu
      exact absurd hu (by simp)
    | cons invitee rest =>
      simp only []
      by_cases hself : invitee.id = user.id
      · rw [if_pos hself]
        exact tripleOn_pure _ _ _ _ _
          (fun t' ht => ⟨fun h => absurd howns h, fun _ _ => ⟨ht.1, Or.inl rfl⟩, Or.inl ht.1⟩)
      · rw [if_neg hself]
        have hnotself : ¬ ∃ u rest', (selectUserByBodyHandle req.handle t).1 = u :: rest' ∧
            u.id = user.id := by
          rintro ⟨u, rest', hu, hid⟩
          rw [← hrows] at hu
          cases hu
          exact hself hid
        refine tripleOn_bind faulty _ _ _
          (fun _ t' => t' = (upsertCollaborator req.id invitee.id (orElse req.role "editor")
            user.id t).2) _ _ ?_ ?_
        · refine tripleOn_query faulty _ _ _ _ (fun hf _ ht => ⟨hf, ht.1⟩) ?_
          intro t' ht
          rw [ht.1]
        intro _
        exact tripleOn_pure _ _ _ _ _
          (fun t' ht => ⟨fun h => absurd howns h, fun _ h => absurd h hnotself,
            Or.inr ⟨howns, invitee, hself, ht⟩⟩)
  · intro e
    refine tripleOn_pure _ _ _ _ _ ?_
    intro t' ht
    exact ⟨fun _ => ⟨ht.2, Or.inr ⟨ht.1, rfl⟩⟩, fun _ _ => ⟨ht.2, Or.inr ⟨ht.1, rfl⟩⟩,
      Or.inl ht.2⟩

theorem removeCollaborator_tripleOn (faulty : Prop) (t : Tables) (user : UserRow)
    (req : Request) :
    TripleOn faulty (fun t' => t' = t) (removeCollaborator user req)
      (fun r t' =>
        (¬ ownsSong t req.id user.id →
          t' = t ∧ (r.status = 403 ∨ (faulty ∧ r.status = 500))) ∧
        (t' = t ∨
          (ownsSong t req.id user.id ∧ t' = (deleteCollaborator req.id req.userId t).2)))
      (fun t' => faulty ∧ t' = t) := by
  unfold removeCollaborator
  refine tripleOn_withClient faulty _ _ _ _
    (fun t' => faulty ∧ (¬ ownsSong t req.id user.id → t' = t) ∧
      (t' = t ∨ (ownsSong t req.id user.id ∧ t' = (deleteCollaborator req.id req.userId t).2)))
    _ (fun hf _ h => ⟨hf, h⟩) ?_ ?_
  · refine tripleOn_bind faulty _ _ _
      (fun count t' => t' = t ∧ count = (selectOwnSong req.id user.id t).1) _ _ ?_ ?_
    · refine tripleOn_query faulty _ _ _ _ (fun hf _ ht => ⟨hf, fun _ => ht, Or.inl ht⟩) ?_
      intro t' ht
      rw [ht]
      exact ⟨rfl, rfl⟩
    intro count
    by_cases hcount : count = (selectOwnSong req.id user.id t).1
    swap
    · intro o w _ hpre
      exact absurd hpre.2 hcount
    by_cases hzero : count = 0
    · rw [if_pos hzero]
      exact tripleOn_pure _ _ _ _ _
        (fun t' ht => ⟨fun _ => ⟨ht.1, Or.inl rfl⟩, Or.inl ht.1⟩)
    have howns : ownsSong t req.id user.id := by
      by_contra hn
      exact hzero (by rw [hcount]; exact (ownCount_zero_iff _ _ _).mpr hn)
    rw [if_neg hzero]
    refine tripleOn_bind faulty _ _ _
      (fun _ t' => t' = (deleteCollaborator req.id req.userId t).2) _ _ ?_ ?_
    · refine tripleOn_query faulty _ _ _ _
        (fun hf _ ht => ⟨hf, fun h => absurd howns h, Or.inl ht.1⟩) ?_
      intro t' ht
      rw [ht.1]
    intro _
    exact tripleOn_pure _ _ _ _ _
      (fun t' ht => ⟨fun h => absurd howns h, Or.inr ⟨howns, ht⟩⟩)
  · intro e
    refine tripleOn_pure _ _ _ _ _ ?_
    intro t' ht
    exact ⟨fun h => ⟨ht.2.1 h, Or.inr ⟨ht.1, rfl⟩⟩, ht.2.2⟩

theorem noOwner_upsert (t : Tables) (songId invitee owner : Int) (role : String)
    (hkey : (t.songs.map (fun s => s.id)).Nodup) (hinv : NoOwnerCollaborator t)
    (howns : ownsSong t songId owner) (hne : invitee ≠ owner) :
    NoOwnerCollaborator (upsertCollaborator songId invitee role owner t).2 := by
  have hnew : ¬ ownsSong t songId invitee := by
    rintro ⟨s, hs, hid, huser⟩
    obtain ⟨s', hs', hid', huser'⟩ := howns
    have : s = s' := List.inj_on_of_nodup_map hkey hs hs' (by rw [hid, hid'])
    rw [this, huser'] at huser
    exact hne huser.symm
  unfold upsertCollaborator
  split
  · intro c hc
    simp only [List.mem_map] at hc
    obtain ⟨c0, hc0, rfl⟩ := hc
    have := hinv c0 hc0
    split
    · exact this
    · exact this
  · intro c hc
    simp only [List.mem_append, List.mem_singleton] at hc
    rcases hc with hc | rfl
    · exact hinv c hc
    · exact hnew

theorem noOwner_delete (t : Tables) (songId userId : Int) (hinv : NoOwnerCollaborator t) :
    NoOwnerCollaborator (deleteCollaborator songId userId t).2 := by
  intro c hc
  unfold deleteCollaborator at hc
  exact hinv c (List.mem_of_mem_filter hc)

theorem collaboratorRoute_tripleOn (faulty : Prop) (t : Tables) (user : UserRow)
    (req : Request) (route : LyricsRoute)
    (hroute : route = LyricsRoute.addCollaborator ∨ route = LyricsRoute.removeCollaborator) :
    TripleOn faulty (fun t' => t' = t) (lyricsHandler user req route)
      (fun r t' =>
        (¬ ownsSong t req.id user.id →
          t' = t ∧ (r.status = 403 ∨ (faulty ∧ r.status = 500))) ∧
        (route = LyricsRoute.addCollaborator → ownsSong t req.id user.id →
          (∃ u rest, (selectUserByBodyHandle req.handle t).1 = u :: rest ∧ u.id = user.id) →
          t' = t ∧ (r.status = 400 ∨ (faulty ∧ r.status = 500))) ∧
        ((t.songs.map (fun s => s.id)).Nodup → NoOwnerCollaborator t →
          NoOwnerCollaborator t'))
      (fun t' => faulty ∧ t' = t) := by
  rcases hroute with h | h
  · subst h
    refine tripleOn_conseq faulty _ _ _ _ _ _ _ (addCollaborator_tripleOn faulty t user req)
      (fun _ h => h) ?_ (fun _ h => h)
    intro r t' hpost
    refine ⟨hpost.1, fun _ => hpost.2.1, ?_⟩
    intro hkey hinv
    rcases hpost.2.2 with h | ⟨howns, invitee, hne, h⟩
    · rw [h]; exact hinv
    · rw [h]; exact noOwner_upsert t _ _ _ _ hkey hinv howns hne
  · subst h
    refine tripleOn_conseq faulty _ _ _ _ _ _ _ (removeCollaborator_tripleOn faulty t user req)
      (fun _ h => h) ?_ (fun _ h => h)
    intro r t' hpost
    refine ⟨hpost.1, fun h => absurd h (by decide), ?_⟩
    intro _ hinv
    rcases hpost.2 with h | ⟨_, h⟩
    · rw [h]; exact hinv
    · rw [h]; exact noOwner_delete t _ _ hinv

theorem own_handle_found (t : Tables) (user : UserRow) (req : Request)
    (hhandle : req.handle = some user.handle)
    (hfound : t.users.find? (fun u => u.handle = user.handle) = some user) :
    ∃ u rest, (selectUserByBodyHandle req.handle t).1 = u :: rest ∧ u.id = user.id := by
  rw [hhandle]
  have h := head?_filter_find? (fun u : UserRow => decide (u.handle = user.handle)) t.users
  rw [hfound] at h
  obtain ⟨rest, hrest⟩ := List.head?_eq_some_iff.mp h
  exact ⟨user, rest, hrest, rfl⟩

/-- C24: collaborators are managed by the owner alone, who never becomes a collaborator
of the own song.  For `POST /songs/:id/collaborators` and `DELETE
/songs/:id/collaborators/:userId`, whichever awaited calls fail: a requester who does not
own the song `:id` leaves the tables as they are, and the response has status 403 (500
after a failed call; 403 and no other when no call fails); the owner who sends the own
handle to `POST` leaves the tables as they are and gets status 400; and, the ids of the
songs being distinct, if no song has its owner among its collaborators before the
request, none has afterwards. -/
theorem collaborators_owner_only (user : UserRow) (req : Request) (route : LyricsRoute)
    (o : Oracle) (w : World)
    (hroute : route = LyricsRoute.addCollaborator ∨ route = LyricsRoute.removeCollaborator) :
    (¬ ownsSong w.db.tables req.id user.id →
      (lyricsHandler user req route o w).2.db.tables = w.db.tables ∧
      (∀ r, (lyricsHandler user req route o w).1 = Except.ok r →
        r.status = 403 ∨ r.status = 500) ∧
      ((∀ k, o.fault k = none) →
        ∃ r, (lyricsHandler user req route o w).1 = Except.ok r ∧ r.status = 403)) ∧
    (route = LyricsRoute.addCollaborator → ownsSong w.db.tables req.id user.id →
      req.handle = some user.handle →
      w.db.tables.users.find? (fun u => u.handle = user.handle) = some user →
      (lyricsHandler user req route o w).2.db.tables = w.db.tables ∧
      (∀ r, (lyricsHandler user req route o w).1 = Except.ok r →
        r.status = 400 ∨ r.status = 500) ∧
      ((∀ k, o.fault k = none) →
        ∃ r, (lyricsHandler user req route o w).1 = Except.ok r ∧ r.status = 400)) ∧
    ((w.db.tables.songs.map (fun s => s.id)).Nodup → NoOwnerCollaborator w.db.tables →
      NoOwnerCollaborator (lyricsHandler user req route o w).2.db.tables) := by
  have hall := tripleOn_run True _ _ _ _
    (collaboratorRoute_tripleOn True w.db.tables user req route hroute)
    o w (faultsOnlyIf_true o) rfl
  have hcalm := fun hc : ∀ k, o.fault k = none => tripleOn_run False _ _ _ _
    (collaboratorRoute_tripleOn False w.db.tables user req route hroute)
    o w (faultsOnlyIf_false o hc) rfl
  refine ⟨?_, ?_, ?_⟩
  · intro hnot
    refine ⟨?_, ?_, ?_⟩
    · rcases hall with ⟨r, _, h⟩ | ⟨_, h⟩
      · exact (h.1 hnot).1
      · exact h.2
    · intro r hr
      rcases hall with ⟨r', hr', h⟩ | ⟨⟨e, he⟩, _⟩
      · rw [hr] at hr'
        cases hr'
        rcases (h.1 hnot).2 with h3 | h5
        · exact Or.inl h3
        · exact Or.inr h5.2
      · rw [hr] at he
        exact absurd he (by simp)
    · intro hc
      rcases hcalm hc with ⟨r, hr, h⟩ | ⟨_, h⟩
      · refine ⟨r, hr, ?_⟩
        rcases (h.1 hnot).2 with h3 | h5
        · exact h3
        · exact absurd h5.1 not_false
      · exact absurd h.1 not_false
  · intro hadd howns hhandle hfound
    have hself := own_handle_found w.db.tables user req hhandle hfound
    refine ⟨?_, ?_, ?_⟩
    · rcases hall with ⟨r, _, h⟩ | ⟨_, h⟩
      · exact (h.2.1 hadd howns hself).1
      · exact h.2
    · intro r hr
      rcases hall with ⟨r', hr', h⟩ | ⟨⟨e, he⟩, _⟩
      · rw [hr] at hr'
        cases hr'
        rcases (h.2.1 hadd howns hself).2 with h4 | h5
        · exact Or.inl h4
        · exact Or.inr h5.2
      · rw [hr] at he
        exact absurd he (by simp)
    · intro hc
      rcases hcalm hc with ⟨r, hr, h⟩ | ⟨_, h⟩
      · refine ⟨r, hr, ?_⟩
        rcases (h.2.1 hadd howns hself).2 with h4 | h5
        · exact h4
        · exact absurd h5.1 not_false
      · exact absurd h.1 not_false
  · intro hkey hinv
    rcases hall with ⟨r, _, h⟩ | ⟨_, h⟩
    · exact h.2.2 hkey hinv
    · rw [h.2]; exact hinv

/-- The owner of the sample song is the only one who may invite: the request of `bob`
to add a collaborator to the song of `alice` leaves the tables as they are and, no call
failing, is answered 403. -/
theorem collaborators_owner_only_witness :
    (lyricsHandler { id := 2, handle := "bob" } bobSongRequest LyricsRoute.addCollaborator
        calmOracle sampleWorld).2.db.tables = sampleWorld.db.tables ∧
      (∀ r, (lyricsHandler { id := 2, handle := "bob" } bobSongRequest
          LyricsRoute.addCollaborator calmOracle sampleWorld).1 = Except.ok r →
        r.status = 403 ∨ r.status = 500) ∧
      ((∀ k, calmOracle.fault k = none) →
        ∃ r, (lyricsHandler { id := 2, handle := "bob" } bobSongRequest
          LyricsRoute.addCollaborator calmOracle sampleWorld).1 = Except.ok r ∧
          r.status = 403) :=
  (collaborators_owner_only { id := 2, handle := "bob" } bobSongRequest
    LyricsRoute.addCollaborator calmOracle sampleWorld (Or.inl rfl)).1
    (by unfold ownsSong; decide)

/-! ## C25: who may update a lyric -/

theorem tripleOn_bind_value {α β : Type} (faulty : Prop) (pre : Tables → Prop) (t : Tables)
    (m : Run α) (v : α) (f : α → Run β) (post : β → Tables → Prop) (fail : Tables → Prop)
    (hm : TripleOn faulty pre m (fun a t' => t' = t ∧ a = v) fail)
    (hf : TripleOn faulty (fun t' => t' = t) (f v) post fail) :
    TripleOn faulty pre (m >>= f) post fail := by
  refine tripleOn_bind faulty pre m f _ post fail hm ?_
  intro a o w ho hpre
  rw [hpre.2]
  exact hf o w ho hpre.1

theorem tripleOn_read {α : Type} (faulty : Prop) (t : Tables)
    (statement : Tables → α × Tables) (fail : Tables → Prop) (hread : (statement t).2 = t)
    (hfail : faulty → fail t) :
    TripleOn faulty (fun t' => t' = t) (query statement)
      (fun a t' => t' = t ∧ a = (statement t).1) fail := by
  refine tripleOn_query faulty _ _ _ _ ?_ ?_
  · intro hf t' ht
    rw [ht]
    exact hfail hf
  · intro t' ht
    rw [ht]
    exact ⟨hread, rfl⟩

theorem tripleOn_value {α : Type} (faulty : Prop) (t : Tables) (v : α)
    (fail : Tables → Prop) :
    TripleOn faulty (fun t' => t' = t) (pure v : Run α) (fun a t' => t' = t ∧ a = v) fail := by
  refine tripleOn_pure faulty _ v _ fail ?_
  intro t' ht
  exact ⟨ht, rfl⟩

theorem moves_iff (field : Field Int) (current : Option Int) :
    movesToOtherSong field current = true ↔
      ∃ n, field = Field.value n ∧ n ≠ 0 ∧ some n ≠ current := by
  cases field with
  | undefined => simp [movesToOtherSong, Field.truthyInt]
  | null => simp [movesToOtherSong, Field.truthyInt]
  | value n => simp [movesToOtherSong, Field.truthyInt, Field.toOption]

theorem putLyricLeft_same (t : Tables) (user : UserRow) (req : Request) :
    PutLyricLeft t user req t :=
  ⟨fun _ => rfl, fun _ _ _ => rfl, Or.inl rfl⟩

theorem putLyricLeft_updated (t : Tables) (user : UserRow) (req : Request) (l : LyricRow)
    (hfirst : firstLyric t req.id = some l) (hallowed : LyricEditAllowed t user req l) :
    PutLyricLeft t user req (updateLyric req l t).2 := by
  refine ⟨fun h => ?_, fun l' h hn => ?_, Or.inr ⟨l, hfirst, hallowed, rfl⟩⟩
  · rw [hfirst] at h
    exact absurd h (by simp)
  · rw [hfirst] at h
    cases h
    exact absurd hallowed hn

theorem tripleOn_lyricCheck (faulty : Prop) (t : Tables) (user : UserRow) (lyric : LyricRow)
    (f : Bool → Run Response) (post : Response → Tables → Prop) (fail : Tables → Prop)
    (hfail : faulty → fail t)
    (h : ∀ allowed : Bool, (allowed = true ↔ mayEditLyric t user lyric) →
      TripleOn faulty (fun t' => t' = t) (f allowed) post fail) :
    TripleOn faulty (fun t' => t' = t)
      (if lyric.user_id = user.id then (pure true : Run Bool) >>= f
        else if truthyId lyric.song_id = true then
          canEditSong (lyric.song_id.getD 0) user.id >>= f
        else (pure false : Run Bool) >>= f) post fail := by
  by_cases hown : lyric.user_id = user.id
  · rw [if_pos hown]
    exact tripleOn_bind_value faulty _ t _ true f post fail (tripleOn_value faulty t true fail)
      (h true ⟨fun _ => Or.inl hown, fun _ => rfl⟩)
  · rw [if_neg hown]
    by_cases hsong : truthyId lyric.song_id = true
    · rw [if_pos hsong]
      refine tripleOn_bind_value faulty _ t _ _ f post fail
        (tripleOn_canEditSong faulty t _ _ fail hfail) (h _ ?_)
      constructor
      · intro he
        exact Or.inr ⟨hsong, (editOn_iff _ _ _).mp he⟩
      · rintro (ho | ⟨_, hm⟩)
        · exact absurd ho hown
        · exact (editOn_iff _ _ _).mpr hm
    · rw [if_neg hsong]
      refine tripleOn_bind_value faulty _ t _ false f post fail
        (tripleOn_value faulty t false fail) (h false ?_)
      constructor
      · intro he
        exact absurd he (by decide)
      · rintro (ho | ⟨hs, _⟩)
        · exact absurd ho hown
        · exact absurd hs hsong

theorem putLyric_tripleOn (faulty : Prop) (t : Tables) (user : UserRow) (req : Request) :
    TripleOn faulty (fun t' => t' = t) (putLyric user req)
      (fun r t' =>
        PutLyricLeft t user req t' ∧
        (firstLyric t req.id = none → r.status = 404 ∨ (faulty ∧ r.status = 500)) ∧
        (∀ l, firstLyric t req.id = some l → ¬ LyricEditAllowed t user req l →
          r.status = 403 ∨ (faulty ∧ r.status = 500)))
      (fun t' => faulty ∧ t' = t) := by
  unfold putLyric
  refine tripleOn_withClient faulty _ _ _ _ (fun t' => faulty ∧ PutLyricLeft t user req t') _
    (fun hf _ h => ⟨hf, h⟩) ?_ ?_
  · have hcaught : faulty → faulty ∧ PutLyricLeft t user req t :=
      fun hf => ⟨hf, putLyricLeft_same t user req⟩
    refine tripleOn_bind_value faulty _ t _ _ _ _ _
      (tripleOn_read faulty t _ _ rfl hcaught) ?_
    cases hrows : (selectLyric req.id t).1 with
    | nil =>
      have hnone : firstLyric t req.id = none := find?_of_filter_nil _ _ hrows
      refine tripleOn_pure _ _ _ _ _ ?_
      intro t' ht
      rw [ht]
      refine ⟨putLyricLeft_same t user req, fun _ => Or.inl rfl, ?_⟩
      intro l hl
      rw [hnone] at hl
      exact absurd hl (by simp)
    | cons lyric rest =>
      have hfirst : firstLyric t req.id = some lyric := find?_of_filter_cons _ _ _ _ hrows
      have hrefused : ∀ text, TripleOn faulty (fun t' => t' = t)
          (pure (sendMessage 403 text) : Run Response)
          (fun r t' =>
            PutLyricLeft t user req t' ∧
            (firstLyric t req.id = none → r.status = 404 ∨ (faulty ∧ r.status = 500)) ∧
            (∀ l, firstLyric t req.id = some l → ¬ LyricEditAllowed t user req l →
              r.status = 403 ∨ (faulty ∧ r.status = 500)))
          (fun t' => faulty ∧ PutLyricLeft t user req t') := by
        intro text
        refine tripleOn_pure _ _ _ _ _ ?_
        intro t' ht
        rw [ht]
        refine ⟨putLyricLeft_same t user req, fun h => ?_, fun _ _ _ => Or.inl rfl⟩
        rw [hfirst] at h
        exact absurd h (by simp)
      have hrest : LyricEditAllowed t user req lyric →
          TripleOn faulty (fun t' => t' = t)
            (if blank req.content = true then
              (pure (sendMessage 400 "Content is required") : Run Response)
            else do
              query (updateLyric req lyric)
              queryRows
              pure (sendJson 200))
            (fun r t' =>
              PutLyricLeft t user req t' ∧
              (firstLyric t req.id = none → r.status = 404 ∨ (faulty ∧ r.status = 500)) ∧
              (∀ l, firstLyric t req.id = some l → ¬ LyricEditAllowed t user req l →
                r.status = 403 ∨ (faulty ∧ r.status = 500)))
            (fun t' => faulty ∧ PutLyricLeft t user req t') := by
        intro hallowed
        have hpost : ∀ (r : Response) (t' : Tables), PutLyricLeft t user req t' →
            PutLyricLeft t user req t' ∧
            (firstLyric t req.id = none → r.status = 404 ∨ (faulty ∧ r.status = 500)) ∧
            (∀ l, firstLyric t req.id = some l → ¬ LyricEditAllowed t user req l →
              r.status = 403 ∨ (faulty ∧ r.status = 500)) := by
          intro r t' hleft
          refine ⟨hleft, fun h => ?_, fun l hl hn => ?_⟩
          · rw [hfirst] at h
            exact absurd h (by simp)
          · rw [hfirst] at hl
            cases hl
            exact absurd hallowed hn
        by_cases hblank : blank req.content = true
        · rw [if_pos hblank]
          refine tripleOn_pure _ _ _ _ _ ?_
          intro t' ht
          rw [ht]
          exact hpost _ _ (putLyricLeft_same t user req)
        · rw [if_neg hblank]
          refine tripleOn_bind faulty _ _ _
            (fun _ t' => t' = (updateLyric req lyric t).2) _ _ ?_ ?_
          · refine tripleOn_query faulty _ _ _ _ ?_ ?_
            · intro hf t' ht
              rw [ht]
              exact hcaught hf
            · intro t' ht
              rw [ht]
          intro _
          refine tripleOn_bind faulty _ _ _
            (fun _ t' => t' = (updateLyric req lyric t).2) _ _ ?_ ?_
          · refine tripleOn_query faulty _ _ _ _ ?_ (fun _ ht => ht)
            intro hf t' ht
            rw [ht]
            exact ⟨hf, putLyricLeft_updated t user req lyric hfirst hallowed⟩
          intro _
          refine tripleOn_pure _ _ _ _ _ ?_
          intro t' ht
          rw [ht]
          exact hpost _ _ (putLyricLeft_updated t user req lyric hfirst hallowed)
      simp only []
      refine tripleOn_lyricCheck faulty t user lyric _ _ _ hcaught ?_
      intro allowed hallowed
      cases allowed with
      | false => exact hrefused _
      | true =>
        have hmay : mayEditLyric t user lyric := hallowed.mp rfl
        simp only [Bool.not_true, Bool.false_eq_true, if_false]
        by_cases hmove : movesToOtherSong req.song_id lyric.song_id = true
        · simp only [hmove, if_true]
          refine tripleOn_bind_value faulty _ t _ _ _ _ _
            (tripleOn_canEditSong faulty t _ _ _ hcaught) ?_
          by_cases hnew : editOn t (req.song_id.toOption.getD 0) user.id = true
          · simp only [hnew, Bool.not_true, Bool.false_eq_true, if_false]
            refine hrest ⟨hmay, ?_⟩
            intro n hn _ _
            have := (editOn_iff _ _ _).mp hnew
            rw [hn] at this
            exact this
          · simp only [Bool.not_eq_true] at hnew
            simp only [hnew, Bool.not_false, if_true]
            exact hrefused _
        · simp only [hmove, if_false]
          refine tripleOn_bind_value faulty _ t _ true _ _ _
            (tripleOn_value faulty t true _) ?_
          simp only [Bool.not_true, Bool.false_eq_true, if_false]
          refine hrest ⟨hmay, ?_⟩
          intro n hn hn0 hne
          exact absurd ((moves_iff _ _).mpr ⟨n, hn, hn0, hne⟩) hmove
  · intro e
    refine tripleOn_pure _ _ _ _ _ ?_
    intro t' ht
    exact ⟨ht.2, fun _ => Or.inr ⟨ht.1, rfl⟩, fun _ _ _ => Or.inr ⟨ht.1, rfl⟩⟩

/-- C25: who may update a lyric.  For `PUT /:id`, whichever awaited calls fail: the
table of lyrics is changed only if the lyric exists, the requester wrote it or may edit
the song it belongs to and, when the request names another song (with an id other than
0), the requester may edit that song too.  When the lyric does not exist the tables stay
as they are and the response has status 404; when the lyric exists and the request is not
allowed the tables stay as they are and the response has status 403 (in both cases 500
after a failed call, and the status named and no other when no call fails). -/
theorem putLyric_authorization (user : UserRow) (req : Request) (o : Oracle) (w : World) :
    ((putLyric user req o w).2.db.tables.lyrics ≠ w.db.tables.lyrics →
      ∃ l, firstLyric w.db.tables req.id = some l ∧
        LyricEditAllowed w.db.tables user req l) ∧
    (firstLyric w.db.tables req.id = none →
      (putLyric user req o w).2.db.tables = w.db.tables ∧
      (∀ r, (putLyric user req o w).1 = Except.ok r → r.status = 404 ∨ r.status = 500) ∧
      ((∀ k, o.fault k = none) →
        ∃ r, (putLyric user req o w).1 = Except.ok r ∧ r.status = 404)) ∧
    (∀ l, firstLyric w.db.tables req.id = some l →
      ¬ LyricEditAllowed w.db.tables user req l →
      (putLyric user req o w).2.db.tables = w.db.tables ∧
      (∀ r, (putLyric user req o w).1 = Except.ok r → r.status = 403 ∨ r.status = 500) ∧
      ((∀ k, o.fault k = none) →
        ∃ r, (putLyric user req o w).1 = Except.ok r ∧ r.status = 403)) := by
  have hall := tripleOn_run True _ _ _ _ (putLyric_tripleOn True w.db.tables user req)
    o w (faultsOnlyIf_true o) rfl
  have hcalm := fun hc : ∀ k, o.fault k = none => tripleOn_run False _ _ _ _
    (putLyric_tripleOn False w.db.tables user req) o w (faultsOnlyIf_false o hc) rfl
  have hleft : PutLyricLeft w.db.tables user req (putLyric user req o w).2.db.tables := by
    rcases hall with ⟨r, _, h⟩ | ⟨_, h⟩
    · exact h.1
    · rw [h.2]
      exact putLyricLeft_same _ _ _
  refine ⟨?_, ?_, ?_⟩
  · intro hchanged
    rcases hleft.2.2 with h | ⟨l, hl, hallowed, _⟩
    · rw [h] at hchanged
      exact absurd rfl hchanged
    · exact ⟨l, hl, hallowed⟩
  · intro hnone
    refine ⟨hleft.1 hnone, ?_, ?_⟩
    · intro r hr
      rcases hall with ⟨r', hr', h⟩ | ⟨⟨e, he⟩, _⟩
      · rw [hr] at hr'
        cases hr'
        rcases h.2.1 hnone with h4 | h5
        · exact Or.inl h4
        · exact Or.inr h5.2
      · rw [hr] at he
        exact absurd he (by simp)
    · intro hc
      rcases hcalm hc with ⟨r, hr, h⟩ | ⟨_, h⟩
      · refine ⟨r, hr, ?_⟩
        rcases h.2.1 hnone with h4 | h5
        · exact h4
        · exact absurd h5.1 not_false
      · exact absurd h.1 not_false
  · intro l hl hnot
    refine ⟨hleft.2.1 l hl hnot, ?_, ?_⟩
    · intro r hr
      rcases hall with ⟨r', hr', h⟩ | ⟨⟨e, he⟩, _⟩
      · rw [hr] at hr'
        cases hr'
        rcases h.2.2 l hl hnot with h3 | h5
        · exact Or.inl h3
        · exact Or.inr h5.2
      · rw [hr] at he
        exact absurd he (by simp)
    · intro hc
      rcases hcalm hc with ⟨r, hr, h⟩ | ⟨_, h⟩
      · refine ⟨r, hr, ?_⟩
        rcases h.2.2 l hl hnot with h3 | h5
        · exact h3
        · exact absurd h5.1 not_false
      · exact absurd h.1 not_false

/-! ## C22: `DELETE /by-url` -/

theorem patternMatches_byUrl : patternMatches "/:id" "/by-url" = true := by decide

theorem deleteShortcut_tripleOn (faulty : Prop) (t : Tables) (user : UserRow) (req : Request)
    (hnone : ∀ s ∈ t.shortcuts, s.user_id = user.id → s.id ≠ req.id) :
    TripleOn faulty (fun t' => t' = t) (deleteShortcut user req)
      (fun r t' => t' = t ∧ (r = sendMessage 404 "Shortcut not found" ∨
        (faulty ∧ r = sendMessage 500 "Failed to delete shortcut")))
      (fun t' => faulty ∧ t' = t) := by
  unfold deleteShortcut
  refine tripleOn_withClient faulty _ _ _ _ (fun t' => faulty ∧ t' = t)
    _ (fun hf _ h => ⟨hf, h⟩) ?_ ?_
  · refine tripleOn_bind faulty _ _ _
      (fun existing t' => t' = t ∧ existing = (selectOwnShortcut req.id user.id t).1) _ _ ?_ ?_
    · refine tripleOn_query faulty _ _ _ _ ?_ ?_
      · intro hf t' ht
        exact ⟨hf, ht⟩
      · intro t' ht
        rw [ht]
        exact ⟨rfl, rfl⟩
    intro existing
    by_cases hex : existing = 0
    · rw [if_pos hex]
      exact tripleOn_pure _ _ _ _ _ (fun t' ht => ⟨ht.1, Or.inl rfl⟩)
    · intro o w _ hpre
      exfalso
      apply hex
      rw [hpre.2]
      unfold selectOwnShortcut
      simp only [List.length_eq_zero, List.filter_eq_nil_iff]
      intro s hs h
      simp only [decide_eq_true_eq] at h
      exact hnone s hs h.2 h.1
  · intro e
    refine tripleOn_pure _ _ _ _ _ ?_
    intro t' ht
    exact ⟨ht.2, Or.inr ⟨ht.1, rfl⟩⟩

/-- C22 (failing input): Express hands `DELETE /by-url` to the route `DELETE /:id`, which
is registered first, and no request at all reaches the handler of `DELETE /by-url`.  For
the request of `alice` with the url of her shortcut the answer is 404 `Shortcut not
found` and the shortcut stays, whereas the handler of `DELETE /by-url`, had it been
reached, would have removed it. -/
theorem deleteByUrl_is_shadowed :
    dispatchShortcuts "DELETE" "/by-url" = some ShortcutsRoute.delete ∧
    (∀ method path, dispatchShortcuts method path ≠ some ShortcutsRoute.deleteByUrl) ∧
    (serve sampleConfig deleteByUrlRequest (Route.shortcuts ShortcutsRoute.delete) calmOracle
        shortcutWorld).1.toOption = some (sendMessage 404 "Shortcut not found") ∧
    (serve sampleConfig deleteByUrlRequest (Route.shortcuts ShortcutsRoute.delete) calmOracle
        shortcutWorld).2.db.tables = shortcutTables ∧
    (serve sampleConfig deleteByUrlRequest (Route.shortcuts ShortcutsRoute.deleteByUrl)
        calmOracle shortcutWorld).2.db.tables.shortcuts = [] := by
  refine ⟨by decide, ?_, by decide!, by decide!, by decide!⟩
  intro method path h
  unfold dispatchShortcuts shortcutsRoutes at h
  by_cases hm : method = "DELETE"
  · subst hm
    by_cases hp : patternMatches "/:id" path = true
    · simp [List.find?, hp] at h
    · have hne : path ≠ "/by-url" := by
        intro hpath
        rw [hpath] at hp
        exact hp patternMatches_byUrl
      simp only [Bool.not_eq_true] at hp
      have h5 : patternMatches "/by-url" path = false := by
        unfold patternMatches
        simp [hne.symm]
      simp [List.find?, hp, h5] at h
  · have hm' : ("DELETE" == method) = false := by
      simp [Ne.symm hm]
    simp only [List.find?, hm', Bool.false_and] at h
    by_cases h1 : ("GET" == method) = true
    · by_cases h2 : patternMatches "/" path = true
      · simp [h1, h2] at h
      · by_cases h3 : patternMatches "/check" path = true
        · simp [h1, h2, h3] at h
        · have hp : ("POST" == method) = false := by
            have hg : "GET" = method := by simpa using h1
            subst hg
            decide
          simp [h1, h2, h3, hp] at h
    · by_cases hp : ("POST" == method) = true
      · by_cases h2 : patternMatches "/" path = true
        · simp [h1, hp, h2] at h
        · simp [h1, hp, h2] at h
      · simp [h1, hp] at h

/-- The handler of `DELETE /:id` does not look at the url of the body: when no shortcut
of the user has the id read in the path, it leaves the tables as they are and answers
404 `Shortcut not found` (500 after a failed call), whatever the url. -/
theorem deleteShortcut_ignores_url (user : UserRow) (req : Request) (o : Oracle) (w : World)
    (hnone : ∀ s ∈ w.db.tables.shortcuts, s.user_id = user.id → s.id ≠ req.id) :
    (deleteShortcut user req o w).2.db.tables = w.db.tables ∧
    ∀ r, (deleteShortcut user req o w).1 = Except.ok r →
      r = sendMessage 404 "Shortcut not found" ∨
      r = sendMessage 500 "Failed to delete shortcut" := by
  have hall := tripleOn_run True _ _ _ _
    (deleteShortcut_tripleOn True w.db.tables user req hnone) o w (faultsOnlyIf_true o) rfl
  constructor
  · rcases hall with ⟨r, _, h⟩ | ⟨_, h⟩
    · exact h.1
    · exact h.2
  · intro r hr
    rcases hall with ⟨r', hr', h⟩ | ⟨⟨e, he⟩, _⟩
    · rw [hr] at hr'
      cases hr'
      rcases h.2 with h4 | h5
      · exact Or.inl h4
      · exact Or.inr h5.2
    · rw [hr] at he
      exact absurd he (by simp)

/-! ## C30: the response of `POST /runs/bulk` against what is committed -/

/-- C30 (failing input): the two suites of `bulkRequest` are submitted and the only call
that fails is the `SELECT` that follows `commit` (awaited call number 11).  The handler
answers 500 `Failed to create test run`, the `rollback` of its `catch` block finds no
open transaction, and the run row, both suite rows and both case rows are committed: a
client that retries after this answer stores the run twice. -/
theorem bulk_failure_after_commit :
    (serveTests sampleConfig bulkRequest TestsRoute.bulk (faultAt 11) sampleWorld).1.toOption
        = some (sendMessage 500 "Failed to create test run") ∧
      sampleWorld.db.tables.runs.length = 0 ∧
      (serveTests sampleConfig bulkRequest TestsRoute.bulk (faultAt 11)
          sampleWorld).2.db.snapshot = none ∧
      (serveTests sampleConfig bulkRequest TestsRoute.bulk (faultAt 11)
          sampleWorld).2.db.committed.runs.length = 1 ∧
      (serveTests sampleConfig bulkRequest TestsRoute.bulk (faultAt 11)
          sampleWorld).2.db.committed.suites.length = 2 ∧
      (serveTests sampleConfig bulkRequest TestsRoute.bulk (faultAt 11)
          sampleWorld).2.db.committed.cases.length = 2 := by
  decide!

/-! ## Sample requests that are refused -/

/-- On the tables in which `alice` has the shortcut for `https://docs.example`, her
request for the same url with blanks around it keeps the urls distinct, leaves the tables
as they are and is answered 400. -/
theorem createShortcut_unique_urls_witness :
    UniqueUrls shortcutWorld.db.tables ∧
    UniqueUrls (createShortcut { id := 1, handle := "alice" } duplicateShortcutRequest
      calmOracle shortcutWorld).2.db.tables ∧
    (createShortcut { id := 1, handle := "alice" } duplicateShortcutRequest
      calmOracle shortcutWorld).2.db.tables = shortcutWorld.db.tables ∧
    ∃ r, (createShortcut { id := 1, handle := "alice" } duplicateShortcutRequest
      calmOracle shortcutWorld).1 = Except.ok r ∧ r.status = 400 :=
  have hunique : UniqueUrls shortcutWorld.db.tables := by
    unfold UniqueUrls
    decide
  have hrefused : blank duplicateShortcutRequest.name = true ∨
      blank duplicateShortcutRequest.url = true ∨
      ∃ s ∈ shortcutWorld.db.tables.shortcuts,
        s.user_id = ({ id := 1, handle := "alice" } : UserRow).id ∧
          s.url = jsTrim (duplicateShortcutRequest.url.getD "") :=
    Or.inr (Or.inr ⟨docsShortcut, by decide, by decide⟩)
  have h := createShortcut_unique_urls { id := 1, handle := "alice" } duplicateShortcutRequest
    calmOracle shortcutWorld
  ⟨hunique, h.1 hunique, (h.2 hrefused).1, (h.2 hrefused).2.2 (fun _ => rfl)⟩

/-- The request of `bob` to rewrite the lyric of `alice` in her private song leaves the
tables as they are and is answered 403. -/
theorem putLyric_authorization_witness :
    (putLyric { id := 2, handle := "bob" } bobLyricRequest calmOracle
      sampleWorld).2.db.tables = sampleWorld.db.tables ∧
    ∃ r, (putLyric { id := 2, handle := "bob" } bobLyricRequest calmOracle
      sampleWorld).1 = Except.ok r ∧ r.status = 403 :=
  have hnot : ¬ LyricEditAllowed sampleWorld.db.tables { id := 2, handle := "bob" }
      bobLyricRequest aliceLyric := by
    rintro ⟨h | ⟨_, h⟩, _⟩
    · exact absurd h (by decide)
    · exact absurd ((editOn_iff _ _ _).mpr h) (by decide)
  have h := (putLyric_authorization { id := 2, handle := "bob" } bobLyricRequest calmOracle
    sampleWorld).2.2 _ rfl hnot
  ⟨h.1, h.2.2 (fun _ => rfl)⟩

end Breakroom
